import Mathlib

/-!
# MSDataWritingConsumer

A shallow embedding of `OpenMS/FORMAT/DATAACCESS/MSDataWritingConsumer.h`: the
consumer that writes spectra and chromatograms to an mzML file as soon as they
are consumed.  The object is a record of its data members; every member
function is a function from the object (and its arguments) to the object after
the call together with the way the call ended.

The output file is not modelled as bytes but as the sequence of write events
made on the stream (`Token`): the header, the four list tags, one event per
rendered record and the footer, each with the arguments the source passes.
-/

namespace OpenMS

/-! ## Data declared outside the embedded header -/

/-- Modelled from the spec: the class `DataProcessing` is declared in a header
that is not part of the embedded sources.  The spec calls it a named
transformation description; the writer only stores and copies it, so a name
code is all that is kept. -/
structure DataProcessing where
  name : Nat
deriving DecidableEq

/-- Modelled from the spec: the class `ExperimentalSettings` (document-wide
metadata, instrument and experiment description) is declared in a header that
is not part of the embedded sources.  The writer only stores it and hands it to
the header encoder. -/
structure ExperimentalSettings where
  description : Nat
deriving DecidableEq

instance : Inhabited DataProcessing := ⟨⟨0⟩⟩

instance : Inhabited ExperimentalSettings := ⟨⟨0⟩⟩

/-- Modelled from the spec: `MapType::SpectrumType` (`MSSpectrum`) is declared
outside the embedded sources.  Following the data model of the spec a record carries
a retention coordinate, a level tag, an ordered sequence of
(position, intensity) pairs and an ordered sequence of processing-step
descriptors (`getDataProcessing()`).  Coordinates are read over the integers. -/
structure SpectrumType where
  rt : Int
  ms_level : Nat
  peaks : List (Int × Int)
  dataProcessing : List DataProcessing
deriving DecidableEq

/-- Modelled from the spec: `MapType::ChromatogramType` (`MSChromatogram`) is
declared outside the embedded sources; same shape as `SpectrumType`, with the
chromatogram kind tag in place of the level. -/
structure ChromatogramType where
  mz : Int
  chromatogram_type : Nat
  peaks : List (Int × Int)
  dataProcessing : List DataProcessing
deriving DecidableEq

/-- Modelled from the spec: `MapType` (`MSExperiment<>`), declared outside the
embedded sources: experimental settings plus the spectra and chromatograms
added to it.  The writer only ever builds the one-record `dummy` map from
which the header is rendered. -/
structure MapType where
  settings : ExperimentalSettings
  spectra : List SpectrumType
  chromatograms : List ChromatogramType
deriving DecidableEq

/-- The call `dummy = settings_; dummy.addSpectrum(scpy)` on a fresh `MapType`. -/
def MapType.ofSpectrum (settings : ExperimentalSettings) (scpy : SpectrumType) : MapType :=
  { settings := settings, spectra := [scpy], chromatograms := [] }

/-- The call `dummy = settings_; dummy.addChromatogram(ccpy)` on a fresh `MapType`. -/
def MapType.ofChromatogram (settings : ExperimentalSettings) (ccpy : ChromatogramType) : MapType :=
  { settings := settings, spectra := [], chromatograms := [ccpy] }

/-- The call `scpy.getDataProcessing().push_back(d)`. -/
def SpectrumType.pushDataProcessing (s : SpectrumType) (d : DataProcessing) : SpectrumType :=
  { s with dataProcessing := s.dataProcessing ++ [d] }

/-- The call `ccpy.getDataProcessing().push_back(d)`. -/
def ChromatogramType.pushDataProcessing (c : ChromatogramType) (d : DataProcessing) :
    ChromatogramType :=
  { c with dataProcessing := c.dataProcessing ++ [d] }

/-- A record handed to the writer: the tagged union of the spec, of spectrum and
chromatogram. -/
inductive Record where
  | spectrum (s : SpectrumType)
  | chromatogram (c : ChromatogramType)
deriving DecidableEq

/-! ## The output stream -/

/-- One write event on the output stream, with the arguments of the call that
made it. -/
inductive Token where
  /-- Event `writeHeader_(ofs, dummy, dps_, *validator_)`. -/
  | header (dummy : MapType)
  /-- Event `ofs << "<spectrumList count=" << spectra_expected_ << ...`. -/
  | spectrumListOpen (count : Nat)
  /-- Event `writeSpectrum_(ofs, scpy, index, *validator_, renew_native_ids, dps_)`. -/
  | spectrum (scpy : SpectrumType) (index : Nat) (renew_native_ids : Bool)
  /-- Event `ofs << "</spectrumList>"`. -/
  | spectrumListClose
  /-- Event `ofs << "<chromatogramList count=" << chromatograms_expected_ << ...`. -/
  | chromatogramListOpen (count : Nat)
  /-- Event `writeChromatogram_(ofs, ccpy, index, *validator_)`. -/
  | chromatogram (ccpy : ChromatogramType) (index : Nat)
  /-- Event `ofs << "</chromatogramList>"`. -/
  | chromatogramListClose
  /-- Event `writeFooter_(ofs, options_, spectra_offsets, chromatograms_offsets)`. -/
  | footer (spectra_offsets : List Nat) (chromatograms_offsets : List Nat)
deriving DecidableEq

/-- The `std::ofstream ofs`: whether the file is open, and what has been
written to it so far. -/
structure OfStream where
  is_open : Bool
  content : List Token
deriving DecidableEq

/-- An insertion into the stream.  Once the stream has been closed an insertion
fails and nothing reaches the file. -/
def OfStream.write (ofs : OfStream) (t : Token) : OfStream :=
  if ofs.is_open then { ofs with content := ofs.content ++ [t] } else ofs

/-- The call `ofs.close()`. -/
def OfStream.close (ofs : OfStream) : OfStream :=
  { ofs with is_open := false }

/-- The call `ofs.tellp()`: the write cursor, counted in write events. -/
def OfStream.tellp (ofs : OfStream) : Nat :=
  ofs.content.length

/-! ## The object -/

/-- The state of the owning pointer `validator_`: set by `new` in the
constructor, released by `delete` in `doCleanup`. -/
inductive Pointer where
  | allocated
  | deleted
deriving DecidableEq

/-- The data members of `MSDataWritingConsumer`.  `spectra_offsets` and
`chromatograms_offsets` are members of the base class `MzMLHandler`, passed to
`writeFooter_` in `doCleanup`.  `hook_calls` is a ghost member: the arguments
with which `processSpectrum_` and `processChromatogram_` were invoked, in call
order.  The counters are `Size`; they only ever grow by one per call and are
read as natural numbers. -/
structure MSDataWritingConsumer where
  ofs : OfStream
  started_writing_ : Bool
  writing_spectra_ : Bool
  writing_chromatograms_ : Bool
  spectra_written_ : Nat
  chromatograms_written_ : Nat
  spectra_expected_ : Nat
  chromatograms_expected_ : Nat
  add_dataprocessing_ : Bool
  validator_ : Pointer
  settings_ : ExperimentalSettings
  additional_dataprocessing_ : DataProcessing
  spectra_offsets : List Nat
  chromatograms_offsets : List Nat
  hook_calls : List Record
deriving DecidableEq

/-- How a call on the object ended. -/
inductive Outcome where
  /-- The call returned normally. -/
  | returned
  /-- The call threw `Exception::IllegalArgument`. -/
  | illegalArgument
  /-- The hook `processSpectrum_` or `processChromatogram_` threw. -/
  | hookThrew
  /-- One of the `MzMLHandler` encoder calls threw. -/
  | encoderThrew
  /-- The call used `validator_` after it had been deleted. -/
  | undefinedBehaviour
deriving DecidableEq

/-- The object after a call, and how the call ended.  When the call did not
return normally, `state` is the object as the call left it. -/
structure Result where
  state : MSDataWritingConsumer
  outcome : Outcome
deriving DecidableEq

/-- Sequencing of two steps of a member function: the second step runs only if
the first returned normally. -/
def Result.andThen (r : Result) (f : MSDataWritingConsumer → Result) : Result :=
  match r.outcome with
  | .returned => f r.state
  | _ => r

/-- What the consumer calls but does not define: the two pure virtual hooks of
the template-method pattern (`none` when the hook throws, otherwise the record
as the hook leaves it), and for each `MzMLHandler` encoder call whether it
throws on the given input. -/
structure Collaborators where
  processSpectrum_ : SpectrumType → Option SpectrumType
  processChromatogram_ : ChromatogramType → Option ChromatogramType
  writeHeaderThrows : MapType → Bool
  writeSpectrumThrows : SpectrumType → Bool
  writeChromatogramThrows : ChromatogramType → Bool

/-- Collaborators that never throw: hooks given as total functions, and an
encoder that renders every input. -/
def Collaborators.total (hs : SpectrumType → SpectrumType)
    (hc : ChromatogramType → ChromatogramType) : Collaborators :=
  { processSpectrum_ := fun s => some (hs s)
    processChromatogram_ := fun c => some (hc c)
    writeHeaderThrows := fun _ => false
    writeSpectrumThrows := fun _ => false
    writeChromatogramThrows := fun _ => false }

/-- The hooks of `PlainMSDataWritingConsumer`: both have an empty body. -/
def PlainMSDataWritingConsumer : Collaborators :=
  Collaborators.total (fun s => s) (fun c => c)

/-- Modelled from the spec: `MzMLHandler::writeHeader_` is defined outside the
embedded sources.  It renders the header from the settings and the one sample
record held by `dummy`; a call that throws is taken to have written nothing. -/
def writeHeader_ (K : Collaborators) (w : MSDataWritingConsumer) (dummy : MapType) : Result :=
  match w.validator_ with
  | .deleted => { state := w, outcome := .undefinedBehaviour }
  | .allocated =>
    if K.writeHeaderThrows dummy then { state := w, outcome := .encoderThrew }
    else { state := { w with ofs := w.ofs.write (.header dummy) }, outcome := .returned }

/-- Modelled from the spec: `MzMLHandler::writeSpectrum_` is defined outside the
embedded sources.  Before the record is written the write cursor of the sink is
captured into `spectra_offsets`; then the record is rendered with its sequence
index.  A call that throws is taken to have written and captured nothing. -/
def writeSpectrum_ (K : Collaborators) (w : MSDataWritingConsumer) (scpy : SpectrumType)
    (index : Nat) (renew_native_ids : Bool) : Result :=
  match w.validator_ with
  | .deleted => { state := w, outcome := .undefinedBehaviour }
  | .allocated =>
    if K.writeSpectrumThrows scpy then { state := w, outcome := .encoderThrew }
    else
      { state := { w with
          spectra_offsets := w.spectra_offsets ++ [w.ofs.tellp]
          ofs := w.ofs.write (.spectrum scpy index renew_native_ids) }
        outcome := .returned }

/-- Modelled from the spec: `MzMLHandler::writeChromatogram_` is defined outside
the embedded sources; as `writeSpectrum_`, with `chromatograms_offsets`. -/
def writeChromatogram_ (K : Collaborators) (w : MSDataWritingConsumer) (ccpy : ChromatogramType)
    (index : Nat) : Result :=
  match w.validator_ with
  | .deleted => { state := w, outcome := .undefinedBehaviour }
  | .allocated =>
    if K.writeChromatogramThrows ccpy then { state := w, outcome := .encoderThrew }
    else
      { state := { w with
          chromatograms_offsets := w.chromatograms_offsets ++ [w.ofs.tellp]
          ofs := w.ofs.write (.chromatogram ccpy index) }
        outcome := .returned }

namespace MSDataWritingConsumer

/-- The constructor `MSDataWritingConsumer(String filename)`: the file is
opened, the flags are false, the counters zero, the validator allocated, and
the remaining members default-constructed. -/
def new : MSDataWritingConsumer :=
  { ofs := { is_open := true, content := [] }
    started_writing_ := false
    writing_spectra_ := false
    writing_chromatograms_ := false
    spectra_written_ := 0
    chromatograms_written_ := 0
    spectra_expected_ := 0
    chromatograms_expected_ := 0
    add_dataprocessing_ := false
    validator_ := .allocated
    settings_ := default
    additional_dataprocessing_ := default
    spectra_offsets := []
    chromatograms_offsets := []
    hook_calls := [] }

/-- The member `setExperimentalSettings(exp)`. -/
def setExperimentalSettings (w : MSDataWritingConsumer) (exp : ExperimentalSettings) : Result :=
  { state := { w with settings_ := exp }, outcome := .returned }

/-- The member `setExpectedSize(expectedSpectra, expectedChromatograms)`. -/
def setExpectedSize (w : MSDataWritingConsumer) (expectedSpectra expectedChromatograms : Nat) :
    Result :=
  { state := { w with
      spectra_expected_ := expectedSpectra
      chromatograms_expected_ := expectedChromatograms }
    outcome := .returned }

/-- The member `addDataProcessing(d)`. -/
def addDataProcessing (w : MSDataWritingConsumer) (d : DataProcessing) : Result :=
  { state := { w with additional_dataprocessing_ := d, add_dataprocessing_ := true }
    outcome := .returned }

/-- The member `getNrSpectraWritten()`. -/
def getNrSpectraWritten (w : MSDataWritingConsumer) : Nat :=
  w.spectra_written_

/-- The member `getNrChromatogramsWritten()`. -/
def getNrChromatogramsWritten (w : MSDataWritingConsumer) : Nat :=
  w.chromatograms_written_

/-- The member `consumeSpectrum(s)`. -/
def consumeSpectrum (K : Collaborators) (w : MSDataWritingConsumer) (s : SpectrumType) : Result :=
  if w.writing_chromatograms_ then
    -- throw Exception::IllegalArgument("Cannot write spectra after writing chromatograms.")
    { state := w, outcome := .illegalArgument }
  else
    -- SpectrumType scpy = s; processSpectrum_(scpy);
    let w1 := { w with hook_calls := w.hook_calls ++ [Record.spectrum s] }
    match K.processSpectrum_ s with
    | none => { state := w1, outcome := .hookThrew }
    | some p =>
      -- if (add_dataprocessing_) scpy.getDataProcessing().push_back(additional_dataprocessing_);
      let scpy :=
        if w1.add_dataprocessing_ then p.pushDataProcessing w1.additional_dataprocessing_ else p
      -- if (!started_writing_) { ... writeHeader_(ofs, dummy, dps_, *validator_); started_writing_ = true; }
      let r2 : Result :=
        if !w1.started_writing_ then
          (writeHeader_ K w1 (MapType.ofSpectrum w1.settings_ scpy)).andThen fun w =>
            { state := { w with started_writing_ := true }, outcome := .returned }
        else { state := w1, outcome := .returned }
      r2.andThen fun w2 =>
        -- if (!writing_spectra_) { ofs << "<spectrumList count=..."; writing_spectra_ = true; }
        let w3 :=
          if !w2.writing_spectra_ then
            { w2 with
              ofs := w2.ofs.write (.spectrumListOpen w2.spectra_expected_)
              writing_spectra_ := true }
          else w2
        -- writeSpectrum_(ofs, scpy, spectra_written_++, *validator_, renew_native_ids, dps_);
        writeSpectrum_ K { w3 with spectra_written_ := w3.spectra_written_ + 1 } scpy
          w3.spectra_written_ false

/-- The member `consumeChromatogram(c)`. -/
def consumeChromatogram (K : Collaborators) (w : MSDataWritingConsumer) (c : ChromatogramType) :
    Result :=
  -- if (writing_spectra_) ofs << "</spectrumList>";
  let w0 :=
    if w.writing_spectra_ then { w with ofs := w.ofs.write .spectrumListClose } else w
  -- ChromatogramType ccpy = c; processChromatogram_(ccpy);
  let w1 := { w0 with hook_calls := w0.hook_calls ++ [Record.chromatogram c] }
  match K.processChromatogram_ c with
  | none => { state := w1, outcome := .hookThrew }
  | some p =>
    -- if (add_dataprocessing_) ccpy.getDataProcessing().push_back(additional_dataprocessing_);
    let ccpy :=
      if w1.add_dataprocessing_ then p.pushDataProcessing w1.additional_dataprocessing_ else p
    -- if (!started_writing_) { ... writeHeader_(ofs, dummy, dps_, *validator_); started_writing_ = true; }
    let r2 : Result :=
      if !w1.started_writing_ then
        (writeHeader_ K w1 (MapType.ofChromatogram w1.settings_ ccpy)).andThen fun w =>
          { state := { w with started_writing_ := true }, outcome := .returned }
      else { state := w1, outcome := .returned }
    r2.andThen fun w2 =>
      -- if (!writing_chromatograms_) { ofs << "<chromatogramList count=..."; ... }
      let w3 :=
        if !w2.writing_chromatograms_ then
          { w2 with
            ofs := w2.ofs.write (.chromatogramListOpen w2.chromatograms_expected_)
            writing_chromatograms_ := true
            writing_spectra_ := false }
        else w2
      -- writeChromatogram_(ofs, ccpy, chromatograms_written_++, *validator_);
      writeChromatogram_ K { w3 with chromatograms_written_ := w3.chromatograms_written_ + 1 } ccpy
        w3.chromatograms_written_

/-- The member `doCleanup()`, run by the destructor. -/
def doCleanup (w : MSDataWritingConsumer) : Result :=
  -- if (writing_spectra_) ofs << "</spectrumList>"; else if (writing_chromatograms_) ofs << "</chromatogramList>";
  let ofs1 :=
    if w.writing_spectra_ then w.ofs.write .spectrumListClose
    else if w.writing_chromatograms_ then w.ofs.write .chromatogramListClose
    else w.ofs
  -- if (started_writing_) writeFooter_(ofs, options_, spectra_offsets, chromatograms_offsets);
  let ofs2 :=
    if w.started_writing_ then ofs1.write (.footer w.spectra_offsets w.chromatograms_offsets)
    else ofs1
  -- delete validator_; ofs.close();
  match w.validator_ with
  | .deleted => { state := { w with ofs := ofs2 }, outcome := .undefinedBehaviour }
  | .allocated =>
    { state := { w with ofs := ofs2.close, validator_ := .deleted }, outcome := .returned }

end MSDataWritingConsumer

/-! ## Sequences of calls -/

/-- One of the three configuration calls of the public interface. -/
inductive Setter where
  | setExperimentalSettings (exp : ExperimentalSettings)
  | setExpectedSize (expectedSpectra expectedChromatograms : Nat)
  | addDataProcessing (d : DataProcessing)
deriving DecidableEq

/-- One call of the public interface of a live object. -/
inductive Call where
  | set (q : Setter)
  | consumeSpectrum (s : SpectrumType)
  | consumeChromatogram (c : ChromatogramType)
deriving DecidableEq

/-- Whether the call is one of the two consume calls. -/
def Call.isConsume : Call → Bool
  | .set _ => false
  | .consumeSpectrum _ => true
  | .consumeChromatogram _ => true

/-- Performing one configuration call on the object. -/
def Setter.apply (w : MSDataWritingConsumer) : Setter → Result
  | .setExperimentalSettings exp => w.setExperimentalSettings exp
  | .setExpectedSize a b => w.setExpectedSize a b
  | .addDataProcessing d => w.addDataProcessing d

/-- Performing one call on the object. -/
def call (K : Collaborators) (w : MSDataWritingConsumer) : Call → Result
  | .set q => q.apply w
  | .consumeSpectrum s => w.consumeSpectrum K s
  | .consumeChromatogram c => w.consumeChromatogram K c

/-- The object after a sequence of calls.  A call that throws leaves the object
as it was at the throw, and the caller goes on with the next call. -/
def run (K : Collaborators) (w : MSDataWritingConsumer) : List Call → MSDataWritingConsumer
  | [] => w
  | c :: cs => run K (call K w c).state cs

/-- The object after a sequence of configuration calls. -/
def configure (w : MSDataWritingConsumer) : List Setter → MSDataWritingConsumer
  | [] => w
  | q :: qs => configure (q.apply w).state qs

/-- What the file holds once the object has been destroyed after the given
calls: the destructor runs `doCleanup`. -/
def output (K : Collaborators) (w : MSDataWritingConsumer) (cs : List Call) : List Token :=
  (run K w cs).doCleanup.state.ofs.content

/-- The accepted calls of a sequence, in call order: the consume calls that
returned normally. -/
def accepted (K : Collaborators) (w : MSDataWritingConsumer) : List Call → List Call
  | [] => []
  | c :: cs =>
    (if c.isConsume = true ∧ (call K w c).outcome = .returned then [c] else [])
      ++ accepted K (call K w c).state cs

/-! ## Reading the output -/

/-- Whether the write event is the header. -/
def Token.isHeader : Token → Bool
  | .header _ => true
  | _ => false

/-- Whether the write event is the footer. -/
def Token.isFooter : Token → Bool
  | .footer _ _ => true
  | _ => false

/-- The two kinds of section of the document. -/
inductive Section where
  | spectra
  | chromatograms
deriving DecidableEq

/-- The closing tag of a section. -/
def Section.closeTag : Section → Token
  | .spectra => .spectrumListClose
  | .chromatograms => .chromatogramListClose

/-- Reading one more write event: a list-open tag opens its section, a
list-close tag leaves no section open. -/
def Section.read (st : Option Section) : Token → Option Section
  | .spectrumListOpen _ => some .spectra
  | .chromatogramListOpen _ => some .chromatograms
  | .spectrumListClose => none
  | .chromatogramListClose => none
  | _ => st

/-- The section left open at the end of the written output, if any. -/
def openSection (out : List Token) : Option Section :=
  out.foldl Section.read none

/-! ## Notions used in the statements -/

open MSDataWritingConsumer

/-- The object is live: its validator is allocated and its stream is open, as
from the constructor until the destructor runs. -/
def Live (w : MSDataWritingConsumer) : Prop :=
  w.validator_ = .allocated ∧ w.ofs.is_open = true

/-- The copy of a spectrum handed to the encoder: the result of the hook, with the
configured `DataProcessing` appended when `add_dataprocessing_` is set. -/
def renderedSpectrum (hs : SpectrumType → SpectrumType) (add : Bool) (d : DataProcessing)
    (s : SpectrumType) : SpectrumType :=
  if add then (hs s).pushDataProcessing d else hs s

/-- The copy of a chromatogram handed to the encoder: the result of the hook, with
the configured `DataProcessing` appended when `add_dataprocessing_` is set. -/
def renderedChromatogram (hc : ChromatogramType → ChromatogramType) (add : Bool)
    (d : DataProcessing) (c : ChromatogramType) : ChromatogramType :=
  if add then (hc c).pushDataProcessing d else hc c

/-- The write events of a run of spectra, numbered consecutively from the
given index, in order. -/
def spectrumTokens (render : SpectrumType → SpectrumType) : Nat → List SpectrumType → List Token
  | _, [] => []
  | i, s :: ss => Token.spectrum (render s) i false :: spectrumTokens render (i + 1) ss

/-- The write events of a run of chromatograms, numbered consecutively from the
given index, in order. -/
def chromatogramTokens (render : ChromatogramType → ChromatogramType) :
    Nat → List ChromatogramType → List Token
  | _, [] => []
  | i, c :: cs => Token.chromatogram (render c) i :: chromatogramTokens render (i + 1) cs

/-- The sample map from which the header is rendered: the settings and the
first record consumed, as rendered. -/
def sampleMap (hs : SpectrumType → SpectrumType) (hc : ChromatogramType → ChromatogramType)
    (w : MSDataWritingConsumer) : List SpectrumType → List ChromatogramType → MapType
  | s :: _, _ =>
    MapType.ofSpectrum w.settings_
      (renderedSpectrum hs w.add_dataprocessing_ w.additional_dataprocessing_ s)
  | [], c :: _ =>
    MapType.ofChromatogram w.settings_
      (renderedChromatogram hc w.add_dataprocessing_ w.additional_dataprocessing_ c)
  | [], [] => { settings := w.settings_, spectra := [], chromatograms := [] }

/-- The document of claim C3, written after its words: one header; if there are
spectra, the spectra-section open tag, the rendered spectra in order and the
close tag; if there are chromatograms, the chromatogram-section open tag, the
rendered chromatograms in order and the close tag; one footer, holding the
position of every record in the document. -/
def document (hs : SpectrumType → SpectrumType) (hc : ChromatogramType → ChromatogramType)
    (w : MSDataWritingConsumer) (ss : List SpectrumType) (cs : List ChromatogramType) :
    List Token :=
  [Token.header (sampleMap hs hc w ss cs)]
  ++ (if 0 < ss.length then
        [Token.spectrumListOpen w.spectra_expected_]
        ++ spectrumTokens
            (renderedSpectrum hs w.add_dataprocessing_ w.additional_dataprocessing_) 0 ss
        ++ [Token.spectrumListClose]
      else [])
  ++ (if 0 < cs.length then
        [Token.chromatogramListOpen w.chromatograms_expected_]
        ++ chromatogramTokens
            (renderedChromatogram hc w.add_dataprocessing_ w.additional_dataprocessing_) 0 cs
        ++ [Token.chromatogramListClose]
      else [])
  ++ [Token.footer (List.range' 2 ss.length)
        (List.range' (if 0 < ss.length then ss.length + 4 else 2) cs.length)]

/-- The section the flags say is open, read in the order `doCleanup` tests
them. -/
def openFlag (w : MSDataWritingConsumer) : Option Section :=
  if w.writing_spectra_ then some .spectra
  else if w.writing_chromatograms_ then some .chromatograms
  else none

/-- A spectrum with two peaks, for the concrete instances. -/
def exampleSpectrum : SpectrumType :=
  { rt := 10, ms_level := 1, peaks := [(100, 5), (200, 7)], dataProcessing := [] }

/-- A chromatogram with two points, for the concrete instances. -/
def exampleChromatogram : ChromatogramType :=
  { mz := 300, chromatogram_type := 0, peaks := [(1, 4), (2, 6)], dataProcessing := [] }

/-- The output begins with the header and holds no other header and no
footer. -/
def headerAtFront : List Token → Bool
  | .header _ :: rest => rest.all fun t => !t.isHeader && !t.isFooter
  | _ => false

/-- What holds of the object and of the file after any calls on a live object,
whatever the collaborators do: the validator is allocated and the stream open;
a section flag is set only once writing has started, the two section flags
are never set together, and one of them is set once writing has started; and
the file is empty until writing has started, from when on it begins with the
header and holds no other header and no footer. -/
structure Inv (w : MSDataWritingConsumer) : Prop where
  live : Live w
  spectra_started : w.writing_spectra_ = true → w.started_writing_ = true
  chromatograms_started : w.writing_chromatograms_ = true → w.started_writing_ = true
  exclusive : w.writing_spectra_ = true → w.writing_chromatograms_ = false
  section_open : w.started_writing_ = true →
    w.writing_spectra_ = true ∨ w.writing_chromatograms_ = true
  empty : w.started_writing_ = false → w.ofs.content = []
  header_first : w.started_writing_ = true → headerAtFront w.ofs.content = true

/-- Whether the write event is a rendered spectrum. -/
def Token.isSpectrum : Token → Bool
  | .spectrum _ _ _ => true
  | _ => false

/-- Whether the write event is a rendered chromatogram. -/
def Token.isChromatogram : Token → Bool
  | .chromatogram _ _ => true
  | _ => false

/-- A complete spectra section: the spectrumList open tag, rendered spectra
only, and the spectrumList close tag. -/
def IsSpectraSection (l : List Token) : Prop :=
  ∃ n toks, l = Token.spectrumListOpen n :: (toks ++ [Token.spectrumListClose])
    ∧ ∀ t ∈ toks, t.isSpectrum = true

/-- A complete chromatogram section: the chromatogramList open tag, rendered
chromatograms only, and the chromatogramList close tag. -/
def IsChromatogramSection (l : List Token) : Prop :=
  ∃ m toks, l = Token.chromatogramListOpen m :: (toks ++ [Token.chromatogramListClose])
    ∧ ∀ t ∈ toks, t.isChromatogram = true

/-- The sectioning of claim C11: the output is empty, or it is the header, then
at most one complete spectra section, then at most one complete chromatogram
section, then the footer. -/
def WellSectioned (out : List Token) : Prop :=
  out = [] ∨ ∃ dummy sec1 sec2 so co,
    out = Token.header dummy :: (sec1 ++ sec2 ++ [Token.footer so co])
    ∧ (sec1 = [] ∨ IsSpectraSection sec1)
    ∧ (sec2 = [] ∨ IsChromatogramSection sec2)

/-- The sectioning of the file of a live object, with collaborators that do not
throw: while `writing_spectra_` is set the file is the header, the spectrumList
open tag and rendered spectra; while `writing_chromatograms_` is set it is the
header, at most one complete spectra section, the chromatogramList open tag
and rendered chromatograms. -/
structure Sectioned (w : MSDataWritingConsumer) : Prop where
  spectra : w.writing_spectra_ = true → ∃ dummy n toks,
    w.ofs.content = Token.header dummy :: Token.spectrumListOpen n :: toks
      ∧ ∀ t ∈ toks, t.isSpectrum = true
  chromatograms : w.writing_chromatograms_ = true → ∃ dummy sec1 m toks,
    w.ofs.content = Token.header dummy :: (sec1 ++ Token.chromatogramListOpen m :: toks)
      ∧ (sec1 = [] ∨ IsSpectraSection sec1)
      ∧ ∀ t ∈ toks, t.isChromatogram = true

/-- The two records of a `consumeSpectrum(SpectrumType & s)` call as the call
leaves them: first the record `s` of the caller, which the call holds by
non-const reference, then the local `scpy` when it was built and the hook
returned.  The body reads `s` once, to copy-construct `scpy`; the hook and the
`push_back` are applied to `scpy`, and the encoder calls are given `scpy`. -/
def consumeSpectrum_records (K : Collaborators) (w : MSDataWritingConsumer) (s : SpectrumType) :
    SpectrumType × Option SpectrumType :=
  if w.writing_chromatograms_ then (s, none)
  else
    -- SpectrumType scpy = s;
    let scpy := s
    -- processSpectrum_(scpy);
    match K.processSpectrum_ scpy with
    | none => (s, none)
    | some scpy =>
      -- if (add_dataprocessing_) scpy.getDataProcessing().push_back(additional_dataprocessing_);
      let scpy :=
        if w.add_dataprocessing_ then scpy.pushDataProcessing w.additional_dataprocessing_
        else scpy
      (s, some scpy)

/-- The two records of a `consumeChromatogram(ChromatogramType & c)` call as the
call leaves them: the record `c` of the caller, held by non-const reference,
and the local `ccpy` when the hook returned.  The body reads `c` once, to
copy-construct `ccpy`. -/
def consumeChromatogram_records (K : Collaborators) (w : MSDataWritingConsumer)
    (c : ChromatogramType) : ChromatogramType × Option ChromatogramType :=
  -- ChromatogramType ccpy = c;
  let ccpy := c
  -- processChromatogram_(ccpy);
  match K.processChromatogram_ ccpy with
  | none => (c, none)
  | some ccpy =>
    -- if (add_dataprocessing_) ccpy.getDataProcessing().push_back(additional_dataprocessing_);
    let ccpy :=
      if w.add_dataprocessing_ then ccpy.pushDataProcessing w.additional_dataprocessing_
      else ccpy
    (c, some ccpy)

/-- A hook that multiplies every intensity of a spectrum by the constant `k`. -/
def SpectrumType.scaleIntensity (k : Int) (s : SpectrumType) : SpectrumType :=
  { s with peaks := s.peaks.map fun p => (p.1, k * p.2) }

/-- A hook that multiplies every intensity of a chromatogram by the constant
`k`. -/
def ChromatogramType.scaleIntensity (k : Int) (c : ChromatogramType) : ChromatogramType :=
  { c with peaks := c.peaks.map fun p => (p.1, k * p.2) }

/-- Whether the call is `addDataProcessing`. -/
def Call.isAddDataProcessing : Call → Bool
  | .set (.addDataProcessing _) => true
  | _ => false

/-- The settings in force after one more configuration call. -/
def Setter.settingsAfter (e : ExperimentalSettings) : Setter → ExperimentalSettings
  | .setExperimentalSettings exp => exp
  | _ => e

/-- The experimental settings most recently set by a sequence of configuration
calls on a new object: the argument of the last `setExperimentalSettings`, and
the default-constructed settings when there is none. -/
def lastSettings (cfg : List Setter) : ExperimentalSettings :=
  cfg.foldl Setter.settingsAfter default

/-- The positions, counted from `i`, of the write events that satisfy `p`. -/
def positionsFrom (p : Token → Bool) : Nat → List Token → List Nat
  | _, [] => []
  | i, t :: ts => if p t then i :: positionsFrom p (i + 1) ts else positionsFrom p (i + 1) ts

/-- The positions of the rendered spectra in the output: for each, the number
of write events before it. -/
def spectrumPositions (out : List Token) : List Nat :=
  positionsFrom Token.isSpectrum 0 out

/-- The positions of the rendered chromatograms in the output. -/
def chromatogramPositions (out : List Token) : List Nat :=
  positionsFrom Token.isChromatogram 0 out

/-- The sequence indices with which the spectra of the output were rendered, in
output order. -/
def spectrumIndices : List Token → List Nat
  | [] => []
  | .spectrum _ i _ :: ts => i :: spectrumIndices ts
  | _ :: ts => spectrumIndices ts

/-- The sequence indices with which the chromatograms of the output were
rendered, in output order. -/
def chromatogramIndices : List Token → List Nat
  | [] => []
  | .chromatogram _ i :: ts => i :: chromatogramIndices ts
  | _ :: ts => chromatogramIndices ts

/-- Whether the call is `consumeSpectrum`. -/
def Call.isConsumeSpectrum : Call → Bool
  | .consumeSpectrum _ => true
  | _ => false

/-- Whether the call is `consumeChromatogram`. -/
def Call.isConsumeChromatogram : Call → Bool
  | .consumeChromatogram _ => true
  | _ => false

/-- The bookkeeping of a live object, with collaborators that do not throw: the
offset lists are the positions of the rendered records in the file, one per
record written, and the rendered records of each kind carry the indices
0, 1, 2, ... up to the counter of that kind. -/
structure Indexed (w : MSDataWritingConsumer) : Prop where
  spectra_offsets_eq : w.spectra_offsets = spectrumPositions w.ofs.content
  chromatograms_offsets_eq : w.chromatograms_offsets = chromatogramPositions w.ofs.content
  spectra_count : w.spectra_offsets.length = w.spectra_written_
  chromatograms_count : w.chromatograms_offsets.length = w.chromatograms_written_
  spectrum_indices : spectrumIndices w.ofs.content = List.range w.spectra_written_
  chromatogram_indices : chromatogramIndices w.ofs.content = List.range w.chromatograms_written_

/-- The order of the offsets of a live object, with collaborators that do not
throw: the spectra offsets followed by the chromatogram offsets increase
strictly, all lie inside the file, and there is no chromatogram offset before
`writing_chromatograms_` is set. -/
structure Ordered (w : MSDataWritingConsumer) : Prop where
  increasing : List.Pairwise (fun a b => a < b) (w.spectra_offsets ++ w.chromatograms_offsets)
  inside : ∀ a ∈ w.spectra_offsets ++ w.chromatograms_offsets, a < w.ofs.content.length
  none_yet : w.writing_chromatograms_ = false → w.chromatograms_offsets = []

/-! ## NoopMSDataWritingConsumer -/

namespace NoopMSDataWritingConsumer

/-- The constructor `NoopMSDataWritingConsumer(String filename)`: it only runs
the constructor of the base class. -/
def new : MSDataWritingConsumer :=
  MSDataWritingConsumer.new

/-- The override `setExperimentalSettings(exp)`: an empty body. -/
def setExperimentalSettings (w : MSDataWritingConsumer) (_exp : ExperimentalSettings) : Result :=
  { state := w, outcome := .returned }

/-- The override `consumeSpectrum(s)`: an empty body. -/
def consumeSpectrum (w : MSDataWritingConsumer) (_s : SpectrumType) : Result :=
  { state := w, outcome := .returned }

/-- The override `consumeChromatogram(c)`: an empty body. -/
def consumeChromatogram (w : MSDataWritingConsumer) (_c : ChromatogramType) : Result :=
  { state := w, outcome := .returned }

/-- The private override `doCleanup()`: an empty body. -/
def doCleanup (w : MSDataWritingConsumer) : Result :=
  { state := w, outcome := .returned }

/-- Performing one call of the public interface on the object: the three
overrides, and `setExpectedSize` and `addDataProcessing` as inherited. -/
def call (w : MSDataWritingConsumer) : Call → Result
  | .set (.setExperimentalSettings exp) => NoopMSDataWritingConsumer.setExperimentalSettings w exp
  | .set (.setExpectedSize a b) => MSDataWritingConsumer.setExpectedSize w a b
  | .set (.addDataProcessing d) => MSDataWritingConsumer.addDataProcessing w d
  | .consumeSpectrum s => NoopMSDataWritingConsumer.consumeSpectrum w s
  | .consumeChromatogram c => NoopMSDataWritingConsumer.consumeChromatogram w c

/-- The object after a sequence of calls. -/
def run (w : MSDataWritingConsumer) : List Call → MSDataWritingConsumer
  | [] => w
  | c :: cs => NoopMSDataWritingConsumer.run (NoopMSDataWritingConsumer.call w c).state cs

/-- The outcomes of a sequence of calls, in call order. -/
def outcomes (w : MSDataWritingConsumer) : List Call → List Outcome
  | [] => []
  | c :: cs =>
    (NoopMSDataWritingConsumer.call w c).outcome
      :: NoopMSDataWritingConsumer.outcomes (NoopMSDataWritingConsumer.call w c).state cs

/-- The destruction of the object.  The class declares no destructor; the
destructor of the base class runs `doCleanup()`, and a virtual call made from
`~MSDataWritingConsumer` is bound to `MSDataWritingConsumer::doCleanup`, not to
the override. -/
def destructor (w : MSDataWritingConsumer) : Result :=
  MSDataWritingConsumer.doCleanup w

end NoopMSDataWritingConsumer

/-- A variant with the empty hooks of `PlainMSDataWritingConsumer` whose encoder
throws on every spectrum it is asked to render. -/
def spectrumEncoderThrows : Collaborators :=
  { PlainMSDataWritingConsumer with writeSpectrumThrows := fun _ => true }

/-- A variant whose hook `processChromatogram_` throws on every chromatogram;
the spectrum hook is empty and the encoder renders everything. -/
def chromatogramHookThrows : Collaborators :=
  { PlainMSDataWritingConsumer with processChromatogram_ := fun _ => none }

/-- Whether the write event is the spectrumList close tag. -/
def Token.isSpectrumListClose : Token → Bool
  | .spectrumListClose => true
  | _ => false

/-- Writing has started exactly when a record has been counted. -/
def StartedIffWritten (w : MSDataWritingConsumer) : Prop :=
  w.started_writing_ = true ↔ 0 < w.spectra_written_ + w.chromatograms_written_

/-- A variant with the empty hooks of `PlainMSDataWritingConsumer` whose encoder
throws on every chromatogram it is asked to render. -/
def chromatogramEncoderThrows : Collaborators :=
  { PlainMSDataWritingConsumer with writeChromatogramThrows := fun _ => true }

/-- A variant whose hook `processSpectrum_` throws on every spectrum; the
chromatogram hook is empty and the encoder renders everything. -/
def spectrumHookThrows : Collaborators :=
  { PlainMSDataWritingConsumer with processSpectrum_ := fun _ => none }

/-- Whether the write event is the chromatogramList open tag. -/
def Token.isChromatogramListOpen : Token → Bool
  | .chromatogramListOpen _ => true
  | _ => false

/-- The flag `writing_chromatograms_` is set exactly when the chromatogramList
open tag is in the file. -/
def ChromatogramsOpened (w : MSDataWritingConsumer) : Prop :=
  w.writing_chromatograms_ = w.ofs.content.any Token.isChromatogramListOpen

/-! ## DBConnection::executeQueries -/

namespace DBConnection

/-- The two exceptions that `executeQuery` is documented to throw. -/
inductive QueryError where
  | invalidQuery
  | notConnected
deriving DecidableEq

/-- The member template `executeQueries(queries)` of `DBConnection.h`.  The
connection is a value of any type `σ`.  Two things it uses are not defined in
the embedded sources and are parameters: `trim`, the `String::trim` of OpenMS,
and `executeQuery`, which from the connection and a query gives the connection
after the call and the exception when the call throws.  The result is the
connection when `executeQueries` ends and the exception that left it, if
any. -/
def executeQueries {σ : Type} (trim : String → String)
    (executeQuery : σ → String → σ × Option QueryError) : σ → List String → σ × Option QueryError
  | db, [] => (db, none)
  | db, it :: rest =>
    -- line = *it; line.trim();
    let line := trim it
    -- if (line != "") executeQuery(line);
    if line != "" then
      match executeQuery db line with
      | (db1, some e) => (db1, some e)
      | (db1, none) => executeQueries trim executeQuery db1 rest
    else executeQueries trim executeQuery db rest

/-- The behaviour claim C25 describes, written after its words: the given
queries are executed one after the other, in order, and the first exception
ends the execution. -/
def executeInOrder {σ : Type} (executeQuery : σ → String → σ × Option QueryError) :
    σ → List String → σ × Option QueryError
  | db, [] => (db, none)
  | db, q :: qs =>
    match executeQuery db q with
    | (db1, some e) => (db1, some e)
    | (db1, none) => executeInOrder executeQuery db1 qs

/-- The entries that claim C25 says are executed: every entry trimmed, the
empty ones left out, in container order. -/
def queriesToExecute (trim : String → String) (queries : List String) : List String :=
  (queries.map trim).filter fun line => line != ""

/-- A connection that records the queries handed to `executeQuery`, in call
order; `invalid` tells for which queries the call throws, and what. -/
def recordingQuery (invalid : String → Option QueryError) (log : List String) (query : String) :
    List String × Option QueryError :=
  (log ++ [query], invalid query)

/-- A trimming function for the concrete instances: blanks are removed at both
ends. -/
def trimBlanks (s : String) : String :=
  String.mk (((s.data.dropWhile fun ch => ch == ' ').reverse.dropWhile
    fun ch => ch == ' ').reverse)

end DBConnection

/-! ## GaussFitter: residuals and Jacobian -/

namespace Math
namespace GaussFitter

/-- The value `gaussFitterf_` stores in `f[i]` for the data point `it`
(`it.1` is `getX()`, `it.2` is `getY()`).  The numbers are read in a field `α`
and `exp` is the exponential function on it. -/
def residual {α : Type} [Field α] (exp : α → α) (A x0 sig : α) (it : α × α) : α :=
  A * exp (-1 * (it.1 - x0) ^ 2 / (2 * sig ^ 2)) - it.2

/-- The function `gaussFitterf_`: `x` is the parameter vector `(A, x0, sig)`,
`data` the points; the result lists `f[0]`, `f[1]`, ... -/
def gaussFitterf_ {α : Type} [Field α] (exp : α → α) (x : α × α × α) (data : List (α × α)) :
    List α :=
  let A := x.1
  let x0 := x.2.1
  let sig := x.2.2
  data.map fun it => residual exp A x0 sig it

/-- The three values `gaussFitterdf_` stores in row `i` of `J` (columns 0, 1
and 2) for the data point `it`. -/
def jacobianRow {α : Type} [Field α] (exp : α → α) (A x0 sig : α) (it : α × α) : α × α × α :=
  (exp (-1 * (it.1 - x0) ^ 2 / (2 * sig ^ 2)),
   A * exp (-1 * (it.1 - x0) ^ 2 / (2 * sig ^ 2)) * (-1 * (-2 * it.1 + 2 * x0) / (2 * sig ^ 2)),
   A * exp (-1 * (it.1 - x0) ^ 2 / (2 * sig ^ 2)) * ((it.1 - x0) ^ 2 / (4 * sig ^ 3)))

/-- The function `gaussFitterdf_`: the rows of `J`, one per data point. -/
def gaussFitterdf_ {α : Type} [Field α] (exp : α → α) (x : α × α × α) (data : List (α × α)) :
    List (α × α × α) :=
  let A := x.1
  let x0 := x.2.1
  let sig := x.2.2
  data.map fun it => jacobianRow exp A x0 sig it

end GaussFitter
end Math

/-! ## Single calls with collaborators that do not throw -/

theorem consumeSpectrum_total (hs hc) (w : MSDataWritingConsumer) (s : SpectrumType)
    (hl : Live w) (hwc : w.writing_chromatograms_ = false) :
    consumeSpectrum (Collaborators.total hs hc) w s =
      { state := { w with
          hook_calls := w.hook_calls ++ [Record.spectrum s]
          ofs :=
            { is_open := true
              content := w.ofs.content
                ++ (if w.started_writing_ then []
                    else [Token.header (MapType.ofSpectrum w.settings_ (renderedSpectrum hs w.add_dataprocessing_ w.additional_dataprocessing_ s))])
                ++ (if w.writing_spectra_ then [] else [Token.spectrumListOpen w.spectra_expected_])
                ++ [Token.spectrum (renderedSpectrum hs w.add_dataprocessing_ w.additional_dataprocessing_ s) w.spectra_written_ false] }
          started_writing_ := true
          writing_spectra_ := true
          spectra_written_ := w.spectra_written_ + 1
          spectra_offsets := w.spectra_offsets
            ++ [w.ofs.content.length + (if w.started_writing_ then 0 else 1)
                + (if w.writing_spectra_ then 0 else 1)] }
        outcome := .returned } := by
  obtain ⟨hv, ho⟩ := hl
  rcases w with ⟨⟨o, ct⟩, st, ws, wc, nsw, ncw, nse, nce, adp, v, se, dp, so, co, hk⟩
  simp only at hv ho hwc
  subst hv ho hwc
  cases st <;> cases ws <;>
    simp [consumeSpectrum, writeHeader_, writeSpectrum_, Result.andThen, Collaborators.total,
      OfStream.write, OfStream.tellp, renderedSpectrum]

theorem consumeChromatogram_total (hs hc) (w : MSDataWritingConsumer) (c : ChromatogramType)
    (hl : Live w) :
    consumeChromatogram (Collaborators.total hs hc) w c =
      { state := { w with
          hook_calls := w.hook_calls ++ [Record.chromatogram c]
          ofs :=
            { is_open := true
              content := w.ofs.content
                ++ (if w.writing_spectra_ then [Token.spectrumListClose] else [])
                ++ (if w.started_writing_ then []
                    else [Token.header
                      (MapType.ofChromatogram w.settings_ (renderedChromatogram hc w.add_dataprocessing_ w.additional_dataprocessing_ c))])
                ++ (if w.writing_chromatograms_ then []
                    else [Token.chromatogramListOpen w.chromatograms_expected_])
                ++ [Token.chromatogram (renderedChromatogram hc w.add_dataprocessing_ w.additional_dataprocessing_ c) w.chromatograms_written_] }
          started_writing_ := true
          writing_spectra_ := w.writing_chromatograms_ && w.writing_spectra_
          writing_chromatograms_ := true
          chromatograms_written_ := w.chromatograms_written_ + 1
          chromatograms_offsets := w.chromatograms_offsets
            ++ [w.ofs.content.length + (if w.writing_spectra_ then 1 else 0)
                + (if w.started_writing_ then 0 else 1)
                + (if w.writing_chromatograms_ then 0 else 1)] }
        outcome := .returned } := by
  obtain ⟨hv, ho⟩ := hl
  rcases w with ⟨⟨o, ct⟩, st, ws, wc, nsw, ncw, nse, nce, adp, v, se, dp, so, co, hk⟩
  simp only at hv ho
  subst hv ho
  cases st <;> cases ws <;> cases wc <;>
    simp [consumeChromatogram, writeHeader_, writeChromatogram_, Result.andThen,
      Collaborators.total, OfStream.write, OfStream.tellp, renderedChromatogram]

theorem run_append (K : Collaborators) (w : MSDataWritingConsumer) (as bs : List Call) :
    run K w (as ++ bs) = run K (run K w as) bs := by
  induction as generalizing w with
  | nil => rfl
  | cons a as ih => simp [run, ih]

theorem spectrumTokens_length (render : SpectrumType → SpectrumType) (i : Nat)
    (ss : List SpectrumType) : (spectrumTokens render i ss).length = ss.length := by
  induction ss generalizing i with
  | nil => rfl
  | cons s ss ih => simp [spectrumTokens, ih]

theorem chromatogramTokens_length (render : ChromatogramType → ChromatogramType) (i : Nat)
    (cs : List ChromatogramType) : (chromatogramTokens render i cs).length = cs.length := by
  induction cs generalizing i with
  | nil => rfl
  | cons c cs ih => simp [chromatogramTokens, ih]

theorem run_spectra_total (hs hc) (ss : List SpectrumType) (w : MSDataWritingConsumer)
    (hl : Live w) (hwc : w.writing_chromatograms_ = false)
    (hst : w.started_writing_ = true) (hws : w.writing_spectra_ = true) :
    run (Collaborators.total hs hc) w (ss.map Call.consumeSpectrum) =
      { w with
        hook_calls := w.hook_calls ++ ss.map Record.spectrum
        ofs :=
          { is_open := true
            content := w.ofs.content
              ++ spectrumTokens (renderedSpectrum hs w.add_dataprocessing_ w.additional_dataprocessing_) w.spectra_written_ ss }
        spectra_written_ := w.spectra_written_ + ss.length
        spectra_offsets := w.spectra_offsets ++ List.range' w.ofs.content.length ss.length } := by
  induction ss generalizing w with
  | nil =>
    obtain ⟨hv, ho⟩ := hl
    rcases w with ⟨⟨o, ct⟩, st, ws, wc, nsw, ncw, nse, nce, adp, v, se, dp, so, co, hk⟩
    simp only at ho
    subst ho
    simp [run, spectrumTokens]
  | cons s ss ih =>
    simp only [List.map_cons, run, call]
    rw [consumeSpectrum_total hs hc w s hl hwc]
    dsimp only
    rw [ih]
    · simp [hst, hws, spectrumTokens, renderedSpectrum, List.range'_succ, Nat.add_assoc,
        Nat.add_comm 1]
    · exact ⟨hl.1, rfl⟩
    · exact hwc
    · rfl
    · rfl

theorem run_chromatograms_total (hs hc) (cs : List ChromatogramType) (w : MSDataWritingConsumer)
    (hl : Live w) (hwc : w.writing_chromatograms_ = true)
    (hst : w.started_writing_ = true) (hws : w.writing_spectra_ = false) :
    run (Collaborators.total hs hc) w (cs.map Call.consumeChromatogram) =
      { w with
        hook_calls := w.hook_calls ++ cs.map Record.chromatogram
        ofs :=
          { is_open := true
            content := w.ofs.content
              ++ chromatogramTokens
                (renderedChromatogram hc w.add_dataprocessing_ w.additional_dataprocessing_)
                w.chromatograms_written_ cs }
        chromatograms_written_ := w.chromatograms_written_ + cs.length
        chromatograms_offsets :=
          w.chromatograms_offsets ++ List.range' w.ofs.content.length cs.length } := by
  induction cs generalizing w with
  | nil =>
    obtain ⟨hv, ho⟩ := hl
    rcases w with ⟨⟨o, ct⟩, st, ws, wc, nsw, ncw, nse, nce, adp, v, se, dp, so, co, hk⟩
    simp only at ho
    subst ho
    simp [run, chromatogramTokens]
  | cons c cs ih =>
    simp only [List.map_cons, run, call]
    rw [consumeChromatogram_total hs hc w c hl]
    dsimp only
    rw [ih]
    · simp [hst, hws, hwc, chromatogramTokens, List.range'_succ, Nat.add_assoc, Nat.add_comm 1]
    · exact ⟨hl.1, rfl⟩
    · rfl
    · rfl
    · simp [hws]

theorem doCleanup_live (w : MSDataWritingConsumer) (hl : Live w) :
    w.doCleanup =
      { state := { w with
          ofs :=
            { is_open := false
              content := w.ofs.content
                ++ (if w.writing_spectra_ then [Token.spectrumListClose]
                    else if w.writing_chromatograms_ then [Token.chromatogramListClose] else [])
                ++ (if w.started_writing_
                    then [Token.footer w.spectra_offsets w.chromatograms_offsets] else []) }
          validator_ := .deleted }
        outcome := .returned } := by
  obtain ⟨hv, ho⟩ := hl
  rcases w with ⟨⟨o, ct⟩, st, ws, wc, nsw, ncw, nse, nce, adp, v, se, dp, so, co, hk⟩
  simp only at hv ho
  subst hv ho
  cases st <;> cases ws <;> cases wc <;> simp [doCleanup, OfStream.write, OfStream.close]

theorem configure_new (cfg : List Setter) :
    ∃ se nse nce adp dp, configure new cfg =
      { ofs := { is_open := true, content := [] }
        started_writing_ := false
        writing_spectra_ := false
        writing_chromatograms_ := false
        spectra_written_ := 0
        chromatograms_written_ := 0
        spectra_expected_ := nse
        chromatograms_expected_ := nce
        add_dataprocessing_ := adp
        validator_ := .allocated
        settings_ := se
        additional_dataprocessing_ := dp
        spectra_offsets := []
        chromatograms_offsets := []
        hook_calls := [] } := by
  suffices h : ∀ (cfg : List Setter) (se : ExperimentalSettings) (nse nce : Nat) (adp : Bool)
      (dp : DataProcessing), ∃ se2 nse2 nce2 adp2 dp2,
      configure ⟨⟨true, []⟩, false, false, false, 0, 0, nse, nce, adp, .allocated, se, dp,
        [], [], []⟩ cfg =
      ⟨⟨true, []⟩, false, false, false, 0, 0, nse2, nce2, adp2, .allocated, se2, dp2,
        [], [], []⟩ from h cfg default 0 0 false default
  intro cfg
  induction cfg with
  | nil => intro se nse nce adp dp; exact ⟨se, nse, nce, adp, dp, rfl⟩
  | cons q qs ih =>
    intro se nse nce adp dp
    cases q with
    | setExperimentalSettings e => exact ih e nse nce adp dp
    | setExpectedSize a b => exact ih se a b adp dp
    | addDataProcessing d => exact ih se nse nce true d

theorem spectrumTokens_countP_isHeader (render : SpectrumType → SpectrumType) (i : Nat)
    (ss : List SpectrumType) : (spectrumTokens render i ss).countP Token.isHeader = 0 := by
  induction ss generalizing i with
  | nil => rfl
  | cons s ss ih => simp [spectrumTokens, ih, Token.isHeader]

theorem spectrumTokens_countP_isFooter (render : SpectrumType → SpectrumType) (i : Nat)
    (ss : List SpectrumType) : (spectrumTokens render i ss).countP Token.isFooter = 0 := by
  induction ss generalizing i with
  | nil => rfl
  | cons s ss ih => simp [spectrumTokens, ih, Token.isFooter]

theorem chromatogramTokens_countP_isHeader (render : ChromatogramType → ChromatogramType)
    (i : Nat) (cs : List ChromatogramType) :
    (chromatogramTokens render i cs).countP Token.isHeader = 0 := by
  induction cs generalizing i with
  | nil => rfl
  | cons c cs ih => simp [chromatogramTokens, ih, Token.isHeader]

theorem chromatogramTokens_countP_isFooter (render : ChromatogramType → ChromatogramType)
    (i : Nat) (cs : List ChromatogramType) :
    (chromatogramTokens render i cs).countP Token.isFooter = 0 := by
  induction cs generalizing i with
  | nil => rfl
  | cons c cs ih => simp [chromatogramTokens, ih, Token.isFooter]

theorem output_spectra_then_chromatograms (hs hc) (cfg : List Setter)
    (ss : List SpectrumType) (cs : List ChromatogramType) (h : 1 ≤ ss.length + cs.length) :
    output (Collaborators.total hs hc) (configure new cfg)
        (ss.map Call.consumeSpectrum ++ cs.map Call.consumeChromatogram)
      = document hs hc (configure new cfg) ss cs := by
  obtain ⟨se, nse, nce, adp, dp, hw⟩ := configure_new cfg
  rw [hw]
  unfold output
  rw [run_append]
  cases ss with
  | nil =>
    cases cs with
    | nil => simp at h
    | cons c cs =>
      simp only [List.map_nil, List.map_cons, run, call]
      rw [consumeChromatogram_total hs hc _ c ⟨rfl, rfl⟩]
      dsimp only
      rw [run_chromatograms_total hs hc cs _ ⟨rfl, rfl⟩ rfl rfl (by simp)]
      rw [doCleanup_live _ ⟨rfl, rfl⟩]
      simp [document, sampleMap, chromatogramTokens, spectrumTokens, List.range'_succ]
  | cons s ss =>
    simp only [List.map_cons, run, call]
    rw [consumeSpectrum_total hs hc _ s ⟨rfl, rfl⟩ rfl]
    dsimp only
    rw [run_spectra_total hs hc ss _ ⟨rfl, rfl⟩ rfl rfl rfl]
    cases cs with
    | nil =>
      simp only [List.map_nil, run]
      rw [doCleanup_live _ ⟨rfl, rfl⟩]
      simp [document, sampleMap, chromatogramTokens, spectrumTokens, List.range'_succ]
    | cons c cs =>
      simp only [List.map_cons, run, call]
      rw [consumeChromatogram_total hs hc _ c ⟨rfl, rfl⟩]
      dsimp only
      rw [run_chromatograms_total hs hc cs _ ⟨rfl, rfl⟩ rfl rfl (by simp)]
      rw [doCleanup_live _ ⟨rfl, rfl⟩]
      simp [document, sampleMap, chromatogramTokens, spectrumTokens, List.range'_succ,
        spectrumTokens_length]

theorem inv_new : Inv new := by
  constructor <;> simp [new, Live]

theorem inv_setter (w : MSDataWritingConsumer) (q : Setter) (h : Inv w) :
    Inv (q.apply w).state := by
  obtain ⟨⟨hv, ho⟩, h1, h2, h3, h4, h5, h6⟩ := h
  cases q <;> exact ⟨⟨hv, ho⟩, h1, h2, h3, h4, h5, h6⟩

theorem headerAtFront_append (l ts : List Token) (h : headerAtFront l = true) :
    headerAtFront (l ++ ts) = ts.all fun t => !t.isHeader && !t.isFooter := by
  cases l with
  | nil => simp [headerAtFront] at h
  | cons a l =>
    cases a <;> simp_all [headerAtFront]

theorem inv_consumeSpectrum (K : Collaborators) (w : MSDataWritingConsumer) (s : SpectrumType)
    (h : Inv w) : Inv (w.consumeSpectrum K s).state := by
  obtain ⟨⟨hv, ho⟩, h1, h2, h3, h4, h5, h6⟩ := h
  rcases w with ⟨⟨o, ct⟩, st, ws, wc, nsw, ncw, nse, nce, adp, v, se, dp, so, co, hk⟩
  simp only at hv ho h1 h2 h3 h4 h5 h6
  subst hv ho
  cases hp : K.processSpectrum_ s with
  | none =>
    cases st <;> cases ws <;> cases wc <;> simp at h1 h2 h3 h4 h5 h6 <;>
      simp only [consumeSpectrum, hp] <;> constructor <;> simp [Live, *]
  | some p =>
    cases hth : K.writeHeaderThrows
        (MapType.ofSpectrum se (if adp = true then p.pushDataProcessing dp else p)) <;>
      cases hts : K.writeSpectrumThrows (if adp = true then p.pushDataProcessing dp else p) <;>
      cases st <;> cases ws <;> cases wc <;> simp at h1 h2 h3 h4 h5 h6 <;>
      simp only [consumeSpectrum, writeHeader_, writeSpectrum_, Result.andThen, hp, hth, hts,
        Bool.not_false, Bool.not_true, Bool.false_eq_true, if_true, if_false] <;>
      constructor <;>
      (try simp [Live, headerAtFront_append, OfStream.write, Token.isHeader, Token.isFooter, *]) <;>
      (try simp [headerAtFront, Token.isHeader, Token.isFooter])

theorem inv_consumeChromatogram (K : Collaborators) (w : MSDataWritingConsumer)
    (c : ChromatogramType) (h : Inv w) : Inv (w.consumeChromatogram K c).state := by
  obtain ⟨⟨hv, ho⟩, h1, h2, h3, h4, h5, h6⟩ := h
  rcases w with ⟨⟨o, ct⟩, st, ws, wc, nsw, ncw, nse, nce, adp, v, se, dp, so, co, hk⟩
  simp only at hv ho h1 h2 h3 h4 h5 h6
  subst hv ho
  cases hp : K.processChromatogram_ c with
  | none =>
    cases st <;> cases ws <;> cases wc <;> simp at h1 h2 h3 h4 h5 h6 <;>
      simp only [consumeChromatogram, hp] <;> constructor <;>
      (try simp [Live, headerAtFront_append, OfStream.write, Token.isHeader, Token.isFooter, *])
  | some p =>
    cases hth : K.writeHeaderThrows
        (MapType.ofChromatogram se (if adp = true then p.pushDataProcessing dp else p)) <;>
      cases hts : K.writeChromatogramThrows
        (if adp = true then p.pushDataProcessing dp else p) <;>
      cases st <;> cases ws <;> cases wc <;> simp at h1 h2 h3 h4 h5 h6 <;>
      simp only [consumeChromatogram, writeHeader_, writeChromatogram_, Result.andThen, hp, hth,
        hts, Bool.not_false, Bool.not_true, Bool.false_eq_true, if_true, if_false] <;>
      constructor <;>
      (try simp [Live, headerAtFront_append, OfStream.write, Token.isHeader, Token.isFooter, *]) <;>
      (try simp [headerAtFront, Token.isHeader, Token.isFooter])

theorem inv_call (K : Collaborators) (w : MSDataWritingConsumer) (c : Call) (h : Inv w) :
    Inv (call K w c).state := by
  cases c with
  | set q => exact inv_setter w q h
  | consumeSpectrum s => exact inv_consumeSpectrum K w s h
  | consumeChromatogram c => exact inv_consumeChromatogram K w c h

theorem inv_run (K : Collaborators) (cs : List Call) (w : MSDataWritingConsumer) (h : Inv w) :
    Inv (run K w cs) := by
  induction cs generalizing w with
  | nil => exact h
  | cons c cs ih => exact ih _ (inv_call K w c h)

theorem consumeSpectrum_rejected (K : Collaborators) (w : MSDataWritingConsumer)
    (s : SpectrumType) (hwc : w.writing_chromatograms_ = true) :
    w.consumeSpectrum K s = { state := w, outcome := .illegalArgument } := by
  simp [consumeSpectrum, hwc]

theorem consumeSpectrum_outcome_iff (K : Collaborators) (w : MSDataWritingConsumer)
    (s : SpectrumType) :
    (w.consumeSpectrum K s).outcome = .illegalArgument ↔ w.writing_chromatograms_ = true := by
  constructor
  · intro h
    by_contra hwc
    simp only [Bool.not_eq_true] at hwc
    rcases w with ⟨⟨o, ct⟩, st, ws, wc, nsw, ncw, nse, nce, adp, v, se, dp, so, co, hk⟩
    simp only at hwc
    subst hwc
    revert h
    cases hp : K.processSpectrum_ s with
    | none => simp [consumeSpectrum, hp]
    | some p =>
      cases hth : K.writeHeaderThrows
          (MapType.ofSpectrum se (if adp = true then p.pushDataProcessing dp else p)) <;>
        cases hts : K.writeSpectrumThrows (if adp = true then p.pushDataProcessing dp else p) <;>
        cases st <;> cases ws <;> cases v <;>
        simp [consumeSpectrum, writeHeader_, writeSpectrum_, Result.andThen, hp, hth, hts]
  · intro h
    rw [consumeSpectrum_rejected K w s h]

theorem total_call_writing_chromatograms (hs hc) (w : MSDataWritingConsumer) (a : Call)
    (hl : Live w) :
    (call (Collaborators.total hs hc) w a).state.writing_chromatograms_ = true ↔
      (w.writing_chromatograms_ = true ∨ ∃ c, a = Call.consumeChromatogram c) := by
  cases a with
  | set q => cases q <;> simp [call, Setter.apply, setExperimentalSettings, setExpectedSize,
      addDataProcessing]
  | consumeSpectrum s =>
    cases hwc : w.writing_chromatograms_ with
    | true => simp [call, consumeSpectrum_rejected _ w s hwc, hwc]
    | false => simp [call, consumeSpectrum_total hs hc w s hl hwc, hwc]
  | consumeChromatogram c => simp [call, consumeChromatogram_total hs hc w c hl]

theorem total_run_writing_chromatograms (hs hc) (cs : List Call) (w : MSDataWritingConsumer)
    (h : Inv w) :
    (run (Collaborators.total hs hc) w cs).writing_chromatograms_ = true ↔
      (w.writing_chromatograms_ = true ∨
        ∃ c, Call.consumeChromatogram c ∈ accepted (Collaborators.total hs hc) w cs) := by
  induction cs generalizing w with
  | nil => simp [run, accepted]
  | cons a cs ih =>
    simp only [run, accepted]
    rw [ih _ (inv_call _ w a h), total_call_writing_chromatograms hs hc w a h.live]
    cases a with
    | set q => simp [Call.isConsume]
    | consumeSpectrum s => simp [Call.isConsume]
    | consumeChromatogram c =>
      simp [Call.isConsume, call, consumeChromatogram_total hs hc w c h.live]

/-- With hooks and an encoder that do not throw: on an object reached by any
calls, `consumeSpectrum` throws `Exception::IllegalArgument` exactly when
`writing_chromatograms_` is set, which is exactly when an earlier
`consumeChromatogram` call was accepted; in every other state it returns
normally. -/
theorem consumeSpectrum_throws_iff_chromatogram_accepted
    (hs : SpectrumType → SpectrumType) (hc : ChromatogramType → ChromatogramType)
    (cs : List Call) (s : SpectrumType) :
    (((run (Collaborators.total hs hc) new cs).consumeSpectrum
          (Collaborators.total hs hc) s).outcome = .illegalArgument
      ↔ (run (Collaborators.total hs hc) new cs).writing_chromatograms_ = true)
    ∧ ((run (Collaborators.total hs hc) new cs).writing_chromatograms_ = true
      ↔ ∃ c, Call.consumeChromatogram c ∈ accepted (Collaborators.total hs hc) new cs)
    ∧ (((run (Collaborators.total hs hc) new cs).consumeSpectrum
          (Collaborators.total hs hc) s).outcome = .illegalArgument
      ∨ ((run (Collaborators.total hs hc) new cs).consumeSpectrum
          (Collaborators.total hs hc) s).outcome = .returned) := by
  have hinv := inv_run (Collaborators.total hs hc) cs new inv_new
  refine ⟨consumeSpectrum_outcome_iff _ _ s, ?_, ?_⟩
  · rw [total_run_writing_chromatograms hs hc cs new inv_new]
    simp [new]
  · cases hwc : (run (Collaborators.total hs hc) new cs).writing_chromatograms_ with
    | true => exact Or.inl ((consumeSpectrum_outcome_iff _ _ s).2 hwc)
    | false => exact Or.inr (by rw [consumeSpectrum_total hs hc _ s hinv.live hwc])

/-- C2: a `consumeSpectrum` call that throws `Exception::IllegalArgument`
leaves the object exactly as it was: both counters, the three flags and both
offset lists are unchanged, nothing is appended to the file, and the hook
`processSpectrum_` is not invoked. -/
theorem consumeSpectrum_rejected_leaves_object (K : Collaborators) (w : MSDataWritingConsumer)
    (s : SpectrumType) (h : (w.consumeSpectrum K s).outcome = .illegalArgument) :
    (w.consumeSpectrum K s).state = w
    ∧ (w.consumeSpectrum K s).state.spectra_written_ = w.spectra_written_
    ∧ (w.consumeSpectrum K s).state.chromatograms_written_ = w.chromatograms_written_
    ∧ (w.consumeSpectrum K s).state.started_writing_ = w.started_writing_
    ∧ (w.consumeSpectrum K s).state.writing_spectra_ = w.writing_spectra_
    ∧ (w.consumeSpectrum K s).state.writing_chromatograms_ = w.writing_chromatograms_
    ∧ (w.consumeSpectrum K s).state.spectra_offsets = w.spectra_offsets
    ∧ (w.consumeSpectrum K s).state.chromatograms_offsets = w.chromatograms_offsets
    ∧ (w.consumeSpectrum K s).state.ofs.content = w.ofs.content
    ∧ (w.consumeSpectrum K s).state.hook_calls = w.hook_calls := by
  rw [consumeSpectrum_rejected K w s ((consumeSpectrum_outcome_iff K w s).1 h)]
  simp

/-- C2, concrete instance: one chromatogram is consumed on a new object, then a
spectrum is offered. -/
theorem consumeSpectrum_rejected_leaves_object_witness :
    (((new.consumeChromatogram PlainMSDataWritingConsumer exampleChromatogram).state.consumeSpectrum
        PlainMSDataWritingConsumer exampleSpectrum).outcome = .illegalArgument)
    ∧ ((new.consumeChromatogram PlainMSDataWritingConsumer exampleChromatogram).state.consumeSpectrum
        PlainMSDataWritingConsumer exampleSpectrum).state
      = (new.consumeChromatogram PlainMSDataWritingConsumer exampleChromatogram).state :=
  ⟨by decide,
    (consumeSpectrum_rejected_leaves_object PlainMSDataWritingConsumer
      (new.consumeChromatogram PlainMSDataWritingConsumer exampleChromatogram).state
      exampleSpectrum (by decide)).1⟩

/-- C3: for N spectra followed by M chromatograms with N + M ≥ 1 (hooks and
encoder that do not throw), the file after destruction is exactly the document:
one header; when N > 0 the spectrumList open tag, the N rendered spectra in
consumption order and the close tag; when M > 0 the chromatogramList open tag,
the M rendered chromatograms in consumption order and the close tag; one
footer.  The header and the footer each occur exactly once. -/
theorem spectra_then_chromatograms_then_close_document
    (hs : SpectrumType → SpectrumType) (hc : ChromatogramType → ChromatogramType)
    (cfg : List Setter) (ss : List SpectrumType) (cs : List ChromatogramType)
    (h : 1 ≤ ss.length + cs.length) :
    output (Collaborators.total hs hc) (configure new cfg)
        (ss.map Call.consumeSpectrum ++ cs.map Call.consumeChromatogram)
      = document hs hc (configure new cfg) ss cs
    ∧ (output (Collaborators.total hs hc) (configure new cfg)
        (ss.map Call.consumeSpectrum ++ cs.map Call.consumeChromatogram)).countP Token.isHeader = 1
    ∧ (output (Collaborators.total hs hc) (configure new cfg)
        (ss.map Call.consumeSpectrum ++ cs.map Call.consumeChromatogram)).countP Token.isFooter
        = 1 := by
  rw [output_spectra_then_chromatograms hs hc cfg ss cs h]
  refine ⟨rfl, ?_, ?_⟩
  · unfold document
    split_ifs <;>
      simp [List.countP_append, List.countP_cons, spectrumTokens_countP_isHeader,
        chromatogramTokens_countP_isHeader, Token.isHeader]
  · unfold document
    split_ifs <;>
      simp [List.countP_append, List.countP_cons, spectrumTokens_countP_isFooter,
        chromatogramTokens_countP_isFooter, Token.isFooter]

/-- C3, concrete instance: three spectra, two chromatograms, expected sizes 3
and 2. -/
theorem spectra_then_chromatograms_then_close_document_witness :
    1 ≤ [exampleSpectrum, exampleSpectrum, exampleSpectrum].length
        + [exampleChromatogram, exampleChromatogram].length
    ∧ output PlainMSDataWritingConsumer (configure new [Setter.setExpectedSize 3 2])
        ([exampleSpectrum, exampleSpectrum, exampleSpectrum].map Call.consumeSpectrum
          ++ [exampleChromatogram, exampleChromatogram].map Call.consumeChromatogram)
      = [Token.header (MapType.ofSpectrum default exampleSpectrum),
         Token.spectrumListOpen 3,
         Token.spectrum exampleSpectrum 0 false,
         Token.spectrum exampleSpectrum 1 false,
         Token.spectrum exampleSpectrum 2 false,
         Token.spectrumListClose,
         Token.chromatogramListOpen 2,
         Token.chromatogram exampleChromatogram 0,
         Token.chromatogram exampleChromatogram 1,
         Token.chromatogramListClose,
         Token.footer [2, 3, 4] [7, 8]] :=
  ⟨by decide,
    (spectra_then_chromatograms_then_close_document (fun s => s) (fun c => c)
      [Setter.setExpectedSize 3 2] [exampleSpectrum, exampleSpectrum, exampleSpectrum]
      [exampleChromatogram, exampleChromatogram] (by decide)).1.trans (by decide)⟩

theorem run_spectra_counters (hs hc) (ss : List SpectrumType) (w : MSDataWritingConsumer)
    (hl : Live w) (hwc : w.writing_chromatograms_ = false) :
    Live (run (Collaborators.total hs hc) w (ss.map Call.consumeSpectrum))
    ∧ (run (Collaborators.total hs hc) w (ss.map Call.consumeSpectrum)).spectra_written_
        = w.spectra_written_ + ss.length
    ∧ (run (Collaborators.total hs hc) w (ss.map Call.consumeSpectrum)).chromatograms_written_
        = w.chromatograms_written_ := by
  induction ss generalizing w with
  | nil => exact ⟨hl, rfl, rfl⟩
  | cons s ss ih =>
    simp only [List.map_cons, run, call]
    have hstep := consumeSpectrum_total hs hc w s hl hwc
    have hl2 : Live (w.consumeSpectrum (Collaborators.total hs hc) s).state := by
      rw [hstep]; exact ⟨hl.1, rfl⟩
    have hwc2 : (w.consumeSpectrum (Collaborators.total hs hc) s).state.writing_chromatograms_
        = false := by rw [hstep]; exact hwc
    have hn : (w.consumeSpectrum (Collaborators.total hs hc) s).state.spectra_written_
        = w.spectra_written_ + 1 := by rw [hstep]
    have hm : (w.consumeSpectrum (Collaborators.total hs hc) s).state.chromatograms_written_
        = w.chromatograms_written_ := by rw [hstep]
    obtain ⟨h1, h2, h3⟩ := ih _ hl2 hwc2
    refine ⟨h1, ?_, ?_⟩
    · rw [h2, hn, List.length_cons]; omega
    · rw [h3, hm]

theorem run_chromatograms_counters (hs hc) (cs : List ChromatogramType)
    (w : MSDataWritingConsumer) (hl : Live w) :
    Live (run (Collaborators.total hs hc) w (cs.map Call.consumeChromatogram))
    ∧ (run (Collaborators.total hs hc) w (cs.map Call.consumeChromatogram)).spectra_written_
        = w.spectra_written_
    ∧ (run (Collaborators.total hs hc) w (cs.map Call.consumeChromatogram)).chromatograms_written_
        = w.chromatograms_written_ + cs.length := by
  induction cs generalizing w with
  | nil => exact ⟨hl, rfl, rfl⟩
  | cons c cs ih =>
    simp only [List.map_cons, run, call]
    have hstep := consumeChromatogram_total hs hc w c hl
    have hl2 : Live (w.consumeChromatogram (Collaborators.total hs hc) c).state := by
      rw [hstep]; exact ⟨hl.1, rfl⟩
    have hn : (w.consumeChromatogram (Collaborators.total hs hc) c).state.spectra_written_
        = w.spectra_written_ := by rw [hstep]
    have hm : (w.consumeChromatogram (Collaborators.total hs hc) c).state.chromatograms_written_
        = w.chromatograms_written_ + 1 := by rw [hstep]
    obtain ⟨h1, h2, h3⟩ := ih _ hl2
    refine ⟨h1, ?_, ?_⟩
    · rw [h2, hn]
    · rw [h3, hm, List.length_cons]; omega

/-- C4: after N spectra followed by M chromatograms on a new, configured object
(hooks and encoder that do not throw), `getNrSpectraWritten` returns N and
`getNrChromatogramsWritten` returns M, before the destructor runs and after. -/
theorem counters_after_spectra_then_chromatograms
    (hs : SpectrumType → SpectrumType) (hc : ChromatogramType → ChromatogramType)
    (cfg : List Setter) (ss : List SpectrumType) (cs : List ChromatogramType) :
    (run (Collaborators.total hs hc) (configure new cfg)
        (ss.map Call.consumeSpectrum ++ cs.map Call.consumeChromatogram)).getNrSpectraWritten
      = ss.length
    ∧ (run (Collaborators.total hs hc) (configure new cfg)
        (ss.map Call.consumeSpectrum ++ cs.map Call.consumeChromatogram)).getNrChromatogramsWritten
      = cs.length
    ∧ (run (Collaborators.total hs hc) (configure new cfg)
        (ss.map Call.consumeSpectrum
          ++ cs.map Call.consumeChromatogram)).doCleanup.state.getNrSpectraWritten
      = ss.length
    ∧ (run (Collaborators.total hs hc) (configure new cfg)
        (ss.map Call.consumeSpectrum
          ++ cs.map Call.consumeChromatogram)).doCleanup.state.getNrChromatogramsWritten
      = cs.length := by
  obtain ⟨se, nse, nce, adp, dp, hw⟩ := configure_new cfg
  rw [run_append]
  obtain ⟨h1, h2, h3⟩ := run_spectra_counters hs hc ss (configure new cfg)
    (by rw [hw]; exact ⟨rfl, rfl⟩) (by rw [hw])
  obtain ⟨k1, k2, k3⟩ := run_chromatograms_counters hs hc cs _ h1
  rw [doCleanup_live _ k1]
  simp only [getNrSpectraWritten, getNrChromatogramsWritten, k2, k3, h2, h3]
  rw [hw]
  simp

theorem inv_header_shape (w : MSDataWritingConsumer) (h : Inv w) :
    (w.started_writing_ = false ∧ w.ofs.content = [])
    ∨ (w.started_writing_ = true ∧ ∃ dummy rest, w.ofs.content = Token.header dummy :: rest
        ∧ ∀ t ∈ rest, t.isHeader = false ∧ t.isFooter = false) := by
  cases hst : w.started_writing_ with
  | false => exact Or.inl ⟨rfl, h.empty hst⟩
  | true =>
    right
    refine ⟨rfl, ?_⟩
    have hf := h.header_first hst
    cases hc : w.ofs.content with
    | nil => rw [hc] at hf; simp [headerAtFront] at hf
    | cons a rest =>
      rw [hc] at hf
      cases a <;> simp [headerAtFront] at hf
      exact ⟨_, rest, rfl, by simpa using hf⟩

theorem inv_no_footer (w : MSDataWritingConsumer) (h : Inv w) :
    ∀ t ∈ w.ofs.content, t.isFooter = false := by
  rcases inv_header_shape w h with ⟨_, hc⟩ | ⟨_, d, rest, hc, hr⟩
  · simp [hc]
  · intro t ht
    rw [hc] at ht
    rcases List.mem_cons.1 ht with rfl | ht
    · rfl
    · exact (hr t ht).2

theorem inv_header_mem_iff (w : MSDataWritingConsumer) (h : Inv w) :
    (∃ dummy, Token.header dummy ∈ w.ofs.content) ↔ w.started_writing_ = true := by
  rcases inv_header_shape w h with ⟨hst, hc⟩ | ⟨hst, d, rest, hc, _⟩
  · simp [hc, hst]
  · simp [hc, hst]

theorem doCleanup_content (w : MSDataWritingConsumer) (h : Inv w) :
    w.doCleanup.state.ofs.content =
      w.ofs.content
        ++ (match openFlag w with
            | some sec => [sec.closeTag, Token.footer w.spectra_offsets w.chromatograms_offsets]
            | none => []) := by
  rw [doCleanup_live w h.live]
  have h1 := h.spectra_started
  have h2 := h.chromatograms_started
  have h4 := h.section_open
  cases hst : w.started_writing_ <;> cases hws : w.writing_spectra_ <;>
    cases hwc : w.writing_chromatograms_ <;>
    simp_all [openFlag, Section.closeTag]

/-- C5: whatever the calls and whatever the collaborators do, the file is empty
or begins with the header and holds no second header, both while the object is
live and after its destruction: the header is written at most once and nothing
is written before it. -/
theorem header_at_most_once_and_first (K : Collaborators) (cs : List Call) :
    ((run K new cs).ofs.content = []
      ∨ ∃ dummy rest, (run K new cs).ofs.content = Token.header dummy :: rest
          ∧ ∀ t ∈ rest, t.isHeader = false)
    ∧ (run K new cs).ofs.content.countP Token.isHeader ≤ 1
    ∧ (output K new cs = []
      ∨ ∃ dummy rest, output K new cs = Token.header dummy :: rest
          ∧ ∀ t ∈ rest, t.isHeader = false)
    ∧ (output K new cs).countP Token.isHeader ≤ 1 := by
  have hinv := inv_run K cs new inv_new
  have key : ∀ l : List Token, (l = [] ∨ ∃ dummy rest, l = Token.header dummy :: rest
      ∧ ∀ t ∈ rest, t.isHeader = false) → l.countP Token.isHeader ≤ 1 := by
    rintro l (rfl | ⟨d, rest, rfl, hr⟩)
    · simp
    · have : rest.countP Token.isHeader = 0 := by
        rw [List.countP_eq_zero]
        intro t ht
        simp [hr t ht]
      simp [List.countP_cons, this, Token.isHeader]
  have hlive : (run K new cs).ofs.content = []
      ∨ ∃ dummy rest, (run K new cs).ofs.content = Token.header dummy :: rest
          ∧ ∀ t ∈ rest, t.isHeader = false := by
    rcases inv_header_shape _ hinv with ⟨_, hc⟩ | ⟨_, d, rest, hc, hr⟩
    · exact Or.inl hc
    · exact Or.inr ⟨d, rest, hc, fun t ht => (hr t ht).1⟩
  have hout : output K new cs = []
      ∨ ∃ dummy rest, output K new cs = Token.header dummy :: rest
          ∧ ∀ t ∈ rest, t.isHeader = false := by
    unfold output
    rw [doCleanup_content _ hinv]
    rcases inv_header_shape _ hinv with ⟨hst, hc⟩ | ⟨_, d, rest, hc, hr⟩
    · left
      have h1 := hinv.spectra_started
      have h2 := hinv.chromatograms_started
      cases hws : (run K new cs).writing_spectra_ <;>
        cases hwc : (run K new cs).writing_chromatograms_ <;>
        simp_all [openFlag]
    · right
      rw [hc]
      refine ⟨d, _, List.cons_append _ _ _, ?_⟩
      intro t ht
      rcases List.mem_append.1 ht with ht | ht
      · exact (hr t ht).1
      · cases hof : openFlag (run K new cs) with
        | none => rw [hof] at ht; simp at ht
        | some sec =>
          rw [hof] at ht
          simp only [List.mem_cons, List.mem_singleton, List.not_mem_nil, or_false] at ht
          rcases ht with rfl | rfl
          · cases sec <;> rfl
          · rfl
  exact ⟨hlive, key _ hlive, hout, key _ hout⟩

theorem total_call_started (hs hc) (w : MSDataWritingConsumer) (a : Call) (hl : Live w) :
    (call (Collaborators.total hs hc) w a).state.started_writing_ = true ↔
      (w.started_writing_ = true
        ∨ (a.isConsume = true ∧ (call (Collaborators.total hs hc) w a).outcome = .returned)) := by
  cases a with
  | set q => cases q <;> simp [call, Setter.apply, setExperimentalSettings, setExpectedSize,
      addDataProcessing, Call.isConsume]
  | consumeSpectrum s =>
    cases hwc : w.writing_chromatograms_ with
    | true => simp [call, consumeSpectrum_rejected _ w s hwc, Call.isConsume]
    | false => simp [call, consumeSpectrum_total hs hc w s hl hwc, Call.isConsume]
  | consumeChromatogram c =>
    simp [call, consumeChromatogram_total hs hc w c hl, Call.isConsume]

theorem total_run_started (hs hc) (cs : List Call) (w : MSDataWritingConsumer) (h : Inv w) :
    (run (Collaborators.total hs hc) w cs).started_writing_ = true ↔
      (w.started_writing_ = true ∨ accepted (Collaborators.total hs hc) w cs ≠ []) := by
  induction cs generalizing w with
  | nil => simp [run, accepted]
  | cons a cs ih =>
    simp only [run, accepted]
    rw [ih _ (inv_call _ w a h), total_call_started hs hc w a h.live]
    by_cases hacc : a.isConsume = true
        ∧ (call (Collaborators.total hs hc) w a).outcome = .returned
    · simp [hacc]
    · simp [hacc]

theorem footer_mem_output_iff (K : Collaborators) (cs : List Call) :
    (∃ so co, Token.footer so co ∈ output K new cs)
      ↔ (run K new cs).started_writing_ = true := by
  have hinv := inv_run K cs new inv_new
  have hnf := inv_no_footer _ hinv
  unfold output
  rw [doCleanup_content _ hinv]
  have h1 := hinv.spectra_started
  have h2 := hinv.chromatograms_started
  have h4 := hinv.section_open
  constructor
  · rintro ⟨so, co, hm⟩
    rcases List.mem_append.1 hm with hm | hm
    · have := hnf _ hm
      simp [Token.isFooter] at this
    · cases hof : openFlag (run K new cs) with
      | none => rw [hof] at hm; simp at hm
      | some sec =>
        cases hws : (run K new cs).writing_spectra_ <;>
          cases hwc : (run K new cs).writing_chromatograms_ <;>
          simp_all [openFlag]
  · intro hst
    refine ⟨(run K new cs).spectra_offsets, (run K new cs).chromatograms_offsets, ?_⟩
    apply List.mem_append_right
    cases hws : (run K new cs).writing_spectra_ <;>
      cases hwc : (run K new cs).writing_chromatograms_ <;>
      simp_all [openFlag]

/-- After any calls on a new object, no footer is in the file before the
destructor runs, and `doCleanup` writes the footer exactly when the header is
in the file; with hooks and an encoder that do not throw, the header is in the
file exactly when at least one consume call was accepted. -/
theorem footer_iff_header_iff_accepted (K : Collaborators)
    (hs : SpectrumType → SpectrumType) (hc : ChromatogramType → ChromatogramType)
    (cs : List Call) :
    (∀ t ∈ (run K new cs).ofs.content, t.isFooter = false)
    ∧ ((∃ so co, Token.footer so co ∈ output K new cs)
      ↔ ∃ dummy, Token.header dummy ∈ (run K new cs).ofs.content)
    ∧ ((∃ dummy, Token.header dummy ∈ (run (Collaborators.total hs hc) new cs).ofs.content)
      ↔ accepted (Collaborators.total hs hc) new cs ≠ []) := by
  refine ⟨inv_no_footer _ (inv_run K cs new inv_new), ?_, ?_⟩
  · rw [footer_mem_output_iff, inv_header_mem_iff _ (inv_run K cs new inv_new)]
  · rw [inv_header_mem_iff _ (inv_run _ cs new inv_new), total_run_started hs hc cs new inv_new]
    simp [new]

theorem openSection_append (l ts : List Token) :
    openSection (l ++ ts) = ts.foldl Section.read (openSection l) := by
  simp [openSection, List.foldl_append]

theorem total_call_openSection (hs hc) (w : MSDataWritingConsumer) (a : Call) (h : Inv w)
    (ho : openSection w.ofs.content = openFlag w) :
    openSection (call (Collaborators.total hs hc) w a).state.ofs.content
      = openFlag (call (Collaborators.total hs hc) w a).state := by
  cases a with
  | set q => cases q <;> exact ho
  | consumeSpectrum s =>
    cases hwc : w.writing_chromatograms_ with
    | true => simpa [call, consumeSpectrum_rejected _ w s hwc] using ho
    | false =>
      have h1 := h.spectra_started
      simp only [call, consumeSpectrum_total hs hc w s h.live hwc]
      simp only [List.append_assoc, openSection_append, ho]
      cases hst : w.started_writing_ <;> cases hws : w.writing_spectra_ <;>
        simp_all [openFlag, Section.read]
  | consumeChromatogram c =>
    have h1 := h.spectra_started
    have h2 := h.chromatograms_started
    have h3 := h.exclusive
    simp only [call, consumeChromatogram_total hs hc w c h.live]
    simp only [List.append_assoc, openSection_append, ho]
    cases hst : w.started_writing_ <;> cases hws : w.writing_spectra_ <;>
      cases hwc : w.writing_chromatograms_ <;>
      simp_all [openFlag, Section.read]

theorem total_run_openSection (hs hc) (cs : List Call) (w : MSDataWritingConsumer) (h : Inv w)
    (ho : openSection w.ofs.content = openFlag w) :
    openSection (run (Collaborators.total hs hc) w cs).ofs.content
      = openFlag (run (Collaborators.total hs hc) w cs) := by
  induction cs generalizing w with
  | nil => exact ho
  | cons a cs ih => exact ih _ (inv_call _ w a h) (total_call_openSection hs hc w a h ho)

/-- With hooks and an encoder that do not throw: after any calls on a new object,
what `doCleanup` appends to the file is, when a section is open at the end of
the file, the close tag of that very section followed by the footer, and
nothing when no section is open.  No footer is in the file before; so the
footer occurs at most once and, when it occurs, is the last thing written,
after every record and after the close tag. -/
theorem footer_last_after_matching_close
    (hs : SpectrumType → SpectrumType) (hc : ChromatogramType → ChromatogramType)
    (cs : List Call) :
    output (Collaborators.total hs hc) new cs
      = (run (Collaborators.total hs hc) new cs).ofs.content
        ++ (match openSection (run (Collaborators.total hs hc) new cs).ofs.content with
            | some sec =>
              [sec.closeTag,
               Token.footer (run (Collaborators.total hs hc) new cs).spectra_offsets
                 (run (Collaborators.total hs hc) new cs).chromatograms_offsets]
            | none => [])
    ∧ (∀ t ∈ (run (Collaborators.total hs hc) new cs).ofs.content, t.isFooter = false)
    ∧ (output (Collaborators.total hs hc) new cs).countP Token.isFooter ≤ 1
    ∧ (∀ so co, Token.footer so co ∈ output (Collaborators.total hs hc) new cs →
        (output (Collaborators.total hs hc) new cs).getLast? = some (Token.footer so co)) := by
  have hinv := inv_run (Collaborators.total hs hc) cs new inv_new
  have hnf := inv_no_footer _ hinv
  have hos := total_run_openSection hs hc cs new inv_new (by simp [new, openSection, openFlag])
  have hout : output (Collaborators.total hs hc) new cs
      = (run (Collaborators.total hs hc) new cs).ofs.content
        ++ (match openSection (run (Collaborators.total hs hc) new cs).ofs.content with
            | some sec =>
              [sec.closeTag,
               Token.footer (run (Collaborators.total hs hc) new cs).spectra_offsets
                 (run (Collaborators.total hs hc) new cs).chromatograms_offsets]
            | none => []) := by
    unfold output
    rw [doCleanup_content _ hinv, hos]
  have hcount : (run (Collaborators.total hs hc) new cs).ofs.content.countP Token.isFooter = 0 := by
    rw [List.countP_eq_zero]
    intro t ht
    simp [hnf t ht]
  refine ⟨hout, hnf, ?_, ?_⟩
  · rw [hout, List.countP_append, hcount]
    cases openSection (run (Collaborators.total hs hc) new cs).ofs.content with
    | none => simp
    | some sec => cases sec <;> simp [List.countP_cons, Section.closeTag, Token.isFooter]
  · intro so co hm
    rw [hout] at hm ⊢
    cases hsec : openSection (run (Collaborators.total hs hc) new cs).ofs.content with
    | none =>
      rw [hsec] at hm
      simp only [List.append_nil] at hm
      have := hnf _ hm
      simp [Token.isFooter] at this
    | some sec =>
      rw [hsec] at hm
      simp only at hm ⊢
      rcases List.mem_append.1 hm with hm | hm
      · have := hnf _ hm
        simp [Token.isFooter] at this
      · simp only [List.mem_cons, List.mem_singleton, List.not_mem_nil, or_false] at hm
        rcases hm with hm | hm
        · cases sec <;> simp [Section.closeTag] at hm
        · rw [hm]
          simp [List.getLast?_append]

/-- Concrete instance: one spectrum is consumed; the footer written by the
destructor is the last token of the file. -/
theorem footer_last_after_matching_close_witness :
    Token.footer [2] []
        ∈ output PlainMSDataWritingConsumer new [Call.consumeSpectrum exampleSpectrum]
    ∧ (output PlainMSDataWritingConsumer new [Call.consumeSpectrum exampleSpectrum]).getLast?
        = some (Token.footer [2] []) :=
  ⟨by decide,
    (footer_last_after_matching_close (fun s => s) (fun c => c)
      [Call.consumeSpectrum exampleSpectrum]).2.2.2 [2] [] (by decide)⟩

theorem run_set (K : Collaborators) (cfg : List Setter) (w : MSDataWritingConsumer) :
    run K w (cfg.map Call.set) = configure w cfg := by
  induction cfg generalizing w with
  | nil => rfl
  | cons q qs ih => simp [run, configure, call, ih]

/-- C8: an object on which only configuration calls were made, and no record
was consumed, leaves an empty file when destroyed: no header, no list tag and
no footer is written. -/
theorem no_record_empty_output (K : Collaborators) (cfg : List Setter) :
    output K new (cfg.map Call.set) = [] := by
  unfold output
  rw [run_set]
  obtain ⟨se, nse, nce, adp, dp, hw⟩ := configure_new cfg
  rw [hw]
  rfl

theorem sectioned_new : Sectioned new := by
  constructor <;> simp [new]

theorem total_call_sectioned (hs hc) (w : MSDataWritingConsumer) (a : Call) (h : Inv w)
    (hsec : Sectioned w) : Sectioned (call (Collaborators.total hs hc) w a).state := by
  cases a with
  | set q => cases q <;> exact ⟨hsec.spectra, hsec.chromatograms⟩
  | consumeSpectrum s =>
    cases hwc : w.writing_chromatograms_ with
    | true =>
      simp only [call, consumeSpectrum_rejected _ w s hwc]
      exact hsec
    | false =>
      simp only [call, consumeSpectrum_total hs hc w s h.live hwc]
      constructor
      · intro _
        cases hst : w.started_writing_ with
        | false =>
          have hws : w.writing_spectra_ = false := by
            cases hws : w.writing_spectra_
            · rfl
            · rw [h.spectra_started hws] at hst; cases hst
          simp only [h.empty hst, hst, hws, Bool.false_eq_true, if_false, List.nil_append,
            List.cons_append]
          exact ⟨_, _, _, rfl, by simp [Token.isSpectrum]⟩
        | true =>
          have hws : w.writing_spectra_ = true := by
            rcases h.section_open hst with h1 | h1
            · exact h1
            · rw [hwc] at h1; cases h1
          obtain ⟨d, n, toks, hct, ht⟩ := hsec.spectra hws
          simp only [hct, hst, hws, if_true, List.append_nil, List.cons_append]
          refine ⟨_, _, _, rfl, ?_⟩
          intro t ht2
          rcases List.mem_append.1 ht2 with ht2 | ht2
          · exact ht t ht2
          · rw [List.mem_singleton.1 ht2]; rfl
      · intro hwc2
        rw [hwc] at hwc2
        cases hwc2
  | consumeChromatogram c =>
    simp only [call, consumeChromatogram_total hs hc w c h.live]
    constructor
    · intro hws2
      have : w.writing_chromatograms_ = true ∧ w.writing_spectra_ = true := by
        simpa using hws2
      rw [h.exclusive this.2] at this
      cases this.1
    · intro _
      cases hst : w.started_writing_ with
      | false =>
        have hws : w.writing_spectra_ = false := by
          cases hws : w.writing_spectra_
          · rfl
          · rw [h.spectra_started hws] at hst; cases hst
        have hwc : w.writing_chromatograms_ = false := by
          cases hwc : w.writing_chromatograms_
          · rfl
          · rw [h.chromatograms_started hwc] at hst; cases hst
        simp only [h.empty hst, hst, hws, hwc, Bool.false_eq_true, if_false, List.nil_append,
          List.cons_append, List.append_nil]
        exact ⟨_, [], _, _, rfl, Or.inl rfl, by simp [Token.isChromatogram]⟩
      | true =>
        cases hws : w.writing_spectra_ with
        | true =>
          have hwc := h.exclusive hws
          obtain ⟨d, n, toks, hct, ht⟩ := hsec.spectra hws
          refine ⟨d, Token.spectrumListOpen n :: (toks ++ [Token.spectrumListClose]),
            w.chromatograms_expected_,
            [Token.chromatogram
              (renderedChromatogram hc w.add_dataprocessing_ w.additional_dataprocessing_ c)
              w.chromatograms_written_], ?_, Or.inr ⟨n, toks, rfl, ht⟩, ?_⟩
          · simp only [hct, hst, hws, hwc, if_true, Bool.false_eq_true, if_false,
              List.append_nil, List.cons_append, List.append_assoc, List.nil_append]
          · simp [Token.isChromatogram]
        | false =>
          have hwc : w.writing_chromatograms_ = true := by
            rcases h.section_open hst with h1 | h1
            · rw [hws] at h1; cases h1
            · exact h1
          obtain ⟨d, sec1, m, toks, hct, h1, ht⟩ := hsec.chromatograms hwc
          refine ⟨d, sec1, m, toks ++ [Token.chromatogram
              (renderedChromatogram hc w.add_dataprocessing_ w.additional_dataprocessing_ c)
              w.chromatograms_written_], ?_, h1, ?_⟩
          · simp only [hct, hst, hws, hwc, if_true, Bool.false_eq_true, if_false,
              List.append_nil, List.cons_append, List.append_assoc]
          · intro t ht2
            rcases List.mem_append.1 ht2 with ht2 | ht2
            · exact ht t ht2
            · rw [List.mem_singleton.1 ht2]; rfl

theorem total_run_sectioned (hs hc) (cs : List Call) (w : MSDataWritingConsumer) (h : Inv w)
    (hsec : Sectioned w) : Sectioned (run (Collaborators.total hs hc) w cs) := by
  induction cs generalizing w with
  | nil => exact hsec
  | cons a cs ih => exact ih _ (inv_call _ w a h) (total_call_sectioned hs hc w a h hsec)

/-- With hooks and an encoder that do not throw: after any calls in any order,
rejected ones included, the file left by the destructor is empty or is the header,
at most one spectra section, at most one chromatogram section and the footer,
in this order; each section is its open tag, rendered records of its own kind
only, and its matching close tag. -/
theorem output_well_sectioned
    (hs : SpectrumType → SpectrumType) (hc : ChromatogramType → ChromatogramType)
    (cs : List Call) :
    WellSectioned (output (Collaborators.total hs hc) new cs) := by
  have hinv := inv_run (Collaborators.total hs hc) cs new inv_new
  have hsec := total_run_sectioned hs hc cs new inv_new sectioned_new
  unfold output
  rw [doCleanup_content _ hinv]
  cases hws : (run (Collaborators.total hs hc) new cs).writing_spectra_ with
  | true =>
    obtain ⟨d, n, toks, hct, ht⟩ := hsec.spectra hws
    right
    refine ⟨d, Token.spectrumListOpen n :: (toks ++ [Token.spectrumListClose]), [],
      (run (Collaborators.total hs hc) new cs).spectra_offsets,
      (run (Collaborators.total hs hc) new cs).chromatograms_offsets, ?_,
      Or.inr ⟨n, toks, rfl, ht⟩, Or.inl rfl⟩
    simp [openFlag, hws, hct, Section.closeTag]
  | false =>
    cases hwc : (run (Collaborators.total hs hc) new cs).writing_chromatograms_ with
    | true =>
      obtain ⟨d, sec1, m, toks, hct, h1, ht⟩ := hsec.chromatograms hwc
      right
      refine ⟨d, sec1, Token.chromatogramListOpen m :: (toks ++ [Token.chromatogramListClose]),
        (run (Collaborators.total hs hc) new cs).spectra_offsets,
        (run (Collaborators.total hs hc) new cs).chromatograms_offsets, ?_,
        h1, Or.inr ⟨m, toks, rfl, ht⟩⟩
      simp [openFlag, hws, hwc, hct, Section.closeTag]
    | false =>
      left
      have hst : (run (Collaborators.total hs hc) new cs).started_writing_ = false := by
        cases hst : (run (Collaborators.total hs hc) new cs).started_writing_
        · rfl
        · rcases hinv.section_open hst with h1 | h1
          · rw [hws] at h1; cases h1
          · rw [hwc] at h1; cases h1
      simp [openFlag, hws, hwc, hinv.empty hst]

/-! ## The records of a call -/

/-- C12: whatever the hook does to the record it is given and whatever
descriptor is configured, the record of the caller is after `consumeSpectrum`
or `consumeChromatogram` what it was before; with a hook that returns, the hook
and the descriptor append show in the working copy, which is the record handed
to the encoder. -/
theorem caller_record_unchanged (K : Collaborators)
    (hs : SpectrumType → SpectrumType) (hc : ChromatogramType → ChromatogramType)
    (w : MSDataWritingConsumer) (s : SpectrumType) (c : ChromatogramType) :
    (consumeSpectrum_records K w s).1 = s
    ∧ (consumeChromatogram_records K w c).1 = c
    ∧ (consumeSpectrum_records (Collaborators.total hs hc) w s).2
        = (if w.writing_chromatograms_ then none
           else some (renderedSpectrum hs w.add_dataprocessing_ w.additional_dataprocessing_ s))
    ∧ (consumeChromatogram_records (Collaborators.total hs hc) w c).2
        = some (renderedChromatogram hc w.add_dataprocessing_ w.additional_dataprocessing_ c) := by
  refine ⟨?_, ?_, ?_, ?_⟩
  · unfold consumeSpectrum_records
    split
    · rfl
    · dsimp only
      split <;> rfl
  · unfold consumeChromatogram_records
    dsimp only
    split <;> rfl
  · unfold consumeSpectrum_records
    split <;> simp [Collaborators.total, renderedSpectrum]
  · simp [consumeChromatogram_records, Collaborators.total, renderedChromatogram]

/-- C13: on an object reached by any calls (hooks and encoder that do not
throw), an accepted `consumeSpectrum(s)` invokes the hook once, on `s`, and
appends, after at most the header and the open tag, one rendered record: the
result of the hook with the configured descriptor appended afterwards when one
is configured; likewise `consumeChromatogram(c)`.  With a hook that multiplies
every intensity by `k` the rendered intensities are `k` times those of the
record, and with the empty hooks of `PlainMSDataWritingConsumer` the rendered
data equal those of the record. -/
theorem hook_applied_once_then_rendered
    (hs : SpectrumType → SpectrumType) (hc : ChromatogramType → ChromatogramType)
    (cs : List Call) (s : SpectrumType) (c : ChromatogramType) (k : Int) (add : Bool)
    (d : DataProcessing) :
    ((run (Collaborators.total hs hc) new cs).writing_chromatograms_ = false →
      ((run (Collaborators.total hs hc) new cs).consumeSpectrum
          (Collaborators.total hs hc) s).state.hook_calls
        = (run (Collaborators.total hs hc) new cs).hook_calls ++ [Record.spectrum s]
      ∧ ∃ pre, ((run (Collaborators.total hs hc) new cs).consumeSpectrum
          (Collaborators.total hs hc) s).state.ofs.content
        = (run (Collaborators.total hs hc) new cs).ofs.content ++ pre
          ++ [Token.spectrum
                (renderedSpectrum hs
                  (run (Collaborators.total hs hc) new cs).add_dataprocessing_
                  (run (Collaborators.total hs hc) new cs).additional_dataprocessing_ s)
                (run (Collaborators.total hs hc) new cs).spectra_written_ false]
        ∧ ∀ t ∈ pre, t.isSpectrum = false ∧ t.isChromatogram = false)
    ∧ (((run (Collaborators.total hs hc) new cs).consumeChromatogram
          (Collaborators.total hs hc) c).state.hook_calls
        = (run (Collaborators.total hs hc) new cs).hook_calls ++ [Record.chromatogram c]
      ∧ ∃ pre, ((run (Collaborators.total hs hc) new cs).consumeChromatogram
          (Collaborators.total hs hc) c).state.ofs.content
        = (run (Collaborators.total hs hc) new cs).ofs.content ++ pre
          ++ [Token.chromatogram
                (renderedChromatogram hc
                  (run (Collaborators.total hs hc) new cs).add_dataprocessing_
                  (run (Collaborators.total hs hc) new cs).additional_dataprocessing_ c)
                (run (Collaborators.total hs hc) new cs).chromatograms_written_]
        ∧ ∀ t ∈ pre, t.isSpectrum = false ∧ t.isChromatogram = false)
    ∧ renderedSpectrum hs true d s = (hs s).pushDataProcessing d
    ∧ renderedSpectrum hs false d s = hs s
    ∧ renderedChromatogram hc true d c = (hc c).pushDataProcessing d
    ∧ renderedChromatogram hc false d c = hc c
    ∧ (renderedSpectrum (SpectrumType.scaleIntensity k) add d s).peaks
        = s.peaks.map (fun p => (p.1, k * p.2))
    ∧ (renderedChromatogram (ChromatogramType.scaleIntensity k) add d c).peaks
        = c.peaks.map (fun p => (p.1, k * p.2))
    ∧ (renderedSpectrum (fun x => x) add d s).peaks = s.peaks
    ∧ (renderedSpectrum (fun x => x) add d s).rt = s.rt
    ∧ (renderedSpectrum (fun x => x) add d s).ms_level = s.ms_level
    ∧ renderedSpectrum (fun x => x) false d s = s
    ∧ (renderedChromatogram (fun x => x) add d c).peaks = c.peaks
    ∧ renderedChromatogram (fun x => x) false d c = c := by
  have hinv := inv_run (Collaborators.total hs hc) cs new inv_new
  refine ⟨?_, ?_, rfl, rfl, rfl, rfl, ?_, ?_, ?_, ?_, ?_, rfl, ?_, rfl⟩
  · intro hwc
    rw [consumeSpectrum_total hs hc _ s hinv.live hwc]
    generalize run (Collaborators.total hs hc) new cs = w
    refine ⟨rfl,
      (if w.started_writing_ then []
        else [Token.header (MapType.ofSpectrum w.settings_
          (renderedSpectrum hs w.add_dataprocessing_ w.additional_dataprocessing_ s))])
      ++ (if w.writing_spectra_ then [] else [Token.spectrumListOpen w.spectra_expected_]),
      by simp only [List.append_assoc], ?_⟩
    intro t ht
    rcases List.mem_append.1 ht with ht | ht
    · split at ht
      · cases ht
      · rw [List.mem_singleton.1 ht]; exact ⟨rfl, rfl⟩
    · split at ht
      · cases ht
      · rw [List.mem_singleton.1 ht]; exact ⟨rfl, rfl⟩
  · rw [consumeChromatogram_total hs hc _ c hinv.live]
    generalize run (Collaborators.total hs hc) new cs = w
    refine ⟨rfl,
      (if w.writing_spectra_ then [Token.spectrumListClose] else [])
      ++ (if w.started_writing_ then []
        else [Token.header (MapType.ofChromatogram w.settings_
          (renderedChromatogram hc w.add_dataprocessing_ w.additional_dataprocessing_ c))])
      ++ (if w.writing_chromatograms_ then []
        else [Token.chromatogramListOpen w.chromatograms_expected_]),
      by simp only [List.append_assoc], ?_⟩
    intro t ht
    rcases List.mem_append.1 ht with ht | ht
    · rcases List.mem_append.1 ht with ht | ht
      · split at ht
        · rw [List.mem_singleton.1 ht]; exact ⟨rfl, rfl⟩
        · cases ht
      · split at ht
        · cases ht
        · rw [List.mem_singleton.1 ht]; exact ⟨rfl, rfl⟩
    · split at ht
      · cases ht
      · rw [List.mem_singleton.1 ht]; exact ⟨rfl, rfl⟩
  · cases add <;> simp [renderedSpectrum, SpectrumType.scaleIntensity,
      SpectrumType.pushDataProcessing]
  · cases add <;> simp [renderedChromatogram, ChromatogramType.scaleIntensity,
      ChromatogramType.pushDataProcessing]
  · cases add <;> simp [renderedSpectrum, SpectrumType.pushDataProcessing]
  · cases add <;> simp [renderedSpectrum, SpectrumType.pushDataProcessing]
  · cases add <;> simp [renderedSpectrum, SpectrumType.pushDataProcessing]
  · cases add <;> simp [renderedChromatogram, ChromatogramType.pushDataProcessing]

/-- C13, concrete instance: on a new object with a hook that doubles every
intensity, the hook is invoked once on the record of the caller and the doubled
intensities are rendered. -/
theorem hook_applied_once_then_rendered_witness :
    (run (Collaborators.total (SpectrumType.scaleIntensity 2) (ChromatogramType.scaleIntensity 2))
        new []).writing_chromatograms_ = false
    ∧ ((run (Collaborators.total (SpectrumType.scaleIntensity 2)
          (ChromatogramType.scaleIntensity 2)) new []).consumeSpectrum
        (Collaborators.total (SpectrumType.scaleIntensity 2) (ChromatogramType.scaleIntensity 2))
        exampleSpectrum).state.hook_calls = [Record.spectrum exampleSpectrum]
    ∧ ((run (Collaborators.total (SpectrumType.scaleIntensity 2)
          (ChromatogramType.scaleIntensity 2)) new []).consumeSpectrum
        (Collaborators.total (SpectrumType.scaleIntensity 2) (ChromatogramType.scaleIntensity 2))
        exampleSpectrum).state.ofs.content.getLast?
      = some (Token.spectrum
          { rt := 10, ms_level := 1, peaks := [(100, 10), (200, 14)], dataProcessing := [] }
          0 false) :=
  ⟨by decide,
    ((hook_applied_once_then_rendered (SpectrumType.scaleIntensity 2)
      (ChromatogramType.scaleIntensity 2) [] exampleSpectrum exampleChromatogram 2 false
      default).1 (by decide)).1.trans (by decide),
    by decide⟩

theorem total_call_dataProcessing (hs hc) (w : MSDataWritingConsumer) (a : Call) (hl : Live w)
    (ha : a.isAddDataProcessing = false) :
    (call (Collaborators.total hs hc) w a).state.add_dataprocessing_ = w.add_dataprocessing_
    ∧ (call (Collaborators.total hs hc) w a).state.additional_dataprocessing_
        = w.additional_dataprocessing_ := by
  cases a with
  | set q =>
    cases q with
    | setExperimentalSettings e => exact ⟨rfl, rfl⟩
    | setExpectedSize x y => exact ⟨rfl, rfl⟩
    | addDataProcessing d => simp [Call.isAddDataProcessing] at ha
  | consumeSpectrum s =>
    cases hwc : w.writing_chromatograms_ with
    | true => simp [call, consumeSpectrum_rejected _ w s hwc]
    | false => simp [call, consumeSpectrum_total hs hc w s hl hwc]
  | consumeChromatogram c => simp [call, consumeChromatogram_total hs hc w c hl]

theorem total_run_dataProcessing (hs hc) (cs : List Call) (w : MSDataWritingConsumer)
    (h : Inv w) (hcs : ∀ a ∈ cs, a.isAddDataProcessing = false) :
    (run (Collaborators.total hs hc) w cs).add_dataprocessing_ = w.add_dataprocessing_
    ∧ (run (Collaborators.total hs hc) w cs).additional_dataprocessing_
        = w.additional_dataprocessing_ := by
  induction cs generalizing w with
  | nil => exact ⟨rfl, rfl⟩
  | cons a cs ih =>
    have ha := total_call_dataProcessing hs hc w a h.live (hcs a (List.mem_cons_self _ _))
    have hr := ih (call (Collaborators.total hs hc) w a).state (inv_call _ w a h)
      (fun b hb => hcs b (List.mem_cons_of_mem _ hb))
    simp only [run]
    exact ⟨hr.1.trans ha.1, hr.2.trans ha.2⟩

theorem total_consumeSpectrum_last (hs hc) (w : MSDataWritingConsumer) (s : SpectrumType)
    (hl : Live w) (hwc : w.writing_chromatograms_ = false) :
    (w.consumeSpectrum (Collaborators.total hs hc) s).state.ofs.content.getLast?
      = some (Token.spectrum
          (renderedSpectrum hs w.add_dataprocessing_ w.additional_dataprocessing_ s)
          w.spectra_written_ false) := by
  rw [consumeSpectrum_total hs hc w s hl hwc]
  simp [List.getLast?_append]

theorem total_consumeChromatogram_last (hs hc) (w : MSDataWritingConsumer)
    (c : ChromatogramType) (hl : Live w) :
    (w.consumeChromatogram (Collaborators.total hs hc) c).state.ofs.content.getLast?
      = some (Token.chromatogram
          (renderedChromatogram hc w.add_dataprocessing_ w.additional_dataprocessing_ c)
          w.chromatograms_written_) := by
  rw [consumeChromatogram_total hs hc w c hl]
  simp [List.getLast?_append]

/-- C14: (hooks and encoder that do not throw) as long as `addDataProcessing`
has not been called, a record is rendered as the hook leaves it, its own list
of processing steps unchanged; after `addDataProcessing(d)`, whatever calls
other than `addDataProcessing` follow, every accepted spectrum and every
chromatogram is rendered with the list of the hook-transformed record with `d`
appended once at the end. -/
theorem descriptor_appended_after_addDataProcessing
    (hs : SpectrumType → SpectrumType) (hc : ChromatogramType → ChromatogramType)
    (cs0 cs1 cs2 : List Call) (d : DataProcessing) (s : SpectrumType) (c : ChromatogramType)
    (h0 : ∀ a ∈ cs0, a.isAddDataProcessing = false)
    (h2 : ∀ a ∈ cs2, a.isAddDataProcessing = false) :
    ((run (Collaborators.total hs hc) new cs0).writing_chromatograms_ = false →
      ((run (Collaborators.total hs hc) new cs0).consumeSpectrum
          (Collaborators.total hs hc) s).state.ofs.content.getLast?
        = some (Token.spectrum (hs s)
            (run (Collaborators.total hs hc) new cs0).spectra_written_ false))
    ∧ ((run (Collaborators.total hs hc) new cs0).consumeChromatogram
          (Collaborators.total hs hc) c).state.ofs.content.getLast?
        = some (Token.chromatogram (hc c)
            (run (Collaborators.total hs hc) new cs0).chromatograms_written_)
    ∧ ((run (Collaborators.total hs hc) new
          (cs1 ++ Call.set (Setter.addDataProcessing d) :: cs2)).writing_chromatograms_ = false →
      ((run (Collaborators.total hs hc) new
          (cs1 ++ Call.set (Setter.addDataProcessing d) :: cs2)).consumeSpectrum
          (Collaborators.total hs hc) s).state.ofs.content.getLast?
        = some (Token.spectrum ((hs s).pushDataProcessing d)
            (run (Collaborators.total hs hc) new
              (cs1 ++ Call.set (Setter.addDataProcessing d) :: cs2)).spectra_written_ false))
    ∧ ((run (Collaborators.total hs hc) new
          (cs1 ++ Call.set (Setter.addDataProcessing d) :: cs2)).consumeChromatogram
          (Collaborators.total hs hc) c).state.ofs.content.getLast?
        = some (Token.chromatogram ((hc c).pushDataProcessing d)
            (run (Collaborators.total hs hc) new
              (cs1 ++ Call.set (Setter.addDataProcessing d) :: cs2)).chromatograms_written_)
    ∧ ((hs s).pushDataProcessing d).dataProcessing = (hs s).dataProcessing ++ [d]
    ∧ ((hc c).pushDataProcessing d).dataProcessing = (hc c).dataProcessing ++ [d] := by
  have hinv0 := inv_run (Collaborators.total hs hc) cs0 new inv_new
  have hf0 := total_run_dataProcessing hs hc cs0 new inv_new h0
  have hinv1 := inv_run (Collaborators.total hs hc) cs1 new inv_new
  have hinvd := inv_call (Collaborators.total hs hc) _ (Call.set (Setter.addDataProcessing d)) hinv1
  have hf2 := total_run_dataProcessing hs hc cs2 _ hinvd h2
  have hrun : run (Collaborators.total hs hc) new
      (cs1 ++ Call.set (Setter.addDataProcessing d) :: cs2)
      = run (Collaborators.total hs hc)
          (call (Collaborators.total hs hc) (run (Collaborators.total hs hc) new cs1)
            (Call.set (Setter.addDataProcessing d))).state cs2 := by
    rw [run_append]; rfl
  rw [hrun]
  have hinv2 := inv_run (Collaborators.total hs hc) cs2 _ hinvd
  refine ⟨?_, ?_, ?_, ?_, rfl, rfl⟩
  · intro hwc
    rw [total_consumeSpectrum_last hs hc _ s hinv0.live hwc, hf0.1, hf0.2]
    rfl
  · rw [total_consumeChromatogram_last hs hc _ c hinv0.live, hf0.1, hf0.2]
    rfl
  · intro hwc
    rw [total_consumeSpectrum_last hs hc _ s hinv2.live hwc, hf2.1, hf2.2]
    rfl
  · rw [total_consumeChromatogram_last hs hc _ c hinv2.live, hf2.1, hf2.2]
    rfl

/-- C14, concrete instance: one spectrum is consumed, then `addDataProcessing`
is called, then a second spectrum; a third spectrum is rendered with the
descriptor appended. -/
theorem descriptor_appended_after_addDataProcessing_witness :
    (∀ a ∈ ([] : List Call), a.isAddDataProcessing = false)
    ∧ (∀ a ∈ [Call.consumeSpectrum exampleSpectrum], a.isAddDataProcessing = false)
    ∧ (run PlainMSDataWritingConsumer new
        ([Call.consumeSpectrum exampleSpectrum]
          ++ Call.set (Setter.addDataProcessing { name := 7 })
            :: [Call.consumeSpectrum exampleSpectrum])).writing_chromatograms_ = false
    ∧ ((run PlainMSDataWritingConsumer new
        ([Call.consumeSpectrum exampleSpectrum]
          ++ Call.set (Setter.addDataProcessing { name := 7 })
            :: [Call.consumeSpectrum exampleSpectrum])).consumeSpectrum
        PlainMSDataWritingConsumer exampleSpectrum).state.ofs.content.getLast?
      = some (Token.spectrum
          { rt := 10, ms_level := 1, peaks := [(100, 5), (200, 7)],
            dataProcessing := [{ name := 7 }] } 2 false) :=
  ⟨by decide, by decide, by decide,
    ((descriptor_appended_after_addDataProcessing (fun s => s) (fun c => c) []
      [Call.consumeSpectrum exampleSpectrum] [Call.consumeSpectrum exampleSpectrum]
      { name := 7 } exampleSpectrum exampleChromatogram (by decide) (by decide)).2.2.1
        (by decide)).trans (by decide)⟩

/-! ## The header -/

theorem configure_settings (cfg : List Setter) (w : MSDataWritingConsumer) :
    (configure w cfg).settings_ = cfg.foldl Setter.settingsAfter w.settings_ := by
  induction cfg generalizing w with
  | nil => rfl
  | cons q qs ih =>
    simp only [configure, List.foldl_cons]
    rw [ih]
    cases q <;> rfl

theorem total_call_content_prefix (hs hc) (w : MSDataWritingConsumer) (a : Call) (hl : Live w) :
    ∃ toks, (call (Collaborators.total hs hc) w a).state.ofs.content = w.ofs.content ++ toks := by
  cases a with
  | set q => cases q <;> exact ⟨[], (List.append_nil _).symm⟩
  | consumeSpectrum s =>
    cases hwc : w.writing_chromatograms_ with
    | true => exact ⟨[], by simp [call, consumeSpectrum_rejected _ w s hwc]⟩
    | false =>
      simp only [call, consumeSpectrum_total hs hc w s hl hwc, List.append_assoc]
      exact ⟨_, rfl⟩
  | consumeChromatogram c =>
    simp only [call, consumeChromatogram_total hs hc w c hl, List.append_assoc]
    exact ⟨_, rfl⟩

theorem total_run_content_prefix (hs hc) (cs : List Call) (w : MSDataWritingConsumer)
    (h : Inv w) :
    ∃ toks, (run (Collaborators.total hs hc) w cs).ofs.content = w.ofs.content ++ toks := by
  induction cs generalizing w with
  | nil => exact ⟨[], (List.append_nil _).symm⟩
  | cons a cs ih =>
    obtain ⟨t1, h1⟩ := total_call_content_prefix hs hc w a h.live
    obtain ⟨t2, h2⟩ := ih (call (Collaborators.total hs hc) w a).state (inv_call _ w a h)
    exact ⟨t1 ++ t2, by simp only [run, h2, h1, List.append_assoc]⟩

theorem header_kept (hs hc) (cs : List Call) (w : MSDataWritingConsumer) (h : Inv w)
    (dummy : MapType) (tl : List Token) (hw : w.ofs.content = Token.header dummy :: tl) :
    ∃ rest, (run (Collaborators.total hs hc) w cs).ofs.content = Token.header dummy :: rest
      ∧ (∀ t ∈ rest, t.isHeader = false)
      ∧ ∃ rest2, output (Collaborators.total hs hc) w cs = Token.header dummy :: rest2
        ∧ ∀ t ∈ rest2, t.isHeader = false := by
  have hinv := inv_run (Collaborators.total hs hc) cs w h
  obtain ⟨toks, hp⟩ := total_run_content_prefix hs hc cs w h
  rw [hw] at hp
  rcases inv_header_shape _ hinv with ⟨_, hc0⟩ | ⟨_, d, rest, hc1, hr⟩
  · rw [hc0] at hp; cases hp
  · have hd : d = dummy := by
      rw [hc1] at hp
      simp only [List.cons_append, List.cons.injEq, Token.header.injEq] at hp
      exact hp.1
    subst hd
    refine ⟨rest, hc1, fun t ht => (hr t ht).1, ?_⟩
    unfold output
    rw [doCleanup_content _ hinv, hc1]
    refine ⟨_, List.cons_append _ _ _, ?_⟩
    intro t ht
    rcases List.mem_append.1 ht with ht | ht
    · exact (hr t ht).1
    · cases hof : openFlag (run (Collaborators.total hs hc) w cs) with
      | none => rw [hof] at ht; simp at ht
      | some sec =>
        rw [hof] at ht
        simp only [List.mem_cons, List.mem_singleton, List.not_mem_nil, or_false] at ht
        rcases ht with rfl | rfl
        · cases sec <;> rfl
        · rfl

theorem positionsFrom_append (p : Token → Bool) (i : Nat) (l ts : List Token) :
    positionsFrom p i (l ++ ts) = positionsFrom p i l ++ positionsFrom p (i + l.length) ts := by
  induction l generalizing i with
  | nil => simp [positionsFrom]
  | cons a l ih =>
    simp only [List.cons_append, positionsFrom, List.length_cons]
    split <;> simp [ih, Nat.add_assoc, Nat.add_comm 1]

theorem spectrumIndices_append (l ts : List Token) :
    spectrumIndices (l ++ ts) = spectrumIndices l ++ spectrumIndices ts := by
  induction l with
  | nil => rfl
  | cons a l ih => cases a <;> simp [spectrumIndices, ih]

theorem chromatogramIndices_append (l ts : List Token) :
    chromatogramIndices (l ++ ts) = chromatogramIndices l ++ chromatogramIndices ts := by
  induction l with
  | nil => rfl
  | cons a l ih => cases a <;> simp [chromatogramIndices, ih]

theorem indexed_new : Indexed new := by
  constructor <;> simp [new, spectrumPositions, chromatogramPositions, positionsFrom,
    spectrumIndices, chromatogramIndices]

theorem total_call_indexed (hs hc) (w : MSDataWritingConsumer) (a : Call) (h : Inv w)
    (hi : Indexed w) : Indexed (call (Collaborators.total hs hc) w a).state := by
  cases a with
  | set q => cases q <;> exact ⟨hi.1, hi.2, hi.3, hi.4, hi.5, hi.6⟩
  | consumeSpectrum s =>
    cases hwc : w.writing_chromatograms_ with
    | true =>
      simp only [call, consumeSpectrum_rejected _ w s hwc]
      exact hi
    | false =>
      obtain ⟨h1, h2, h3, h4, h5, h6⟩ := hi
      simp only [spectrumPositions, chromatogramPositions] at h1 h2
      rw [h1] at h3
      rw [h2] at h4
      simp only [call, consumeSpectrum_total hs hc w s h.live hwc]
      constructor <;> dsimp only <;>
        cases hst : w.started_writing_ <;> cases hws : w.writing_spectra_ <;>
        simp [spectrumPositions, chromatogramPositions, positionsFrom_append, positionsFrom,
          spectrumIndices_append, chromatogramIndices_append, spectrumIndices,
          chromatogramIndices, Token.isSpectrum, Token.isChromatogram, List.range_succ,
          h1, h2, h3, h4, h5, h6, Nat.add_assoc]
  | consumeChromatogram c =>
    obtain ⟨h1, h2, h3, h4, h5, h6⟩ := hi
    simp only [spectrumPositions, chromatogramPositions] at h1 h2
    rw [h1] at h3
    rw [h2] at h4
    simp only [call, consumeChromatogram_total hs hc w c h.live]
    constructor <;> dsimp only <;>
      cases hst : w.started_writing_ <;> cases hws : w.writing_spectra_ <;>
      cases hwc : w.writing_chromatograms_ <;>
      simp [spectrumPositions, chromatogramPositions, positionsFrom_append, positionsFrom,
        spectrumIndices_append, chromatogramIndices_append, spectrumIndices,
        chromatogramIndices, Token.isSpectrum, Token.isChromatogram, List.range_succ,
        h1, h2, h3, h4, h5, h6, Nat.add_assoc]

theorem total_run_indexed (hs hc) (cs : List Call) (w : MSDataWritingConsumer) (h : Inv w)
    (hi : Indexed w) : Indexed (run (Collaborators.total hs hc) w cs) := by
  induction cs generalizing w with
  | nil => exact hi
  | cons a cs ih => exact ih _ (inv_call _ w a h) (total_call_indexed hs hc w a h hi)

theorem ordered_new : Ordered new := by
  constructor <;> simp [new]

theorem pairwise_lt_snoc (l : List Nat) (n b : Nat) (hp : List.Pairwise (fun a b => a < b) l)
    (hb : ∀ a ∈ l, a < n) (hn : n ≤ b) : List.Pairwise (fun a b => a < b) (l ++ [b]) := by
  rw [List.pairwise_append]
  refine ⟨hp, List.pairwise_singleton _ _, ?_⟩
  intro a ha x hx
  rw [List.mem_singleton.1 hx]
  exact Nat.lt_of_lt_of_le (hb a ha) hn

theorem total_call_ordered (hs hc) (w : MSDataWritingConsumer) (a : Call) (h : Inv w)
    (ho : Ordered w) : Ordered (call (Collaborators.total hs hc) w a).state := by
  obtain ⟨h1, h2, h3⟩ := ho
  cases a with
  | set q => cases q <;> exact ⟨h1, h2, h3⟩
  | consumeSpectrum s =>
    cases hwc : w.writing_chromatograms_ with
    | true =>
      simp only [call, consumeSpectrum_rejected _ w s hwc]
      exact ⟨h1, h2, h3⟩
    | false =>
      have hco := h3 hwc
      rw [hco, List.append_nil] at h1 h2
      simp only [call, consumeSpectrum_total hs hc w s h.live hwc]
      constructor
      · dsimp only
        rw [hco, List.append_nil]
        exact pairwise_lt_snoc _ w.ofs.content.length _ h1 h2 (by omega)
      · dsimp only
        rw [hco, List.append_nil]
        intro x hx
        simp only [List.length_append, List.length_singleton]
        rcases List.mem_append.1 hx with hx | hx
        · have := h2 x hx
          omega
        · rw [List.mem_singleton.1 hx]
          split <;> split <;> simp
      · intro _
        exact hco
  | consumeChromatogram c =>
    simp only [call, consumeChromatogram_total hs hc w c h.live]
    constructor
    · dsimp only
      rw [← List.append_assoc]
      exact pairwise_lt_snoc _ w.ofs.content.length _ h1 h2 (by omega)
    · dsimp only
      rw [← List.append_assoc]
      intro x hx
      simp only [List.length_append, List.length_singleton]
      rcases List.mem_append.1 hx with hx | hx
      · have := h2 x hx
        omega
      · rw [List.mem_singleton.1 hx]
        split <;> split <;> split <;> simp
    · intro hf
      cases hf

theorem total_run_ordered (hs hc) (cs : List Call) (w : MSDataWritingConsumer) (h : Inv w)
    (ho : Ordered w) : Ordered (run (Collaborators.total hs hc) w cs) := by
  induction cs generalizing w with
  | nil => exact ho
  | cons a cs ih => exact ih _ (inv_call _ w a h) (total_call_ordered hs hc w a h ho)

theorem total_call_counters (hs hc) (w : MSDataWritingConsumer) (a : Call) (hl : Live w) :
    (call (Collaborators.total hs hc) w a).state.spectra_written_
        = w.spectra_written_
          + (if a.isConsume = true ∧ (call (Collaborators.total hs hc) w a).outcome = .returned
              then [a] else []).countP Call.isConsumeSpectrum
    ∧ (call (Collaborators.total hs hc) w a).state.chromatograms_written_
        = w.chromatograms_written_
          + (if a.isConsume = true ∧ (call (Collaborators.total hs hc) w a).outcome = .returned
              then [a] else []).countP Call.isConsumeChromatogram := by
  cases a with
  | set q => cases q <;> simp [call, Setter.apply, setExperimentalSettings, setExpectedSize,
      addDataProcessing, Call.isConsume]
  | consumeSpectrum s =>
    cases hwc : w.writing_chromatograms_ with
    | true => simp [call, consumeSpectrum_rejected _ w s hwc, Call.isConsume]
    | false =>
      simp [call, consumeSpectrum_total hs hc w s hl hwc, Call.isConsume,
        Call.isConsumeSpectrum, Call.isConsumeChromatogram]
  | consumeChromatogram c =>
    simp [call, consumeChromatogram_total hs hc w c hl, Call.isConsume,
      Call.isConsumeSpectrum, Call.isConsumeChromatogram]

theorem total_run_counters (hs hc) (cs : List Call) (w : MSDataWritingConsumer) (h : Inv w) :
    (run (Collaborators.total hs hc) w cs).spectra_written_
        = w.spectra_written_
          + (accepted (Collaborators.total hs hc) w cs).countP Call.isConsumeSpectrum
    ∧ (run (Collaborators.total hs hc) w cs).chromatograms_written_
        = w.chromatograms_written_
          + (accepted (Collaborators.total hs hc) w cs).countP Call.isConsumeChromatogram := by
  induction cs generalizing w with
  | nil => simp [run, accepted]
  | cons a cs ih =>
    obtain ⟨h1, h2⟩ := total_call_counters hs hc w a h.live
    obtain ⟨k1, k2⟩ := ih (call (Collaborators.total hs hc) w a).state (inv_call _ w a h)
    simp only [run, accepted, List.countP_append]
    rw [k1, k2, h1, h2]
    constructor <;> omega

theorem positions_output (w : MSDataWritingConsumer) (h : Inv w) :
    spectrumPositions w.doCleanup.state.ofs.content = spectrumPositions w.ofs.content
    ∧ chromatogramPositions w.doCleanup.state.ofs.content = chromatogramPositions w.ofs.content
    ∧ spectrumIndices w.doCleanup.state.ofs.content = spectrumIndices w.ofs.content
    ∧ chromatogramIndices w.doCleanup.state.ofs.content
        = chromatogramIndices w.ofs.content := by
  rw [doCleanup_content w h]
  cases openFlag w with
  | none => simp
  | some sec =>
    cases sec <;>
      simp [spectrumPositions, chromatogramPositions, positionsFrom_append, positionsFrom,
        spectrumIndices_append, chromatogramIndices_append, spectrumIndices,
        chromatogramIndices, Section.closeTag, Token.isSpectrum, Token.isChromatogram]

/-- C16: after any calls (hooks and encoder that do not throw), the two offset
lists that the destructor hands to the footer are exactly the positions of the
rendered spectra and of the rendered chromatograms in the file, each position
being the number of write events before the record; there is one offset per
accepted call of that kind, none for a rejected call; and the spectra offsets
followed by the chromatogram offsets increase strictly. -/
theorem offsets_are_record_positions
    (hs : SpectrumType → SpectrumType) (hc : ChromatogramType → ChromatogramType)
    (cs : List Call) :
    (output (Collaborators.total hs hc) new cs = []
      ∨ (output (Collaborators.total hs hc) new cs).getLast?
        = some (Token.footer (run (Collaborators.total hs hc) new cs).spectra_offsets
            (run (Collaborators.total hs hc) new cs).chromatograms_offsets))
    ∧ (run (Collaborators.total hs hc) new cs).spectra_offsets
        = spectrumPositions (output (Collaborators.total hs hc) new cs)
    ∧ (run (Collaborators.total hs hc) new cs).chromatograms_offsets
        = chromatogramPositions (output (Collaborators.total hs hc) new cs)
    ∧ (run (Collaborators.total hs hc) new cs).spectra_offsets.length
        = (accepted (Collaborators.total hs hc) new cs).countP Call.isConsumeSpectrum
    ∧ (run (Collaborators.total hs hc) new cs).chromatograms_offsets.length
        = (accepted (Collaborators.total hs hc) new cs).countP Call.isConsumeChromatogram
    ∧ List.Pairwise (fun a b => a < b)
        ((run (Collaborators.total hs hc) new cs).spectra_offsets
          ++ (run (Collaborators.total hs hc) new cs).chromatograms_offsets) := by
  have hinv := inv_run (Collaborators.total hs hc) cs new inv_new
  have hidx := total_run_indexed hs hc cs new inv_new indexed_new
  have hord := total_run_ordered hs hc cs new inv_new ordered_new
  have hcnt := total_run_counters hs hc cs new inv_new
  have hpos := positions_output _ hinv
  refine ⟨?_, ?_, ?_, ?_, ?_, hord.increasing⟩
  · unfold output
    rw [doCleanup_content _ hinv]
    cases hof : openFlag (run (Collaborators.total hs hc) new cs) with
    | none =>
      left
      have hst : (run (Collaborators.total hs hc) new cs).started_writing_ = false := by
        cases hst : (run (Collaborators.total hs hc) new cs).started_writing_
        · rfl
        · have := hinv.section_open hst
          simp only [openFlag] at hof
          rcases this with h1 | h1
          · simp [h1] at hof
          · split at hof
            · cases hof
            · simp [h1] at hof
      simp [hinv.empty hst]
    | some sec =>
      right
      simp [List.getLast?_append]
  · unfold output
    rw [hpos.1]
    exact hidx.spectra_offsets_eq
  · unfold output
    rw [hpos.2.1]
    exact hidx.chromatograms_offsets_eq
  · rw [hidx.spectra_count, hcnt.1]
    simp [new]
  · rw [hidx.chromatograms_count, hcnt.2]
    simp [new]

theorem consumeSpectrum_counters (K : Collaborators) (w : MSDataWritingConsumer)
    (s : SpectrumType) :
    w.spectra_written_ ≤ (w.consumeSpectrum K s).state.spectra_written_
    ∧ (w.consumeSpectrum K s).state.chromatograms_written_ = w.chromatograms_written_
    ∧ ((w.consumeSpectrum K s).outcome = .returned →
        (w.consumeSpectrum K s).state.spectra_written_ = w.spectra_written_ + 1)
    ∧ ((w.consumeSpectrum K s).outcome = .illegalArgument →
        (w.consumeSpectrum K s).state.spectra_written_ = w.spectra_written_) := by
  rcases w with ⟨⟨o, ct⟩, st, ws, wc, nsw, ncw, nse, nce, adp, v, se, dp, so, co, hk⟩
  cases wc with
  | true => simp [consumeSpectrum]
  | false =>
    cases hp : K.processSpectrum_ s with
    | none => simp [consumeSpectrum, hp]
    | some p =>
      cases hth : K.writeHeaderThrows
          (MapType.ofSpectrum se (if adp = true then p.pushDataProcessing dp else p)) <;>
        cases hts : K.writeSpectrumThrows (if adp = true then p.pushDataProcessing dp else p) <;>
        cases st <;> cases ws <;> cases v <;>
        simp [consumeSpectrum, writeHeader_, writeSpectrum_, Result.andThen, hp, hth, hts]

theorem consumeChromatogram_counters (K : Collaborators) (w : MSDataWritingConsumer)
    (c : ChromatogramType) :
    w.chromatograms_written_ ≤ (w.consumeChromatogram K c).state.chromatograms_written_
    ∧ (w.consumeChromatogram K c).state.spectra_written_ = w.spectra_written_
    ∧ ((w.consumeChromatogram K c).outcome = .returned →
        (w.consumeChromatogram K c).state.chromatograms_written_
          = w.chromatograms_written_ + 1) := by
  rcases w with ⟨⟨o, ct⟩, st, ws, wc, nsw, ncw, nse, nce, adp, v, se, dp, so, co, hk⟩
  cases hp : K.processChromatogram_ c with
  | none => cases ws <;> simp [consumeChromatogram, hp]
  | some p =>
    cases hth : K.writeHeaderThrows
        (MapType.ofChromatogram se (if adp = true then p.pushDataProcessing dp else p)) <;>
      cases hts : K.writeChromatogramThrows
        (if adp = true then p.pushDataProcessing dp else p) <;>
      cases st <;> cases ws <;> cases wc <;> cases v <;>
      simp [consumeChromatogram, writeHeader_, writeChromatogram_, Result.andThen, hp, hth, hts]

theorem doCleanup_counters (w : MSDataWritingConsumer) :
    w.doCleanup.state.spectra_written_ = w.spectra_written_
    ∧ w.doCleanup.state.chromatograms_written_ = w.chromatograms_written_ := by
  unfold doCleanup
  dsimp only
  split <;> exact ⟨rfl, rfl⟩

/-- With hooks and an encoder that do not throw, after any calls
`getNrSpectraWritten` is the number of `consumeSpectrum` calls accepted so far
and `getNrChromatogramsWritten` the number of `consumeChromatogram` calls
accepted so far, and the destructor leaves both as they are.  Whatever the
collaborators, no call and no `doCleanup` lowers a counter; a consume call that
returns normally raises the counter of its kind by one and leaves the other;
a rejected `consumeSpectrum` leaves both. -/
theorem counters_count_accepted_calls (K : Collaborators)
    (hs : SpectrumType → SpectrumType) (hc : ChromatogramType → ChromatogramType)
    (cs : List Call) (w : MSDataWritingConsumer) (a : Call) (s : SpectrumType)
    (c : ChromatogramType) :
    (run (Collaborators.total hs hc) new cs).getNrSpectraWritten
        = (accepted (Collaborators.total hs hc) new cs).countP Call.isConsumeSpectrum
    ∧ (run (Collaborators.total hs hc) new cs).getNrChromatogramsWritten
        = (accepted (Collaborators.total hs hc) new cs).countP Call.isConsumeChromatogram
    ∧ (run (Collaborators.total hs hc) new cs).doCleanup.state.getNrSpectraWritten
        = (accepted (Collaborators.total hs hc) new cs).countP Call.isConsumeSpectrum
    ∧ (run (Collaborators.total hs hc) new cs).doCleanup.state.getNrChromatogramsWritten
        = (accepted (Collaborators.total hs hc) new cs).countP Call.isConsumeChromatogram
    ∧ w.getNrSpectraWritten ≤ (call K w a).state.getNrSpectraWritten
    ∧ w.getNrChromatogramsWritten ≤ (call K w a).state.getNrChromatogramsWritten
    ∧ w.doCleanup.state.getNrSpectraWritten = w.getNrSpectraWritten
    ∧ w.doCleanup.state.getNrChromatogramsWritten = w.getNrChromatogramsWritten
    ∧ ((w.consumeSpectrum K s).outcome = .returned →
        (w.consumeSpectrum K s).state.getNrSpectraWritten = w.getNrSpectraWritten + 1
        ∧ (w.consumeSpectrum K s).state.getNrChromatogramsWritten
            = w.getNrChromatogramsWritten)
    ∧ ((w.consumeChromatogram K c).outcome = .returned →
        (w.consumeChromatogram K c).state.getNrChromatogramsWritten
            = w.getNrChromatogramsWritten + 1
        ∧ (w.consumeChromatogram K c).state.getNrSpectraWritten = w.getNrSpectraWritten)
    ∧ ((w.consumeSpectrum K s).outcome = .illegalArgument →
        (w.consumeSpectrum K s).state.getNrSpectraWritten = w.getNrSpectraWritten
        ∧ (w.consumeSpectrum K s).state.getNrChromatogramsWritten
            = w.getNrChromatogramsWritten) := by
  have hcnt := total_run_counters hs hc cs new inv_new
  have hn : (run (Collaborators.total hs hc) new cs).spectra_written_
      = (accepted (Collaborators.total hs hc) new cs).countP Call.isConsumeSpectrum := by
    rw [hcnt.1]; simp [new]
  have hm : (run (Collaborators.total hs hc) new cs).chromatograms_written_
      = (accepted (Collaborators.total hs hc) new cs).countP Call.isConsumeChromatogram := by
    rw [hcnt.2]; simp [new]
  have hs1 := consumeSpectrum_counters K w s
  have hc1 := consumeChromatogram_counters K w c
  simp only [getNrSpectraWritten, getNrChromatogramsWritten]
  refine ⟨hn, hm, ?_, ?_, ?_, ?_, (doCleanup_counters w).1, (doCleanup_counters w).2,
    fun h => ⟨hs1.2.2.1 h, hs1.2.1⟩, fun h => ⟨hc1.2.2 h, hc1.2.1⟩,
    fun h => ⟨hs1.2.2.2 h, hs1.2.1⟩⟩
  · rw [(doCleanup_counters _).1, hn]
  · rw [(doCleanup_counters _).2, hm]
  · cases a with
    | set q => cases q <;> exact Nat.le_refl _
    | consumeSpectrum x => exact (consumeSpectrum_counters K w x).1
    | consumeChromatogram x =>
      rw [show (call K w (Call.consumeChromatogram x)).state.spectra_written_
        = w.spectra_written_ from (consumeChromatogram_counters K w x).2.1]
  · cases a with
    | set q => cases q <;> exact Nat.le_refl _
    | consumeSpectrum x =>
      rw [show (call K w (Call.consumeSpectrum x)).state.chromatograms_written_
        = w.chromatograms_written_ from (consumeSpectrum_counters K w x).2.1]
    | consumeChromatogram x => exact (consumeChromatogram_counters K w x).1

/-- Concrete instance: a spectrum accepted on a new object raises
`getNrSpectraWritten` from 0 to 1 and leaves `getNrChromatogramsWritten` 0. -/
theorem counters_count_accepted_calls_witness :
    (new.consumeSpectrum PlainMSDataWritingConsumer exampleSpectrum).outcome = .returned
    ∧ (new.consumeSpectrum PlainMSDataWritingConsumer exampleSpectrum).state.getNrSpectraWritten
        = new.getNrSpectraWritten + 1
    ∧ (new.consumeSpectrum PlainMSDataWritingConsumer
        exampleSpectrum).state.getNrChromatogramsWritten = new.getNrChromatogramsWritten :=
  ⟨by decide,
    (counters_count_accepted_calls PlainMSDataWritingConsumer (fun s => s) (fun c => c) []
      new (Call.consumeSpectrum exampleSpectrum) exampleSpectrum
      exampleChromatogram).2.2.2.2.2.2.2.2.1 (by decide)⟩

/-! ## The expected sizes -/

theorem configure_append (w : MSDataWritingConsumer) (cfg : List Setter) (q : Setter) :
    configure w (cfg ++ [q]) = (q.apply (configure w cfg)).state := by
  induction cfg generalizing w with
  | nil => rfl
  | cons p ps ih =>
    show configure (p.apply w).state (ps ++ [q]) = _
    rw [ih]
    rfl

/-- C19: `setExpectedSize` only stores its arguments.  With hooks and an encoder
that do not throw, on an object reached by any calls, the call that opens the
spectrumList writes the value `spectra_expected_` then holds as its count, and
the call that opens the chromatogramList the value `chromatograms_expected_`
then holds; whatever the expected sizes, `consumeChromatogram` and `doCleanup`
return normally and `consumeSpectrum` returns normally unless
`writing_chromatograms_` is set.  After `setExpectedSize(a, b)` any N spectra
and M chromatograms with N + M ≥ 1 give the document whose open tags carry the
counts a and b. -/
theorem expected_size_written_never_checked
    (hs : SpectrumType → SpectrumType) (hc : ChromatogramType → ChromatogramType)
    (cs : List Call) (a b : Nat) (s : SpectrumType) (c : ChromatogramType)
    (cfg : List Setter) (ss : List SpectrumType) (cs2 : List ChromatogramType) :
    ((run (Collaborators.total hs hc) new cs).setExpectedSize a b).state.spectra_expected_ = a
    ∧ ((run (Collaborators.total hs hc) new cs).setExpectedSize a b).state.chromatograms_expected_
        = b
    ∧ ((run (Collaborators.total hs hc) new cs).setExpectedSize a b).outcome = .returned
    ∧ ((run (Collaborators.total hs hc) new cs).started_writing_ = false →
        ((run (Collaborators.total hs hc) new cs).consumeSpectrum
          (Collaborators.total hs hc) s).state.ofs.content
        = [Token.header (MapType.ofSpectrum (run (Collaborators.total hs hc) new cs).settings_
              (renderedSpectrum hs (run (Collaborators.total hs hc) new cs).add_dataprocessing_
                (run (Collaborators.total hs hc) new cs).additional_dataprocessing_ s)),
           Token.spectrumListOpen (run (Collaborators.total hs hc) new cs).spectra_expected_,
           Token.spectrum
              (renderedSpectrum hs (run (Collaborators.total hs hc) new cs).add_dataprocessing_
                (run (Collaborators.total hs hc) new cs).additional_dataprocessing_ s)
              (run (Collaborators.total hs hc) new cs).spectra_written_ false])
    ∧ ((run (Collaborators.total hs hc) new cs).writing_chromatograms_ = false →
        ∃ pre, ((run (Collaborators.total hs hc) new cs).consumeChromatogram
          (Collaborators.total hs hc) c).state.ofs.content
        = (run (Collaborators.total hs hc) new cs).ofs.content ++ pre
          ++ [Token.chromatogramListOpen
                (run (Collaborators.total hs hc) new cs).chromatograms_expected_,
              Token.chromatogram
                (renderedChromatogram hc
                  (run (Collaborators.total hs hc) new cs).add_dataprocessing_
                  (run (Collaborators.total hs hc) new cs).additional_dataprocessing_ c)
                (run (Collaborators.total hs hc) new cs).chromatograms_written_])
    ∧ (((run (Collaborators.total hs hc) new cs).consumeSpectrum
          (Collaborators.total hs hc) s).outcome = .returned
      ∨ (run (Collaborators.total hs hc) new cs).writing_chromatograms_ = true)
    ∧ ((run (Collaborators.total hs hc) new cs).consumeChromatogram
          (Collaborators.total hs hc) c).outcome = .returned
    ∧ (run (Collaborators.total hs hc) new cs).doCleanup.outcome = .returned
    ∧ (1 ≤ ss.length + cs2.length →
        output (Collaborators.total hs hc) (configure new (cfg ++ [Setter.setExpectedSize a b]))
          (ss.map Call.consumeSpectrum ++ cs2.map Call.consumeChromatogram)
        = document hs hc (configure new (cfg ++ [Setter.setExpectedSize a b])) ss cs2
        ∧ (configure new (cfg ++ [Setter.setExpectedSize a b])).spectra_expected_ = a
        ∧ (configure new (cfg ++ [Setter.setExpectedSize a b])).chromatograms_expected_ = b) := by
  have hinv := inv_run (Collaborators.total hs hc) cs new inv_new
  refine ⟨rfl, rfl, rfl, ?_, ?_, ?_, ?_, ?_, ?_⟩
  · intro hst
    have hws : (run (Collaborators.total hs hc) new cs).writing_spectra_ = false := by
      cases hws : (run (Collaborators.total hs hc) new cs).writing_spectra_
      · rfl
      · rw [hinv.spectra_started hws] at hst; cases hst
    have hwc : (run (Collaborators.total hs hc) new cs).writing_chromatograms_ = false := by
      cases hwc : (run (Collaborators.total hs hc) new cs).writing_chromatograms_
      · rfl
      · rw [hinv.chromatograms_started hwc] at hst; cases hst
    rw [consumeSpectrum_total hs hc _ s hinv.live hwc]
    simp [hst, hws, hinv.empty hst]
  · intro hwc
    rw [consumeChromatogram_total hs hc _ c hinv.live]
    generalize run (Collaborators.total hs hc) new cs = w at *
    refine ⟨(if w.writing_spectra_ then [Token.spectrumListClose] else [])
      ++ (if w.started_writing_ then []
        else [Token.header (MapType.ofChromatogram w.settings_
          (renderedChromatogram hc w.add_dataprocessing_ w.additional_dataprocessing_ c))]), ?_⟩
    simp [hwc]
  · cases hwc : (run (Collaborators.total hs hc) new cs).writing_chromatograms_ with
    | true => exact Or.inr rfl
    | false => exact Or.inl (by rw [consumeSpectrum_total hs hc _ s hinv.live hwc])
  · rw [consumeChromatogram_total hs hc _ c hinv.live]
  · rw [doCleanup_live _ hinv.live]
  · intro h
    refine ⟨output_spectra_then_chromatograms hs hc _ ss cs2 h, ?_, ?_⟩ <;>
      rw [configure_append] <;> rfl

/-- C19, concrete instance: expected sizes 5 and 9 are declared, one spectrum
and one chromatogram are written; the open tags carry 5 and 9. -/
theorem expected_size_written_never_checked_witness :
    1 ≤ [exampleSpectrum].length + [exampleChromatogram].length
    ∧ output PlainMSDataWritingConsumer (configure new ([] ++ [Setter.setExpectedSize 5 9]))
        ([exampleSpectrum].map Call.consumeSpectrum
          ++ [exampleChromatogram].map Call.consumeChromatogram)
      = [Token.header (MapType.ofSpectrum default exampleSpectrum),
         Token.spectrumListOpen 5,
         Token.spectrum exampleSpectrum 0 false,
         Token.spectrumListClose,
         Token.chromatogramListOpen 9,
         Token.chromatogram exampleChromatogram 0,
         Token.chromatogramListClose,
         Token.footer [2] [5]] :=
  ⟨by decide,
    ((expected_size_written_never_checked (fun s => s) (fun c => c) [] 5 9 exampleSpectrum
      exampleChromatogram [] [exampleSpectrum] [exampleChromatogram]).2.2.2.2.2.2.2.2
        (by decide)).1.trans (by decide)⟩

/-! ## The Noop variant -/

theorem noop_run_shape (cs : List Call) :
    ∃ se nse nce adp dp, NoopMSDataWritingConsumer.run NoopMSDataWritingConsumer.new cs =
      { ofs := { is_open := true, content := [] }
        started_writing_ := false
        writing_spectra_ := false
        writing_chromatograms_ := false
        spectra_written_ := 0
        chromatograms_written_ := 0
        spectra_expected_ := nse
        chromatograms_expected_ := nce
        add_dataprocessing_ := adp
        validator_ := .allocated
        settings_ := se
        additional_dataprocessing_ := dp
        spectra_offsets := []
        chromatograms_offsets := []
        hook_calls := [] } := by
  suffices h : ∀ (cs : List Call) (se : ExperimentalSettings) (nse nce : Nat) (adp : Bool)
      (dp : DataProcessing), ∃ se2 nse2 nce2 adp2 dp2,
      NoopMSDataWritingConsumer.run
        ⟨⟨true, []⟩, false, false, false, 0, 0, nse, nce, adp, .allocated, se, dp,
          [], [], []⟩ cs =
      ⟨⟨true, []⟩, false, false, false, 0, 0, nse2, nce2, adp2, .allocated, se2, dp2,
        [], [], []⟩ from h cs default 0 0 false default
  intro cs
  induction cs with
  | nil => intro se nse nce adp dp; exact ⟨se, nse, nce, adp, dp, rfl⟩
  | cons a cs ih =>
    intro se nse nce adp dp
    cases a with
    | set q =>
      cases q with
      | setExperimentalSettings e => exact ih se nse nce adp dp
      | setExpectedSize x y => exact ih se x y adp dp
      | addDataProcessing d => exact ih se nse nce true d
    | consumeSpectrum s => exact ih se nse nce adp dp
    | consumeChromatogram c => exact ih se nse nce adp dp

theorem noop_outcomes (cs : List Call) (w : MSDataWritingConsumer) :
    ∀ o ∈ NoopMSDataWritingConsumer.outcomes w cs, o = Outcome.returned := by
  induction cs generalizing w with
  | nil => intro o ho; cases ho
  | cons a cs ih =>
    intro o ho
    simp only [NoopMSDataWritingConsumer.outcomes, List.mem_cons] at ho
    rcases ho with rfl | ho
    · cases a with
      | set q => cases q <;> rfl
      | consumeSpectrum s => rfl
      | consumeChromatogram c => rfl
    · exact ih _ o ho

theorem noop_outcomes_length (cs : List Call) (w : MSDataWritingConsumer) :
    (NoopMSDataWritingConsumer.outcomes w cs).length = cs.length := by
  induction cs generalizing w with
  | nil => rfl
  | cons a cs ih => simp [NoopMSDataWritingConsumer.outcomes, ih]

/-- C20: on a `NoopMSDataWritingConsumer` every call of any sequence, in any
order, returns normally; both written counters stay 0 and nothing is written
to the file; and the destructor, which runs the `doCleanup` of the base class,
returns normally and writes nothing either. -/
theorem noop_writes_nothing (cs : List Call) :
    (∀ o ∈ NoopMSDataWritingConsumer.outcomes NoopMSDataWritingConsumer.new cs,
        o = Outcome.returned)
    ∧ (NoopMSDataWritingConsumer.outcomes NoopMSDataWritingConsumer.new cs).length = cs.length
    ∧ (NoopMSDataWritingConsumer.run NoopMSDataWritingConsumer.new cs).getNrSpectraWritten = 0
    ∧ (NoopMSDataWritingConsumer.run NoopMSDataWritingConsumer.new cs).getNrChromatogramsWritten
        = 0
    ∧ (NoopMSDataWritingConsumer.run NoopMSDataWritingConsumer.new cs).ofs.content = []
    ∧ (NoopMSDataWritingConsumer.destructor
        (NoopMSDataWritingConsumer.run NoopMSDataWritingConsumer.new cs)).outcome = .returned
    ∧ (NoopMSDataWritingConsumer.destructor
        (NoopMSDataWritingConsumer.run NoopMSDataWritingConsumer.new cs)).state.ofs.content
        = [] := by
  obtain ⟨se, nse, nce, adp, dp, hw⟩ := noop_run_shape cs
  refine ⟨noop_outcomes cs _, noop_outcomes_length cs _, ?_, ?_, ?_, ?_, ?_⟩
  all_goals (rw [hw]; try rfl)

/-! ## Calls the specification rejects -/

/-- C22, refuted as stated: after one spectrum has been consumed,
`setExpectedSize(5, 9)` returns normally and replaces the stored expected
sizes. -/
theorem setExpectedSize_after_consume_succeeds :
    ((new.consumeSpectrum PlainMSDataWritingConsumer exampleSpectrum).state.setExpectedSize
        5 9).outcome = .returned
    ∧ ((new.consumeSpectrum PlainMSDataWritingConsumer exampleSpectrum).state.setExpectedSize
        5 9).state.spectra_expected_ = 5
    ∧ (new.consumeSpectrum PlainMSDataWritingConsumer exampleSpectrum).state.spectra_expected_
        = 0
    ∧ ((new.consumeSpectrum PlainMSDataWritingConsumer exampleSpectrum).state.setExpectedSize
        5 9).state.chromatograms_expected_ = 9 := by
  decide

/-- C22, amended: `setExpectedSize` has no precondition.  On every object, with
or without records consumed, it returns normally and stores both arguments,
changing nothing else; in particular it writes nothing, so a list-open tag
already in the file keeps the count it was written with. -/
theorem setExpectedSize_always_succeeds (w : MSDataWritingConsumer) (a b : Nat) :
    (w.setExpectedSize a b).outcome = .returned
    ∧ (w.setExpectedSize a b).state.spectra_expected_ = a
    ∧ (w.setExpectedSize a b).state.chromatograms_expected_ = b
    ∧ (w.setExpectedSize a b).state
        = { w with spectra_expected_ := a, chromatograms_expected_ := b }
    ∧ (w.setExpectedSize a b).state.ofs = w.ofs :=
  ⟨rfl, rfl, rfl, rfl, rfl⟩

/-- C23, refuted as stated: after one spectrum has been consumed,
`setExperimentalSettings` returns normally and replaces the stored settings. -/
theorem setExperimentalSettings_after_consume_succeeds :
    ((new.consumeSpectrum PlainMSDataWritingConsumer
        exampleSpectrum).state.setExperimentalSettings { description := 4 }).outcome = .returned
    ∧ ((new.consumeSpectrum PlainMSDataWritingConsumer
        exampleSpectrum).state.setExperimentalSettings { description := 4 }).state.settings_
        = { description := 4 }
    ∧ (new.consumeSpectrum PlainMSDataWritingConsumer exampleSpectrum).state.settings_
        = { description := 0 } := by
  decide

/-- C23, amended: `setExperimentalSettings` has no precondition.  On every
object it returns normally and stores its argument, changing nothing else and
writing nothing.  With hooks and an encoder that do not throw, settings stored
after the first consume call do not reach the file: the header in the file is
the one rendered at the first consume call. -/
theorem setExperimentalSettings_always_succeeds
    (hs : SpectrumType → SpectrumType) (hc : ChromatogramType → ChromatogramType)
    (w : MSDataWritingConsumer) (exp : ExperimentalSettings)
    (cfg : List Setter) (s : SpectrumType) (cs : List Call) :
    (w.setExperimentalSettings exp).outcome = .returned
    ∧ (w.setExperimentalSettings exp).state.settings_ = exp
    ∧ (w.setExperimentalSettings exp).state = { w with settings_ := exp }
    ∧ (w.setExperimentalSettings exp).state.ofs = w.ofs
    ∧ ∃ rest,
        output (Collaborators.total hs hc) new
          (cfg.map Call.set ++ Call.consumeSpectrum s
            :: Call.set (Setter.setExperimentalSettings exp) :: cs)
        = Token.header
            { settings := lastSettings cfg
              spectra := [renderedSpectrum hs (configure new cfg).add_dataprocessing_
                (configure new cfg).additional_dataprocessing_ s]
              chromatograms := [] } :: rest
        ∧ ∀ t ∈ rest, t.isHeader = false := by
  refine ⟨rfl, rfl, rfl, rfl, ?_⟩
  have hset : (configure new cfg).settings_ = lastSettings cfg := configure_settings cfg new
  have hinv0 : Inv (configure new cfg) := by
    rw [← run_set (Collaborators.total hs hc)]
    exact inv_run _ _ new inv_new
  obtain ⟨se, nse, nce, adp, dp, hw⟩ := configure_new cfg
  have hst : (configure new cfg).started_writing_ = false := by rw [hw]
  have hws : (configure new cfg).writing_spectra_ = false := by rw [hw]
  have hwc : (configure new cfg).writing_chromatograms_ = false := by rw [hw]
  have hct : (configure new cfg).ofs.content = [] := by rw [hw]
  have hrun : run (Collaborators.total hs hc) new
      (cfg.map Call.set ++ Call.consumeSpectrum s
        :: Call.set (Setter.setExperimentalSettings exp) :: cs)
      = run (Collaborators.total hs hc)
        ((configure new cfg).consumeSpectrum (Collaborators.total hs hc) s).state
        (Call.set (Setter.setExperimentalSettings exp) :: cs) := by
    rw [run_append, run_set]; rfl
  have h1 := inv_consumeSpectrum (Collaborators.total hs hc) _ s hinv0
  have hc1 : ((configure new cfg).consumeSpectrum
      (Collaborators.total hs hc) s).state.ofs.content
      = Token.header
          { settings := lastSettings cfg
            spectra := [renderedSpectrum hs (configure new cfg).add_dataprocessing_
              (configure new cfg).additional_dataprocessing_ s]
            chromatograms := [] }
        :: [Token.spectrumListOpen (configure new cfg).spectra_expected_,
            Token.spectrum (renderedSpectrum hs (configure new cfg).add_dataprocessing_
              (configure new cfg).additional_dataprocessing_ s)
              (configure new cfg).spectra_written_ false] := by
    rw [consumeSpectrum_total hs hc _ s hinv0.live hwc]
    simp [hst, hws, hct, hset, MapType.ofSpectrum]
  obtain ⟨_, _, _, rest2, h2, h3⟩ := header_kept hs hc
    (Call.set (Setter.setExperimentalSettings exp) :: cs) _ h1 _ _ hc1
  refine ⟨rest2, ?_, h3⟩
  unfold output at h2 ⊢
  rw [hrun]
  exact h2

/-! ## Collaborators that throw -/

theorem consumeSpectrum_encoder_throws (K : Collaborators) (w : MSDataWritingConsumer)
    (s p : SpectrumType) (hl : Live w) (hwc : w.writing_chromatograms_ = false)
    (hp : K.processSpectrum_ s = some p)
    (hh : w.started_writing_ = true ∨ K.writeHeaderThrows (MapType.ofSpectrum w.settings_
      (if w.add_dataprocessing_ then p.pushDataProcessing w.additional_dataprocessing_ else p))
        = false)
    (ht : K.writeSpectrumThrows
      (if w.add_dataprocessing_ then p.pushDataProcessing w.additional_dataprocessing_ else p)
        = true) :
    w.consumeSpectrum K s =
      { state := { w with
          hook_calls := w.hook_calls ++ [Record.spectrum s]
          ofs :=
            { is_open := true
              content := w.ofs.content
                ++ (if w.started_writing_ then []
                    else [Token.header (MapType.ofSpectrum w.settings_
                      (if w.add_dataprocessing_
                        then p.pushDataProcessing w.additional_dataprocessing_ else p))])
                ++ (if w.writing_spectra_ then []
                    else [Token.spectrumListOpen w.spectra_expected_]) }
          started_writing_ := true
          writing_spectra_ := true
          spectra_written_ := w.spectra_written_ + 1 }
        outcome := .encoderThrew } := by
  obtain ⟨hv, ho⟩ := hl
  rcases w with ⟨⟨o, ct⟩, st, ws, wc, nsw, ncw, nse, nce, adp, v, se, dp, so, co, hk⟩
  simp only at hv ho hwc hh ht
  subst hv ho hwc
  cases st <;> cases ws <;>
    simp_all [consumeSpectrum, writeHeader_, writeSpectrum_, Result.andThen, OfStream.write]

theorem consumeChromatogram_encoder_throws (K : Collaborators) (w : MSDataWritingConsumer)
    (c q : ChromatogramType) (hl : Live w)
    (hp : K.processChromatogram_ c = some q)
    (hh : w.started_writing_ = true ∨ K.writeHeaderThrows (MapType.ofChromatogram w.settings_
      (if w.add_dataprocessing_ then q.pushDataProcessing w.additional_dataprocessing_ else q))
        = false)
    (ht : K.writeChromatogramThrows
      (if w.add_dataprocessing_ then q.pushDataProcessing w.additional_dataprocessing_ else q)
        = true) :
    w.consumeChromatogram K c =
      { state := { w with
          hook_calls := w.hook_calls ++ [Record.chromatogram c]
          ofs :=
            { is_open := true
              content := w.ofs.content
                ++ (if w.writing_spectra_ then [Token.spectrumListClose] else [])
                ++ (if w.started_writing_ then []
                    else [Token.header (MapType.ofChromatogram w.settings_
                      (if w.add_dataprocessing_
                        then q.pushDataProcessing w.additional_dataprocessing_ else q))])
                ++ (if w.writing_chromatograms_ then []
                    else [Token.chromatogramListOpen w.chromatograms_expected_]) }
          started_writing_ := true
          writing_spectra_ := w.writing_chromatograms_ && w.writing_spectra_
          writing_chromatograms_ := true
          chromatograms_written_ := w.chromatograms_written_ + 1 }
        outcome := .encoderThrew } := by
  obtain ⟨hv, ho⟩ := hl
  rcases w with ⟨⟨o, ct⟩, st, ws, wc, nsw, ncw, nse, nce, adp, v, se, dp, so, co, hk⟩
  simp only at hv ho hh ht
  subst hv ho
  cases st <;> cases ws <;> cases wc <;>
    simp_all [consumeChromatogram, writeHeader_, writeChromatogram_, Result.andThen,
      OfStream.write]

/-- C24, refuted as stated: on a new object, with an encoder that throws on the
spectrum, `consumeSpectrum` ends with the exception of the encoder, yet
`getNrSpectraWritten` has gone from 0 to 1, `started_writing_` and
`writing_spectra_` have been set, and the header and the open tag are in the
file. -/
theorem failed_write_not_rolled_back :
    (new.consumeSpectrum spectrumEncoderThrows exampleSpectrum).outcome = .encoderThrew
    ∧ new.getNrSpectraWritten = 0
    ∧ (new.consumeSpectrum spectrumEncoderThrows exampleSpectrum).state.getNrSpectraWritten = 1
    ∧ new.started_writing_ = false
    ∧ (new.consumeSpectrum spectrumEncoderThrows exampleSpectrum).state.started_writing_ = true
    ∧ new.writing_spectra_ = false
    ∧ (new.consumeSpectrum spectrumEncoderThrows exampleSpectrum).state.writing_spectra_ = true
    ∧ (new.consumeSpectrum spectrumEncoderThrows exampleSpectrum).state.ofs.content
        = [Token.header (MapType.ofSpectrum default exampleSpectrum),
           Token.spectrumListOpen 0] := by
  decide

/-- C24, amended: on an object reached by any calls, when the hook returns, the
header is in the file or is rendered without a throw, and the encoder throws
on the record, the consume call ends with the exception of the encoder and
nothing is undone.  No record is written and both offset lists are as before;
a header and list tags written earlier in the same call stay in the file, and
`started_writing_` and the section flags are set to match them.  When the
section of the record was open already, the file and the three flags are as
before the call. -/
theorem encoder_throw_leaves_tags_and_flags (K : Collaborators) (cs : List Call)
    (s p : SpectrumType) (c q : ChromatogramType) :
    ((run K new cs).writing_chromatograms_ = false →
      K.processSpectrum_ s = some p →
      ((run K new cs).started_writing_ = true
        ∨ K.writeHeaderThrows (MapType.ofSpectrum (run K new cs).settings_
            (if (run K new cs).add_dataprocessing_
              then p.pushDataProcessing (run K new cs).additional_dataprocessing_ else p))
          = false) →
      K.writeSpectrumThrows
          (if (run K new cs).add_dataprocessing_
            then p.pushDataProcessing (run K new cs).additional_dataprocessing_ else p)
        = true →
      ((run K new cs).consumeSpectrum K s).outcome = .encoderThrew
      ∧ ((run K new cs).consumeSpectrum K s).state.ofs.content
          = (run K new cs).ofs.content
            ++ (if (run K new cs).started_writing_ then []
                else [Token.header (MapType.ofSpectrum (run K new cs).settings_
                  (if (run K new cs).add_dataprocessing_
                    then p.pushDataProcessing (run K new cs).additional_dataprocessing_
                    else p))])
            ++ (if (run K new cs).writing_spectra_ then []
                else [Token.spectrumListOpen (run K new cs).spectra_expected_])
      ∧ ((run K new cs).consumeSpectrum K s).state.spectra_offsets
          = (run K new cs).spectra_offsets
      ∧ ((run K new cs).consumeSpectrum K s).state.chromatograms_offsets
          = (run K new cs).chromatograms_offsets
      ∧ ((run K new cs).consumeSpectrum K s).state.started_writing_ = true
      ∧ ((run K new cs).consumeSpectrum K s).state.writing_spectra_ = true
      ∧ ((run K new cs).consumeSpectrum K s).state.writing_chromatograms_ = false
      ∧ ((run K new cs).writing_spectra_ = true →
          ((run K new cs).consumeSpectrum K s).state.ofs.content = (run K new cs).ofs.content
          ∧ ((run K new cs).consumeSpectrum K s).state.started_writing_
              = (run K new cs).started_writing_))
    ∧ (K.processChromatogram_ c = some q →
      ((run K new cs).started_writing_ = true
        ∨ K.writeHeaderThrows (MapType.ofChromatogram (run K new cs).settings_
            (if (run K new cs).add_dataprocessing_
              then q.pushDataProcessing (run K new cs).additional_dataprocessing_ else q))
          = false) →
      K.writeChromatogramThrows
          (if (run K new cs).add_dataprocessing_
            then q.pushDataProcessing (run K new cs).additional_dataprocessing_ else q)
        = true →
      ((run K new cs).consumeChromatogram K c).outcome = .encoderThrew
      ∧ ((run K new cs).consumeChromatogram K c).state.ofs.content
          = (run K new cs).ofs.content
            ++ (if (run K new cs).writing_spectra_ then [Token.spectrumListClose] else [])
            ++ (if (run K new cs).started_writing_ then []
                else [Token.header (MapType.ofChromatogram (run K new cs).settings_
                  (if (run K new cs).add_dataprocessing_
                    then q.pushDataProcessing (run K new cs).additional_dataprocessing_
                    else q))])
            ++ (if (run K new cs).writing_chromatograms_ then []
                else [Token.chromatogramListOpen (run K new cs).chromatograms_expected_])
      ∧ ((run K new cs).consumeChromatogram K c).state.spectra_offsets
          = (run K new cs).spectra_offsets
      ∧ ((run K new cs).consumeChromatogram K c).state.chromatograms_offsets
          = (run K new cs).chromatograms_offsets
      ∧ ((run K new cs).consumeChromatogram K c).state.started_writing_ = true
      ∧ ((run K new cs).consumeChromatogram K c).state.writing_chromatograms_ = true
      ∧ ((run K new cs).consumeChromatogram K c).state.writing_spectra_ = false
      ∧ ((run K new cs).writing_chromatograms_ = true →
          ((run K new cs).consumeChromatogram K c).state.ofs.content
              = (run K new cs).ofs.content
          ∧ ((run K new cs).consumeChromatogram K c).state.started_writing_
              = (run K new cs).started_writing_
          ∧ ((run K new cs).consumeChromatogram K c).state.writing_spectra_
              = (run K new cs).writing_spectra_)) := by
  have hinv := inv_run K cs new inv_new
  generalize run K new cs = w at *
  have h1 := hinv.spectra_started
  have h2 := hinv.chromatograms_started
  have h3 := hinv.exclusive
  constructor
  · intro hwc hp hh ht
    rw [consumeSpectrum_encoder_throws K w s p hinv.live hwc hp hh ht]
    refine ⟨rfl, rfl, rfl, rfl, rfl, rfl, hwc, ?_⟩
    intro hws
    simp [hws, h1 hws]
  · intro hp hh ht
    rw [consumeChromatogram_encoder_throws K w c q hinv.live hp hh ht]
    refine ⟨rfl, rfl, rfl, rfl, rfl, rfl, ?_, ?_⟩
    · cases hws : w.writing_spectra_ <;> cases hwc : w.writing_chromatograms_ <;> simp_all
    · intro hwc
      have hws : w.writing_spectra_ = false := by
        cases hws : w.writing_spectra_
        · rfl
        · rw [h3 hws] at hwc; cases hwc
      simp [hws, hwc, h2 hwc]

/-- C24, concrete instance of the amended claim: on a new object the encoder
throws on the first spectrum. -/
theorem encoder_throw_leaves_tags_and_flags_witness :
    (run spectrumEncoderThrows new []).writing_chromatograms_ = false
    ∧ spectrumEncoderThrows.processSpectrum_ exampleSpectrum = some exampleSpectrum
    ∧ spectrumEncoderThrows.writeHeaderThrows
        (MapType.ofSpectrum (run spectrumEncoderThrows new []).settings_
          (if (run spectrumEncoderThrows new []).add_dataprocessing_
            then exampleSpectrum.pushDataProcessing
              (run spectrumEncoderThrows new []).additional_dataprocessing_
            else exampleSpectrum)) = false
    ∧ spectrumEncoderThrows.writeSpectrumThrows
        (if (run spectrumEncoderThrows new []).add_dataprocessing_
          then exampleSpectrum.pushDataProcessing
            (run spectrumEncoderThrows new []).additional_dataprocessing_
          else exampleSpectrum) = true
    ∧ ((run spectrumEncoderThrows new []).consumeSpectrum spectrumEncoderThrows
        exampleSpectrum).outcome = .encoderThrew :=
  ⟨by decide, by decide, by decide, by decide,
    ((encoder_throw_leaves_tags_and_flags spectrumEncoderThrows [] exampleSpectrum
      exampleSpectrum exampleChromatogram exampleChromatogram).1
        (by decide) (by decide) (Or.inr (by decide)) (by decide)).1⟩

/-- C27, the code at the failing input: one spectrum is consumed, then
`consumeChromatogram` is called with a hook that throws, then the object is
destroyed.  `consumeChromatogram` writes the spectrumList close tag before the
hook runs and leaves `writing_spectra_` set, so `doCleanup` writes the tag a
second time. -/
theorem spectrumListClose_written_twice :
    ((run chromatogramHookThrows new
        [Call.consumeSpectrum exampleSpectrum]).consumeChromatogram chromatogramHookThrows
        exampleChromatogram).outcome = .hookThrew
    ∧ ((run chromatogramHookThrows new
        [Call.consumeSpectrum exampleSpectrum]).consumeChromatogram chromatogramHookThrows
        exampleChromatogram).state.writing_spectra_ = true
    ∧ output chromatogramHookThrows new
        [Call.consumeSpectrum exampleSpectrum, Call.consumeChromatogram exampleChromatogram]
      = [Token.header (MapType.ofSpectrum default exampleSpectrum),
         Token.spectrumListOpen 0,
         Token.spectrum exampleSpectrum 0 false,
         Token.spectrumListClose,
         Token.spectrumListClose,
         Token.footer [2] []]
    ∧ (output chromatogramHookThrows new
        [Call.consumeSpectrum exampleSpectrum,
         Call.consumeChromatogram exampleChromatogram]).countP Token.isSpectrumListClose = 2 := by
  decide

/-! ## The flags -/

theorem startedIffWritten_consumeSpectrum (K : Collaborators) (w : MSDataWritingConsumer)
    (s : SpectrumType) (h : Inv w) (hc : StartedIffWritten w) :
    StartedIffWritten (w.consumeSpectrum K s).state := by
  obtain ⟨⟨hv, ho⟩, h1, h2, h3, h4, h5, h6⟩ := h
  rcases w with ⟨⟨o, ct⟩, st, ws, wc, nsw, ncw, nse, nce, adp, v, se, dp, so, co, hk⟩
  simp only [StartedIffWritten] at hc ⊢
  simp only at hv ho h1 h2 h3 h4 h5 h6 hc
  subst hv ho
  cases hp : K.processSpectrum_ s with
  | none =>
    cases wc <;> simp only [consumeSpectrum, hp] <;> simpa using hc
  | some p =>
    cases hth : K.writeHeaderThrows
        (MapType.ofSpectrum se (if adp = true then p.pushDataProcessing dp else p)) <;>
      cases hts : K.writeSpectrumThrows (if adp = true then p.pushDataProcessing dp else p) <;>
      cases st <;> cases ws <;> cases wc <;> simp at h1 h2 h3 h4 hc <;>
      simp [consumeSpectrum, writeHeader_, writeSpectrum_, Result.andThen, hp, hth, hts, hc]

theorem startedIffWritten_consumeChromatogram (K : Collaborators) (w : MSDataWritingConsumer)
    (c : ChromatogramType) (h : Inv w) (hc : StartedIffWritten w) :
    StartedIffWritten (w.consumeChromatogram K c).state := by
  obtain ⟨⟨hv, ho⟩, h1, h2, h3, h4, h5, h6⟩ := h
  rcases w with ⟨⟨o, ct⟩, st, ws, wc, nsw, ncw, nse, nce, adp, v, se, dp, so, co, hk⟩
  simp only [StartedIffWritten] at hc ⊢
  simp only at hv ho h1 h2 h3 h4 h5 h6 hc
  subst hv ho
  cases hp : K.processChromatogram_ c with
  | none =>
    cases ws <;> simp only [consumeChromatogram, hp] <;> simpa using hc
  | some p =>
    cases hth : K.writeHeaderThrows
        (MapType.ofChromatogram se (if adp = true then p.pushDataProcessing dp else p)) <;>
      cases hts : K.writeChromatogramThrows
        (if adp = true then p.pushDataProcessing dp else p) <;>
      cases st <;> cases ws <;> cases wc <;> simp at h1 h2 h3 h4 hc <;>
      simp [consumeChromatogram, writeHeader_, writeChromatogram_, Result.andThen, hp, hth,
        hts, hc]

theorem startedIffWritten_run (K : Collaborators) (cs : List Call) (w : MSDataWritingConsumer)
    (h : Inv w) (hc : StartedIffWritten w) : StartedIffWritten (run K w cs) := by
  induction cs generalizing w with
  | nil => exact hc
  | cons a cs ih =>
    refine ih _ (inv_call K w a h) ?_
    cases a with
    | set q => cases q <;> exact hc
    | consumeSpectrum s => exact startedIffWritten_consumeSpectrum K w s h hc
    | consumeChromatogram c => exact startedIffWritten_consumeChromatogram K w c h hc

theorem flags_kept_consumeSpectrum (K : Collaborators) (w : MSDataWritingConsumer)
    (s : SpectrumType) :
    (w.started_writing_ = true → (w.consumeSpectrum K s).state.started_writing_ = true)
    ∧ (w.writing_chromatograms_ = true →
        (w.consumeSpectrum K s).state.writing_chromatograms_ = true) := by
  rcases w with ⟨⟨o, ct⟩, st, ws, wc, nsw, ncw, nse, nce, adp, v, se, dp, so, co, hk⟩
  cases wc with
  | true => simp [consumeSpectrum]
  | false =>
    cases hp : K.processSpectrum_ s with
    | none => simp [consumeSpectrum, hp]
    | some p =>
      cases hth : K.writeHeaderThrows
          (MapType.ofSpectrum se (if adp = true then p.pushDataProcessing dp else p)) <;>
        cases hts : K.writeSpectrumThrows (if adp = true then p.pushDataProcessing dp else p) <;>
        cases st <;> cases ws <;> cases v <;>
        simp [consumeSpectrum, writeHeader_, writeSpectrum_, Result.andThen, hp, hth, hts]

theorem flags_kept_consumeChromatogram (K : Collaborators) (w : MSDataWritingConsumer)
    (c : ChromatogramType) :
    (w.started_writing_ = true → (w.consumeChromatogram K c).state.started_writing_ = true)
    ∧ (w.writing_chromatograms_ = true →
        (w.consumeChromatogram K c).state.writing_chromatograms_ = true) := by
  rcases w with ⟨⟨o, ct⟩, st, ws, wc, nsw, ncw, nse, nce, adp, v, se, dp, so, co, hk⟩
  cases hp : K.processChromatogram_ c with
  | none => cases ws <;> simp [consumeChromatogram, hp]
  | some p =>
    cases hth : K.writeHeaderThrows
        (MapType.ofChromatogram se (if adp = true then p.pushDataProcessing dp else p)) <;>
      cases hts : K.writeChromatogramThrows
        (if adp = true then p.pushDataProcessing dp else p) <;>
      cases st <;> cases ws <;> cases wc <;> cases v <;>
      simp [consumeChromatogram, writeHeader_, writeChromatogram_, Result.andThen, hp, hth, hts]

theorem flags_kept_run (K : Collaborators) (cs : List Call) (w : MSDataWritingConsumer) :
    (w.started_writing_ = true → (run K w cs).started_writing_ = true)
    ∧ (w.writing_chromatograms_ = true → (run K w cs).writing_chromatograms_ = true) := by
  induction cs generalizing w with
  | nil => exact ⟨id, id⟩
  | cons a cs ih =>
    have hstep : (w.started_writing_ = true → (call K w a).state.started_writing_ = true)
        ∧ (w.writing_chromatograms_ = true →
            (call K w a).state.writing_chromatograms_ = true) := by
      cases a with
      | set q => cases q <;> exact ⟨id, id⟩
      | consumeSpectrum s => exact flags_kept_consumeSpectrum K w s
      | consumeChromatogram c => exact flags_kept_consumeChromatogram K w c
    have hr := ih (call K w a).state
    exact ⟨fun h => hr.1 (hstep.1 h), fun h => hr.2 (hstep.2 h)⟩

/-- C26: on an object reached from the constructor by any configuration and
consume calls, accepted or not and whatever the collaborators do,
`writing_spectra_` and `writing_chromatograms_` are not both set, each of them
implies `started_writing_`, `started_writing_` holds exactly when
`spectra_written_ + chromatograms_written_` is positive, and once
`started_writing_` or `writing_chromatograms_` is set no further calls clear
it. -/
theorem flag_invariants (K : Collaborators) (cs cs2 : List Call) :
    ¬ ((run K new cs).writing_spectra_ = true ∧ (run K new cs).writing_chromatograms_ = true)
    ∧ ((run K new cs).writing_spectra_ = true → (run K new cs).started_writing_ = true)
    ∧ ((run K new cs).writing_chromatograms_ = true → (run K new cs).started_writing_ = true)
    ∧ ((run K new cs).started_writing_ = true
        ↔ 0 < (run K new cs).spectra_written_ + (run K new cs).chromatograms_written_)
    ∧ ((run K new cs).started_writing_ = true →
        (run K new (cs ++ cs2)).started_writing_ = true)
    ∧ ((run K new cs).writing_chromatograms_ = true →
        (run K new (cs ++ cs2)).writing_chromatograms_ = true) := by
  have hinv := inv_run K cs new inv_new
  have hcnt := startedIffWritten_run K cs new inv_new (by simp [StartedIffWritten, new])
  have hk := flags_kept_run K cs2 (run K new cs)
  rw [run_append]
  refine ⟨?_, hinv.spectra_started, hinv.chromatograms_started, hcnt, hk.1, hk.2⟩
  rintro ⟨h1, h2⟩
  rw [hinv.exclusive h1] at h2
  cases h2

/-- C26, concrete instance: after one spectrum and one chromatogram the
chromatogram flag is set, and a further, rejected, spectrum leaves it set. -/
theorem flag_invariants_witness :
    (run PlainMSDataWritingConsumer new
        [Call.consumeSpectrum exampleSpectrum,
         Call.consumeChromatogram exampleChromatogram]).writing_chromatograms_ = true
    ∧ (run PlainMSDataWritingConsumer new
        ([Call.consumeSpectrum exampleSpectrum, Call.consumeChromatogram exampleChromatogram]
          ++ [Call.consumeSpectrum exampleSpectrum])).writing_chromatograms_ = true :=
  ⟨by decide,
    (flag_invariants PlainMSDataWritingConsumer
      [Call.consumeSpectrum exampleSpectrum, Call.consumeChromatogram exampleChromatogram]
      [Call.consumeSpectrum exampleSpectrum]).2.2.2.2.2 (by decide)⟩

/-! ## The configured descriptor -/

theorem total_run_after_addDataProcessing (hs hc) (pre post : List Call) (d : DataProcessing)
    (hpost : ∀ a ∈ post, a.isAddDataProcessing = false) :
    (run (Collaborators.total hs hc) new
        (pre ++ Call.set (Setter.addDataProcessing d) :: post)).add_dataprocessing_ = true
    ∧ (run (Collaborators.total hs hc) new
        (pre ++ Call.set (Setter.addDataProcessing d) :: post)).additional_dataprocessing_
        = d := by
  have hinv1 := inv_run (Collaborators.total hs hc) pre new inv_new
  have hinvd := inv_call (Collaborators.total hs hc) _ (Call.set (Setter.addDataProcessing d))
    hinv1
  have hf := total_run_dataProcessing hs hc post _ hinvd hpost
  have hrun : run (Collaborators.total hs hc) new
      (pre ++ Call.set (Setter.addDataProcessing d) :: post)
      = run (Collaborators.total hs hc)
          (call (Collaborators.total hs hc) (run (Collaborators.total hs hc) new pre)
            (Call.set (Setter.addDataProcessing d))).state post := by
    rw [run_append]; rfl
  rw [hrun, hf.1, hf.2]
  exact ⟨rfl, rfl⟩

/-- C29: (hooks and encoder that do not throw) `addDataProcessing` replaces the
configured descriptor: after `addDataProcessing(d1)` and later
`addDataProcessing(d2)`, whatever calls other than `addDataProcessing` come
before, between and after, every accepted record is rendered with the list of
the hook-transformed record followed by `d2` alone, one element longer than
that list. -/
theorem addDataProcessing_replaces
    (hs : SpectrumType → SpectrumType) (hc : ChromatogramType → ChromatogramType)
    (cs1 cs2 cs3 : List Call) (d1 d2 : DataProcessing) (s : SpectrumType)
    (c : ChromatogramType) (h3 : ∀ a ∈ cs3, a.isAddDataProcessing = false) :
    ((run (Collaborators.total hs hc) new
          (cs1 ++ Call.set (Setter.addDataProcessing d1)
            :: (cs2 ++ Call.set (Setter.addDataProcessing d2) :: cs3))).writing_chromatograms_
        = false →
      ((run (Collaborators.total hs hc) new
          (cs1 ++ Call.set (Setter.addDataProcessing d1)
            :: (cs2 ++ Call.set (Setter.addDataProcessing d2) :: cs3))).consumeSpectrum
          (Collaborators.total hs hc) s).state.ofs.content.getLast?
        = some (Token.spectrum ((hs s).pushDataProcessing d2)
            (run (Collaborators.total hs hc) new
              (cs1 ++ Call.set (Setter.addDataProcessing d1)
                :: (cs2 ++ Call.set (Setter.addDataProcessing d2) :: cs3))).spectra_written_
            false))
    ∧ ((run (Collaborators.total hs hc) new
          (cs1 ++ Call.set (Setter.addDataProcessing d1)
            :: (cs2 ++ Call.set (Setter.addDataProcessing d2) :: cs3))).consumeChromatogram
          (Collaborators.total hs hc) c).state.ofs.content.getLast?
        = some (Token.chromatogram ((hc c).pushDataProcessing d2)
            (run (Collaborators.total hs hc) new
              (cs1 ++ Call.set (Setter.addDataProcessing d1)
                :: (cs2 ++ Call.set (Setter.addDataProcessing d2)
                  :: cs3))).chromatograms_written_)
    ∧ ((hs s).pushDataProcessing d2).dataProcessing = (hs s).dataProcessing ++ [d2]
    ∧ ((hs s).pushDataProcessing d2).dataProcessing.length
        = (hs s).dataProcessing.length + 1
    ∧ ((hc c).pushDataProcessing d2).dataProcessing = (hc c).dataProcessing ++ [d2]
    ∧ ((hc c).pushDataProcessing d2).dataProcessing.length
        = (hc c).dataProcessing.length + 1 := by
  have hl : cs1 ++ Call.set (Setter.addDataProcessing d1)
      :: (cs2 ++ Call.set (Setter.addDataProcessing d2) :: cs3)
      = (cs1 ++ Call.set (Setter.addDataProcessing d1) :: cs2)
        ++ Call.set (Setter.addDataProcessing d2) :: cs3 := by
    simp
  rw [hl]
  have hf := total_run_after_addDataProcessing hs hc
    (cs1 ++ Call.set (Setter.addDataProcessing d1) :: cs2) cs3 d2 h3
  have hinv := inv_run (Collaborators.total hs hc)
    ((cs1 ++ Call.set (Setter.addDataProcessing d1) :: cs2)
      ++ Call.set (Setter.addDataProcessing d2) :: cs3) new inv_new
  refine ⟨?_, ?_, rfl, ?_, rfl, ?_⟩
  · intro hwc
    rw [total_consumeSpectrum_last hs hc _ s hinv.live hwc, hf.1, hf.2]
    rfl
  · rw [total_consumeChromatogram_last hs hc _ c hinv.live, hf.1, hf.2]
    rfl
  · simp [SpectrumType.pushDataProcessing]
  · simp [ChromatogramType.pushDataProcessing]

/-- C29, concrete instance: two descriptors are configured in turn, then a
spectrum is consumed; it is rendered with the second descriptor only. -/
theorem addDataProcessing_replaces_witness :
    (∀ a ∈ ([] : List Call), a.isAddDataProcessing = false)
    ∧ (run PlainMSDataWritingConsumer new
        ([] ++ Call.set (Setter.addDataProcessing { name := 1 })
          :: ([] ++ Call.set (Setter.addDataProcessing { name := 2 })
            :: []))).writing_chromatograms_ = false
    ∧ ((run PlainMSDataWritingConsumer new
        ([] ++ Call.set (Setter.addDataProcessing { name := 1 })
          :: ([] ++ Call.set (Setter.addDataProcessing { name := 2 }) :: []))).consumeSpectrum
        PlainMSDataWritingConsumer exampleSpectrum).state.ofs.content.getLast?
      = some (Token.spectrum
          { rt := 10, ms_level := 1, peaks := [(100, 5), (200, 7)],
            dataProcessing := [{ name := 2 }] } 0 false) :=
  ⟨by decide, by decide,
    ((addDataProcessing_replaces (fun s => s) (fun c => c) [] [] []
      { name := 1 } { name := 2 } exampleSpectrum exampleChromatogram (by decide)).1
        (by decide)).trans (by decide)⟩

theorem executeQueries_eq_executeInOrder {σ : Type} (trim : String → String)
    (executeQuery : σ → String → σ × Option DBConnection.QueryError) (db : σ)
    (queries : List String) :
    DBConnection.executeQueries trim executeQuery db queries
      = DBConnection.executeInOrder executeQuery db
          (DBConnection.queriesToExecute trim queries) := by
  induction queries generalizing db with
  | nil => rfl
  | cons it rest ih =>
    simp only [DBConnection.executeQueries, DBConnection.queriesToExecute, List.map_cons,
      List.filter_cons]
    split
    · simp only [DBConnection.executeInOrder]
      split
      · rfl
      · exact ih _
    · exact ih _

theorem executeInOrder_recording_valid (invalid : String → Option DBConnection.QueryError)
    (l log : List String) (h : ∀ q ∈ l, invalid q = none) :
    DBConnection.executeInOrder (DBConnection.recordingQuery invalid) log l
      = (log ++ l, none) := by
  induction l generalizing log with
  | nil => simp [DBConnection.executeInOrder]
  | cons q qs ih =>
    have hq := h q (List.mem_cons_self _ _)
    simp only [DBConnection.executeInOrder, DBConnection.recordingQuery, hq]
    rw [ih _ (fun x hx => h x (List.mem_cons_of_mem _ hx))]
    simp

theorem executeInOrder_recording_invalid (invalid : String → Option DBConnection.QueryError)
    (pre post log : List String) (q : String) (e : DBConnection.QueryError)
    (h : ∀ x ∈ pre, invalid x = none) (hq : invalid q = some e) :
    DBConnection.executeInOrder (DBConnection.recordingQuery invalid) log (pre ++ q :: post)
      = (log ++ pre ++ [q], some e) := by
  induction pre generalizing log with
  | nil => simp [DBConnection.executeInOrder, DBConnection.recordingQuery, hq]
  | cons x xs ih =>
    have hx := h x (List.mem_cons_self _ _)
    have hi := ih (log ++ [x]) (fun y hy => h y (List.mem_cons_of_mem _ hy))
    show DBConnection.executeInOrder (DBConnection.recordingQuery invalid) log
      (x :: (xs ++ q :: post)) = _
    simp only [DBConnection.executeInOrder, DBConnection.recordingQuery, hx]
    rw [hi]
    simp

/-- C25: for every container of strings, `executeQueries` behaves as executing,
in container order and until the first exception, exactly the entries that are
not empty after trimming, each passed in its trimmed form; no executed entry is
empty.  On a connection that records its `executeQuery` calls: when no call
throws, the calls made are exactly those entries, once each and in order; when
a call throws, the exception leaves `executeQueries` and the calls made end
with the throwing one, so no later entry is executed. -/
theorem executeQueries_trimmed_nonempty_in_order (σ : Type) (trim : String → String)
    (queries : List String) :
    (∀ (executeQuery : σ → String → σ × Option DBConnection.QueryError) (db : σ),
        DBConnection.executeQueries trim executeQuery db queries
          = DBConnection.executeInOrder executeQuery db
              (DBConnection.queriesToExecute trim queries))
    ∧ (∀ line ∈ DBConnection.queriesToExecute trim queries,
        line ≠ "" ∧ ∃ q ∈ queries, line = trim q)
    ∧ (∀ invalid : String → Option DBConnection.QueryError,
        (∀ q ∈ DBConnection.queriesToExecute trim queries, invalid q = none) →
        DBConnection.executeQueries trim (DBConnection.recordingQuery invalid) [] queries
          = (DBConnection.queriesToExecute trim queries, none))
    ∧ (∀ (invalid : String → Option DBConnection.QueryError) (pre post : List String)
        (q : String) (e : DBConnection.QueryError),
        DBConnection.queriesToExecute trim queries = pre ++ q :: post →
        (∀ x ∈ pre, invalid x = none) → invalid q = some e →
        DBConnection.executeQueries trim (DBConnection.recordingQuery invalid) [] queries
          = (pre ++ [q], some e)) := by
  refine ⟨fun executeQuery db => executeQueries_eq_executeInOrder trim executeQuery db queries,
    ?_, ?_, ?_⟩
  · intro line hl
    simp only [DBConnection.queriesToExecute, List.mem_filter, List.mem_map] at hl
    obtain ⟨⟨q, hq, rfl⟩, hne⟩ := hl
    exact ⟨by simpa using hne, q, hq, rfl⟩
  · intro invalid h
    rw [executeQueries_eq_executeInOrder, executeInOrder_recording_valid invalid _ [] h]
    simp
  · intro invalid pre post q e hsplit h hq
    rw [executeQueries_eq_executeInOrder, hsplit,
      executeInOrder_recording_invalid invalid pre post [] q e h hq]
    simp

/-- C25 at a concrete input: of the entries `" a "`, `""`, `"  "`, `"bad "`, `"b"`,
with `executeQuery` throwing `InvalidQuery` on `"bad"`, the calls made are
`"a"` and `"bad"`, and the exception leaves `executeQueries`. -/
theorem executeQueries_trimmed_nonempty_in_order_witness :
    DBConnection.executeQueries DBConnection.trimBlanks
        (DBConnection.recordingQuery fun q =>
          if q = "bad" then some DBConnection.QueryError.invalidQuery else none)
        [] [" a ", "", "  ", "bad ", "b"]
      = (["a", "bad"], some DBConnection.QueryError.invalidQuery) :=
  (executeQueries_trimmed_nonempty_in_order (List String) DBConnection.trimBlanks
    [" a ", "", "  ", "bad ", "b"]).2.2.2
    (fun q => if q = "bad" then some DBConnection.QueryError.invalidQuery else none)
    ["a"] ["b"] "bad" DBConnection.QueryError.invalidQuery
    (by decide) (by decide) (by decide)

/-! ## GaussFitter -/

/-- Column 0 of the Jacobian row is the partial derivative of the residual with
respect to `A`. -/
theorem residual_hasDerivAt_A (A x0 sig : ℝ) (it : ℝ × ℝ) :
    HasDerivAt (fun a => Math.GaussFitter.residual Real.exp a x0 sig it)
      (Math.GaussFitter.jacobianRow Real.exp A x0 sig it).1 A := by
  unfold Math.GaussFitter.residual Math.GaussFitter.jacobianRow
  have h := ((hasDerivAt_id A).mul_const
    (Real.exp (-1 * (it.1 - x0) ^ 2 / (2 * sig ^ 2)))).sub_const it.2
  simpa using h

/-- Column 1 of the Jacobian row is the partial derivative of the residual with
respect to `x0`. -/
theorem residual_hasDerivAt_x0 (A x0 sig : ℝ) (it : ℝ × ℝ) :
    HasDerivAt (fun t => Math.GaussFitter.residual Real.exp A t sig it)
      (Math.GaussFitter.jacobianRow Real.exp A x0 sig it).2.1 x0 := by
  unfold Math.GaussFitter.residual Math.GaussFitter.jacobianRow
  have h1 : HasDerivAt (fun t : ℝ => it.1 - t) (-1) x0 := by
    simpa using (hasDerivAt_id x0).const_sub it.1
  have h2 := (((h1.pow 2).const_mul (-1 : ℝ)).div_const (2 * sig ^ 2))
  have h3 := ((h2.exp).const_mul A).sub_const it.2
  convert h3 using 1
  simp only [Nat.cast_ofNat, Nat.add_one_sub_one, pow_one]
  ring

/-- The partial derivative of the residual with respect to `sig`, for
`sig ≠ 0`, is `A * exp (..) * ((x_i - x0) ^ 2 / sig ^ 3)`. -/
theorem residual_hasDerivAt_sig (A x0 sig : ℝ) (it : ℝ × ℝ) (hs : sig ≠ 0) :
    HasDerivAt (fun t => Math.GaussFitter.residual Real.exp A x0 t it)
      (A * Real.exp (-1 * (it.1 - x0) ^ 2 / (2 * sig ^ 2)) * ((it.1 - x0) ^ 2 / sig ^ 3)) sig := by
  unfold Math.GaussFitter.residual
  have h1 : HasDerivAt (fun t : ℝ => 2 * t ^ 2) (2 * (2 * sig)) sig := by
    simpa using ((hasDerivAt_id sig).pow 2).const_mul (2 : ℝ)
  have hne : 2 * sig ^ 2 ≠ 0 := by positivity
  have h2 := (hasDerivAt_const sig (-1 * (it.1 - x0) ^ 2)).div h1 hne
  have h3 := ((h2.exp).const_mul A).sub_const it.2
  convert h3 using 1
  field_simp
  ring

/-- C30 fails in the code for the column of `sigma`: at `(A, x0, sigma) = (1, 0, 1)`
and the data point `(1, 0)`, `gaussFitterf_` writes the residual at that point
and `gaussFitterdf_` writes the row `(exp (-1/2), exp (-1/2), exp (-1/2) / 4)`.
The first two entries are the partial derivatives of the residual with respect
to `A` and `x0`; the partial derivative with respect to `sigma` is `exp (-1/2)`,
four times the third entry, and the third entry is not a derivative of the
residual in `sigma`. -/
theorem gaussFitterdf_sigma_column_is_quarter_of_derivative :
    Math.GaussFitter.gaussFitterf_ Real.exp (1, 0, 1) [(1, 0)]
        = [Math.GaussFitter.residual Real.exp 1 0 1 (1, 0)]
    ∧ Math.GaussFitter.gaussFitterdf_ Real.exp (1, 0, 1) [(1, 0)]
        = [(Real.exp (-1 / 2), Real.exp (-1 / 2), Real.exp (-1 / 2) / 4)]
    ∧ HasDerivAt (fun a => Math.GaussFitter.residual Real.exp a 0 1 (1, 0))
        (Real.exp (-1 / 2)) 1
    ∧ HasDerivAt (fun t => Math.GaussFitter.residual Real.exp 1 t 1 (1, 0))
        (Real.exp (-1 / 2)) 0
    ∧ HasDerivAt (fun t => Math.GaussFitter.residual Real.exp 1 0 t (1, 0))
        (Real.exp (-1 / 2)) 1
    ∧ ¬ HasDerivAt (fun t => Math.GaussFitter.residual Real.exp 1 0 t (1, 0))
        (Real.exp (-1 / 2) / 4) 1 := by
  have hrow : Math.GaussFitter.jacobianRow Real.exp 1 0 1 ((1 : ℝ), (0 : ℝ))
      = (Real.exp (-1 / 2), Real.exp (-1 / 2), Real.exp (-1 / 2) / 4) := by
    unfold Math.GaussFitter.jacobianRow
    norm_num
    ring
  have hA := residual_hasDerivAt_A 1 0 1 ((1 : ℝ), (0 : ℝ))
  have hx := residual_hasDerivAt_x0 1 0 1 ((1 : ℝ), (0 : ℝ))
  have hs := residual_hasDerivAt_sig 1 0 1 ((1 : ℝ), (0 : ℝ)) one_ne_zero
  rw [hrow] at hA hx
  have hval : (1 : ℝ) * Real.exp (-1 * ((1 : ℝ) - 0) ^ 2 / (2 * 1 ^ 2)) * ((1 - 0) ^ 2 / 1 ^ 3)
      = Real.exp (-1 / 2) := by
    norm_num
  rw [show (((1 : ℝ), (0 : ℝ)) : ℝ × ℝ).1 = 1 from rfl, hval] at hs
  refine ⟨rfl, ?_, hA, hx, hs, ?_⟩
  · show [Math.GaussFitter.jacobianRow Real.exp 1 0 1 ((1 : ℝ), (0 : ℝ))] = _
    rw [hrow]
  · intro h
    have hu := h.unique hs
    have hpos := Real.exp_pos (-1 / 2)
    linarith

/-! ## Collaborators that throw: ordering, footer, sections and counters -/

theorem consume_returned_flags (K : Collaborators) (w : MSDataWritingConsumer)
    (s : SpectrumType) (c : ChromatogramType) :
    ((w.consumeSpectrum K s).outcome = .returned →
        (w.consumeSpectrum K s).state.started_writing_ = true
        ∧ (w.consumeSpectrum K s).state.writing_spectra_ = true)
    ∧ ((w.consumeChromatogram K c).outcome = .returned →
        (w.consumeChromatogram K c).state.started_writing_ = true
        ∧ (w.consumeChromatogram K c).state.writing_chromatograms_ = true) := by
  rcases w with ⟨⟨o, ct⟩, st, ws, wc, nsw, ncw, nse, nce, adp, v, se, dp, so, co, hk⟩
  constructor
  · cases wc with
    | true => simp [consumeSpectrum]
    | false =>
      cases hp : K.processSpectrum_ s with
      | none => simp [consumeSpectrum, hp]
      | some p =>
        cases hth : K.writeHeaderThrows
            (MapType.ofSpectrum se (if adp = true then p.pushDataProcessing dp else p)) <;>
          cases hts : K.writeSpectrumThrows
            (if adp = true then p.pushDataProcessing dp else p) <;>
          cases st <;> cases ws <;> cases v <;>
          simp [consumeSpectrum, writeHeader_, writeSpectrum_, Result.andThen, hp, hth, hts]
  · cases hp : K.processChromatogram_ c with
    | none => cases ws <;> simp [consumeChromatogram, hp]
    | some p =>
      cases hth : K.writeHeaderThrows
          (MapType.ofChromatogram se (if adp = true then p.pushDataProcessing dp else p)) <;>
        cases hts : K.writeChromatogramThrows
          (if adp = true then p.pushDataProcessing dp else p) <;>
        cases st <;> cases ws <;> cases wc <;> cases v <;>
        simp [consumeChromatogram, writeHeader_, writeChromatogram_, Result.andThen, hp, hth,
          hts]

theorem accepted_started (K : Collaborators) (cs : List Call) (w : MSDataWritingConsumer)
    (h : accepted K w cs ≠ []) : (run K w cs).started_writing_ = true := by
  induction cs generalizing w with
  | nil => simp [accepted] at h
  | cons a cs ih =>
    simp only [run]
    by_cases hacc : a.isConsume = true ∧ (call K w a).outcome = .returned
    · apply (flags_kept_run K cs (call K w a).state).1
      cases a with
      | set q => simp [Call.isConsume] at hacc
      | consumeSpectrum s => exact ((consume_returned_flags K w s exampleChromatogram).1 hacc.2).1
      | consumeChromatogram c =>
        exact ((consume_returned_flags K w exampleSpectrum c).2 hacc.2).1
    · apply ih
      simpa [accepted, hacc] using h

theorem accepted_chromatogram_opened (K : Collaborators) (cs : List Call)
    (w : MSDataWritingConsumer) (h : ∃ c, Call.consumeChromatogram c ∈ accepted K w cs) :
    (run K w cs).writing_chromatograms_ = true := by
  induction cs generalizing w with
  | nil => simp [accepted] at h
  | cons a cs ih =>
    obtain ⟨c, hc⟩ := h
    simp only [run]
    simp only [accepted, List.mem_append] at hc
    rcases hc with hc | hc
    · apply (flags_kept_run K cs (call K w a).state).2
      by_cases hacc : a.isConsume = true ∧ (call K w a).outcome = .returned
      · rw [if_pos hacc, List.mem_singleton] at hc
        subst hc
        exact ((consume_returned_flags K w exampleSpectrum c).2 hacc.2).2
      · rw [if_neg hacc] at hc
        cases hc
    · exact ih _ ⟨c, hc⟩

theorem chromatogramsOpened_consumeSpectrum (K : Collaborators) (w : MSDataWritingConsumer)
    (s : SpectrumType) (hl : Live w) (h : ChromatogramsOpened w) :
    ChromatogramsOpened (w.consumeSpectrum K s).state := by
  obtain ⟨hv, ho⟩ := hl
  rcases w with ⟨⟨o, ct⟩, st, ws, wc, nsw, ncw, nse, nce, adp, v, se, dp, so, co, hk⟩
  simp only [ChromatogramsOpened] at h ⊢
  simp only at hv ho h
  subst hv ho
  cases wc with
  | true => simpa [consumeSpectrum] using h
  | false =>
    cases hp : K.processSpectrum_ s with
    | none => simpa [consumeSpectrum, hp] using h
    | some p =>
      cases hth : K.writeHeaderThrows
          (MapType.ofSpectrum se (if adp = true then p.pushDataProcessing dp else p)) <;>
        cases hts : K.writeSpectrumThrows
          (if adp = true then p.pushDataProcessing dp else p) <;>
        cases st <;> cases ws <;>
        simp [consumeSpectrum, writeHeader_, writeSpectrum_, Result.andThen, hp, hth, hts,
          OfStream.write, Token.isChromatogramListOpen, ← h]

theorem chromatogramsOpened_consumeChromatogram (K : Collaborators)
    (w : MSDataWritingConsumer) (c : ChromatogramType) (hl : Live w)
    (h : ChromatogramsOpened w) : ChromatogramsOpened (w.consumeChromatogram K c).state := by
  obtain ⟨hv, ho⟩ := hl
  rcases w with ⟨⟨o, ct⟩, st, ws, wc, nsw, ncw, nse, nce, adp, v, se, dp, so, co, hk⟩
  simp only [ChromatogramsOpened] at h ⊢
  simp only at hv ho h
  subst hv ho
  cases hp : K.processChromatogram_ c with
  | none =>
    cases ws <;>
      simp [consumeChromatogram, hp, OfStream.write, Token.isChromatogramListOpen, ← h]
  | some p =>
    cases hth : K.writeHeaderThrows
        (MapType.ofChromatogram se (if adp = true then p.pushDataProcessing dp else p)) <;>
      cases hts : K.writeChromatogramThrows
        (if adp = true then p.pushDataProcessing dp else p) <;>
      cases st <;> cases ws <;> cases wc <;>
      simp [consumeChromatogram, writeHeader_, writeChromatogram_, Result.andThen, hp, hth,
        hts, OfStream.write, Token.isChromatogramListOpen, ← h]

theorem chromatogramsOpened_run (K : Collaborators) (cs : List Call)
    (w : MSDataWritingConsumer) (hi : Inv w) (h : ChromatogramsOpened w) :
    ChromatogramsOpened (run K w cs) := by
  induction cs generalizing w with
  | nil => exact h
  | cons a cs ih =>
    refine ih _ (inv_call K w a hi) ?_
    cases a with
    | set q => cases q <;> exact h
    | consumeSpectrum s => exact chromatogramsOpened_consumeSpectrum K w s hi.live h
    | consumeChromatogram c => exact chromatogramsOpened_consumeChromatogram K w c hi.live h

theorem consumeSpectrum_returned_iff (K : Collaborators) (w : MSDataWritingConsumer)
    (s : SpectrumType) (hl : Live w) (hwc : w.writing_chromatograms_ = false) :
    ((w.consumeSpectrum K s).outcome = .returned ↔
      ∃ p, K.processSpectrum_ s = some p
        ∧ (w.started_writing_ = true
          ∨ K.writeHeaderThrows (MapType.ofSpectrum w.settings_
              (if w.add_dataprocessing_ then p.pushDataProcessing w.additional_dataprocessing_
                else p)) = false)
        ∧ K.writeSpectrumThrows
            (if w.add_dataprocessing_ then p.pushDataProcessing w.additional_dataprocessing_
              else p) = false)
    ∧ (K.processSpectrum_ s = none → (w.consumeSpectrum K s).outcome = .hookThrew)
    ∧ ((w.consumeSpectrum K s).outcome = .returned
      ∨ (w.consumeSpectrum K s).outcome = .hookThrew
      ∨ (w.consumeSpectrum K s).outcome = .encoderThrew) := by
  obtain ⟨hv, ho⟩ := hl
  rcases w with ⟨⟨o, ct⟩, st, ws, wc, nsw, ncw, nse, nce, adp, v, se, dp, so, co, hk⟩
  simp only at hv ho hwc
  subst hv ho hwc
  cases hp : K.processSpectrum_ s with
  | none => simp [consumeSpectrum, hp]
  | some p =>
    cases hth : K.writeHeaderThrows
        (MapType.ofSpectrum se (if adp = true then p.pushDataProcessing dp else p)) <;>
      cases hts : K.writeSpectrumThrows
        (if adp = true then p.pushDataProcessing dp else p) <;>
      cases st <;> cases ws <;>
      simp [consumeSpectrum, writeHeader_, writeSpectrum_, Result.andThen, hp, hth, hts]

/-- C1, refuted as stated: with an encoder that throws on the chromatogram, a
`consumeChromatogram` call on a new object does not succeed, yet it has opened
the chromatogram section, and the next `consumeSpectrum` throws
`Exception::IllegalArgument` although no `consumeChromatogram` call succeeded.
And on a new object, where no section is open, `consumeSpectrum` with a hook
that throws does not succeed. -/
theorem consumeSpectrum_rejected_without_accepted_chromatogram :
    (new.consumeChromatogram chromatogramEncoderThrows exampleChromatogram).outcome
        = .encoderThrew
    ∧ accepted chromatogramEncoderThrows new [Call.consumeChromatogram exampleChromatogram] = []
    ∧ (run chromatogramEncoderThrows new
        [Call.consumeChromatogram exampleChromatogram]).writing_chromatograms_ = true
    ∧ ((run chromatogramEncoderThrows new
          [Call.consumeChromatogram exampleChromatogram]).consumeSpectrum
        chromatogramEncoderThrows exampleSpectrum).outcome = .illegalArgument
    ∧ new.writing_chromatograms_ = false
    ∧ (new.consumeSpectrum spectrumHookThrows exampleSpectrum).outcome = .hookThrew := by
  decide

/-- C1, amended: on an object reached by any calls, whatever the hooks and the
encoder do, `consumeSpectrum` throws `Exception::IllegalArgument` exactly when
`writing_chromatograms_` is set, which is exactly when the chromatogramList
open tag is in the file.  An earlier accepted `consumeChromatogram` call is
enough for that.  In every other state `consumeSpectrum` returns normally
exactly when its hook returns and no encoder call it makes throws; otherwise
it ends with the exception of the hook or of the encoder.  With hooks and an
encoder that do not throw, the flag is set exactly when an earlier
`consumeChromatogram` call was accepted, and in every other state
`consumeSpectrum` returns normally. -/
theorem consumeSpectrum_throws_iff_chromatograms_opened (K : Collaborators)
    (hs : SpectrumType → SpectrumType) (hc : ChromatogramType → ChromatogramType)
    (cs : List Call) (s : SpectrumType) :
    (((run K new cs).consumeSpectrum K s).outcome = .illegalArgument
      ↔ (run K new cs).writing_chromatograms_ = true)
    ∧ ((run K new cs).writing_chromatograms_ = true
      ↔ ∃ n, Token.chromatogramListOpen n ∈ (run K new cs).ofs.content)
    ∧ ((∃ c, Call.consumeChromatogram c ∈ accepted K new cs) →
        (run K new cs).writing_chromatograms_ = true)
    ∧ ((run K new cs).writing_chromatograms_ = false →
        (((run K new cs).consumeSpectrum K s).outcome = .returned ↔
          ∃ p, K.processSpectrum_ s = some p
            ∧ ((run K new cs).started_writing_ = true
              ∨ K.writeHeaderThrows (MapType.ofSpectrum (run K new cs).settings_
                  (if (run K new cs).add_dataprocessing_
                    then p.pushDataProcessing (run K new cs).additional_dataprocessing_
                    else p)) = false)
            ∧ K.writeSpectrumThrows
                (if (run K new cs).add_dataprocessing_
                  then p.pushDataProcessing (run K new cs).additional_dataprocessing_
                  else p) = false)
        ∧ (K.processSpectrum_ s = none →
            ((run K new cs).consumeSpectrum K s).outcome = .hookThrew)
        ∧ (((run K new cs).consumeSpectrum K s).outcome = .returned
          ∨ ((run K new cs).consumeSpectrum K s).outcome = .hookThrew
          ∨ ((run K new cs).consumeSpectrum K s).outcome = .encoderThrew))
    ∧ ((run (Collaborators.total hs hc) new cs).writing_chromatograms_ = true
      ↔ ∃ c, Call.consumeChromatogram c ∈ accepted (Collaborators.total hs hc) new cs)
    ∧ ((run (Collaborators.total hs hc) new cs).writing_chromatograms_ = false →
        ((run (Collaborators.total hs hc) new cs).consumeSpectrum
          (Collaborators.total hs hc) s).outcome = .returned) := by
  have hinv := inv_run K cs new inv_new
  have hopen := chromatogramsOpened_run K cs new inv_new (by simp [ChromatogramsOpened, new])
  have hold := consumeSpectrum_throws_iff_chromatogram_accepted hs hc cs s
  refine ⟨consumeSpectrum_outcome_iff _ _ s, ?_, accepted_chromatogram_opened K cs new,
    fun hwc => consumeSpectrum_returned_iff K _ s hinv.live hwc, hold.2.1, ?_⟩
  · rw [hopen, List.any_eq_true]
    constructor
    · rintro ⟨t, ht, hti⟩
      cases t <;> simp [Token.isChromatogramListOpen] at hti
      exact ⟨_, ht⟩
    · rintro ⟨n, hn⟩
      exact ⟨_, hn, rfl⟩
  · intro hwc
    rcases hold.2.2 with h | h
    · rw [hold.1, hwc] at h
      cases h
    · exact h

/-- C1, concrete instance of the amended claim: a chromatogram accepted on a new
object sets `writing_chromatograms_`. -/
theorem consumeSpectrum_throws_iff_chromatograms_opened_witness :
    (∃ c, Call.consumeChromatogram c
        ∈ accepted PlainMSDataWritingConsumer new [Call.consumeChromatogram exampleChromatogram])
    ∧ (run PlainMSDataWritingConsumer new
        [Call.consumeChromatogram exampleChromatogram]).writing_chromatograms_ = true :=
  ⟨⟨exampleChromatogram, by decide⟩,
    (consumeSpectrum_throws_iff_chromatograms_opened PlainMSDataWritingConsumer
      (fun s => s) (fun c => c) [Call.consumeChromatogram exampleChromatogram]
      exampleSpectrum).2.2.1 ⟨exampleChromatogram, by decide⟩⟩

/-- C6, refuted as stated: with an encoder that throws on the spectrum, the one
`consumeSpectrum` call on a new object is not accepted, yet the header has been
written and `doCleanup` writes the footer. -/
theorem footer_written_without_accepted_call :
    accepted spectrumEncoderThrows new [Call.consumeSpectrum exampleSpectrum] = []
    ∧ (run spectrumEncoderThrows new [Call.consumeSpectrum exampleSpectrum]).ofs.content
        = [Token.header (MapType.ofSpectrum default exampleSpectrum),
           Token.spectrumListOpen 0]
    ∧ output spectrumEncoderThrows new [Call.consumeSpectrum exampleSpectrum]
        = [Token.header (MapType.ofSpectrum default exampleSpectrum),
           Token.spectrumListOpen 0,
           Token.spectrumListClose,
           Token.footer [] []] := by
  decide

/-- C6, amended: after any calls on a new object, whatever the hooks and the
encoder do, no footer is in the file before the destructor runs, and
`doCleanup` writes the footer exactly when the header is in the file, which
is exactly when `started_writing_` is set.  An accepted consume call is enough
for that.  With hooks and an encoder that do not throw, the footer is written
exactly when at least one consume call was accepted. -/
theorem footer_iff_header_written (K : Collaborators)
    (hs : SpectrumType → SpectrumType) (hc : ChromatogramType → ChromatogramType)
    (cs : List Call) :
    (∀ t ∈ (run K new cs).ofs.content, t.isFooter = false)
    ∧ ((∃ so co, Token.footer so co ∈ output K new cs)
      ↔ ∃ dummy, Token.header dummy ∈ (run K new cs).ofs.content)
    ∧ ((∃ dummy, Token.header dummy ∈ (run K new cs).ofs.content)
      ↔ (run K new cs).started_writing_ = true)
    ∧ (accepted K new cs ≠ [] → ∃ so co, Token.footer so co ∈ output K new cs)
    ∧ ((∃ so co, Token.footer so co ∈ output (Collaborators.total hs hc) new cs)
      ↔ accepted (Collaborators.total hs hc) new cs ≠ []) := by
  have hinv := inv_run K cs new inv_new
  refine ⟨inv_no_footer _ hinv, ?_, inv_header_mem_iff _ hinv, ?_, ?_⟩
  · rw [footer_mem_output_iff, inv_header_mem_iff _ hinv]
  · intro h
    rw [footer_mem_output_iff]
    exact accepted_started K cs new h
  · rw [footer_mem_output_iff, total_run_started hs hc cs new inv_new]
    simp [new]

/-- C6, concrete instance of the amended claim: one spectrum is accepted on a
new object, and the destructor writes the footer. -/
theorem footer_iff_header_written_witness :
    accepted PlainMSDataWritingConsumer new [Call.consumeSpectrum exampleSpectrum] ≠ []
    ∧ ∃ so co, Token.footer so co
        ∈ output PlainMSDataWritingConsumer new [Call.consumeSpectrum exampleSpectrum] :=
  ⟨by decide,
    (footer_iff_header_written PlainMSDataWritingConsumer (fun s => s) (fun c => c)
      [Call.consumeSpectrum exampleSpectrum]).2.2.2.1 (by decide)⟩

/-- C7, the code at the failing input: one spectrum is consumed, then
`consumeChromatogram` is called with a hook that throws, then the object is
destroyed.  When `doCleanup` runs, the spectra section has been closed in the
file and no section is open there, but `writing_spectra_` is still set; so
`doCleanup` writes a spectrumList close tag that matches no open section, and
the footer after it. -/
theorem close_tag_written_with_no_section_open :
    (run chromatogramHookThrows new
        [Call.consumeSpectrum exampleSpectrum,
         Call.consumeChromatogram exampleChromatogram]).ofs.content
      = [Token.header (MapType.ofSpectrum default exampleSpectrum),
         Token.spectrumListOpen 0,
         Token.spectrum exampleSpectrum 0 false,
         Token.spectrumListClose]
    ∧ openSection (run chromatogramHookThrows new
        [Call.consumeSpectrum exampleSpectrum,
         Call.consumeChromatogram exampleChromatogram]).ofs.content = none
    ∧ openFlag (run chromatogramHookThrows new
        [Call.consumeSpectrum exampleSpectrum,
         Call.consumeChromatogram exampleChromatogram]) = some Section.spectra
    ∧ output chromatogramHookThrows new
        [Call.consumeSpectrum exampleSpectrum, Call.consumeChromatogram exampleChromatogram]
      = (run chromatogramHookThrows new
          [Call.consumeSpectrum exampleSpectrum,
           Call.consumeChromatogram exampleChromatogram]).ofs.content
        ++ [Token.spectrumListClose, Token.footer [2] []] := by
  decide

theorem wellSectioned_spectrumListClose_le_one (out : List Token) (h : WellSectioned out) :
    out.countP Token.isSpectrumListClose ≤ 1 := by
  rcases h with h | ⟨dummy, sec1, sec2, so, co, hout, h1, h2⟩
  · subst h
    simp
  · subst hout
    have e1 : sec1.countP Token.isSpectrumListClose ≤ 1 := by
      rcases h1 with h1 | ⟨n, toks, h1, ht⟩
      · subst h1
        simp
      · subst h1
        have h0 : toks.countP Token.isSpectrumListClose = 0 := by
          rw [List.countP_eq_zero]
          intro t hm
          have := ht t hm
          cases t <;> simp [Token.isSpectrum] at this
          simp [Token.isSpectrumListClose]
        simp [List.countP_cons, List.countP_append, Token.isSpectrumListClose, h0]
    have e2 : sec2.countP Token.isSpectrumListClose = 0 := by
      rcases h2 with h2 | ⟨m, toks, h2, ht⟩
      · subst h2
        simp
      · subst h2
        have h0 : toks.countP Token.isSpectrumListClose = 0 := by
          rw [List.countP_eq_zero]
          intro t hm
          have := ht t hm
          cases t <;> simp [Token.isChromatogram] at this
          simp [Token.isSpectrumListClose]
        simp [List.countP_cons, List.countP_append, Token.isSpectrumListClose, h0]
    simp only [List.countP_cons, List.countP_append, List.countP_nil, Token.isSpectrumListClose,
      e2]
    simpa using e1

/-- C11, the code at the failing input: one spectrum is consumed, then
`consumeChromatogram` is called with a hook that throws, then the object is
destroyed.  The file left is the header, the spectrumList open tag, the
spectrum, the spectrumList close tag twice and the footer: the spectra section
is opened once and closed twice, and the output is not sectioned as the claim
says. -/
theorem output_not_well_sectioned :
    output chromatogramHookThrows new
        [Call.consumeSpectrum exampleSpectrum, Call.consumeChromatogram exampleChromatogram]
      = [Token.header (MapType.ofSpectrum default exampleSpectrum),
         Token.spectrumListOpen 0,
         Token.spectrum exampleSpectrum 0 false,
         Token.spectrumListClose,
         Token.spectrumListClose,
         Token.footer [2] []]
    ∧ ¬ WellSectioned (output chromatogramHookThrows new
        [Call.consumeSpectrum exampleSpectrum,
         Call.consumeChromatogram exampleChromatogram]) := by
  refine ⟨by decide, fun h => ?_⟩
  have hle := wellSectioned_spectrumListClose_le_one _ h
  have h2 : (output chromatogramHookThrows new
      [Call.consumeSpectrum exampleSpectrum,
       Call.consumeChromatogram exampleChromatogram]).countP Token.isSpectrumListClose = 2 := by
    decide
  omega

/-- C18, the code at the failing input: on a new object, with an encoder that
throws on the spectrum, the one `consumeSpectrum` call ends with the exception
of the encoder and is not accepted, yet `getNrSpectraWritten` is 1 afterwards;
likewise `getNrChromatogramsWritten` after a `consumeChromatogram` call whose
encoder throws. -/
theorem counter_counts_failed_write :
    (new.consumeSpectrum spectrumEncoderThrows exampleSpectrum).outcome = .encoderThrew
    ∧ (accepted spectrumEncoderThrows new
        [Call.consumeSpectrum exampleSpectrum]).countP Call.isConsumeSpectrum = 0
    ∧ (run spectrumEncoderThrows new
        [Call.consumeSpectrum exampleSpectrum]).getNrSpectraWritten = 1
    ∧ (new.consumeChromatogram chromatogramEncoderThrows exampleChromatogram).outcome
        = .encoderThrew
    ∧ (accepted chromatogramEncoderThrows new
        [Call.consumeChromatogram exampleChromatogram]).countP Call.isConsumeChromatogram = 0
    ∧ (run chromatogramEncoderThrows new
        [Call.consumeChromatogram exampleChromatogram]).getNrChromatogramsWritten = 1 := by
  decide

end OpenMS
